import Mathlib

/-!
# Dexed parameter layer (Source/PluginParam.cpp)

Shallow embedding of the parameter descriptors (`Ctrl`, `CtrlDX`), of the
outbound change message built by `DexedAudioProcessor::setDxValue` and of the
program switch `DexedAudioProcessor::setCurrentProgram`.

C++ `int` values are integers; C++ `float` values are rationals on which every
arithmetic operation is followed by the IEEE-754 binary32 rounding
(round to nearest, ties to even); exponent overflow to infinity is outside the
model (every value met here is far below 2^128).
-/

namespace Dexed

/-! ## Single-precision arithmetic -/

/-- Nearest integer of a rational, a tie going to the even neighbour. -/
def roundHalfEven (y : ℚ) : ℤ :=
  if y - ⌊y⌋ < 1 / 2 then ⌊y⌋
  else if 1 / 2 < y - ⌊y⌋ then ⌊y⌋ + 1
  else if ⌊y⌋ % 2 = 0 then ⌊y⌋ else ⌊y⌋ + 1

/-- Exponent of the binade a magnitude falls in, never below the exponent of
the smallest normal binary32 number (below it the subnormal grid is used). -/
def binadeExp (a : ℚ) : ℤ := max (Int.log 2 a) (-126)

/-- IEEE-754 binary32 rounding of a rational: the value is scaled by the unit
in the last place of its binade (24 significant bits), rounded to the nearest
integer with ties to even, and scaled back. -/
def roundF32 (q : ℚ) : ℚ :=
  (roundHalfEven (q / 2 ^ (binadeExp |q| - 23)) : ℚ) * 2 ^ (binadeExp |q| - 23)

/-- A rational is a binary32 value when rounding leaves it unchanged. -/
def IsF32 (q : ℚ) : Prop := roundF32 q = q

instance (q : ℚ) : Decidable (IsF32 q) := inferInstanceAs (Decidable (roundF32 q = q))

/-- Explicit form of a binary32 value: a 24-bit significand times a power of
two whose exponent is at least that of the subnormal grid. -/
def Rep (q : ℚ) : Prop := ∃ m e : ℤ, |m| < 2 ^ 24 ∧ -126 ≤ e ∧ q = (m : ℚ) * 2 ^ (e - 23)

/-- C++ conversion of an `int` to `float`. -/
def intToFloat (v : ℤ) : ℚ := roundF32 (v : ℚ)

/-- C++ conversion of a `float` to `int`: the fractional part is discarded
(truncation toward zero). Where the truncated value does not fit a 32-bit
`int` the C++ conversion is undefined; this function gives the mathematical
truncation there, and statements about the code are meant within the range
of `int`. -/
def floatToInt (q : ℚ) : ℤ := if 0 ≤ q then ⌊q⌋ else -⌊-q⌋

/-- Single-precision product. -/
def fmul (a b : ℚ) : ℚ := roundF32 (a * b)

/-- Single-precision quotient. -/
def fdiv (a b : ℚ) : ℚ := roundF32 (a / b)

/-- Single-precision difference. -/
def fsub (a b : ℚ) : ℚ := roundF32 (a - b)

/-! ## Data model -/

/-- Modelled from the spec: the slider widget of the toolkit (declared outside
PluginParam.cpp); it holds the displayed value and whether a listener is attached. -/
structure Slider where
  value : ℚ
  listener : Bool
deriving Repr, DecidableEq

/-- Modelled from the spec: the toggle widget of the toolkit. -/
structure Button where
  toggleState : Bool
  listener : Bool
deriving Repr, DecidableEq

/-- Modelled from the spec: the discrete-choice widget of the toolkit. -/
structure ComboBox where
  selectedId : ℤ
  numItems : ℤ
  listener : Bool
deriving Repr, DecidableEq

/-- Fields of the base class `Ctrl`. A bound widget is held in place of the
pointer to it, `none` standing for NULL; `parent` tells whether the parent
pointer is wired. -/
structure Ctrl where
  label : String
  slider : Option Slider
  button : Option Button
  comboBox : Option ComboBox
  idx : ℤ
  parent : Bool
deriving Repr, DecidableEq

/-- The storage cells a `CtrlFloat` may point to (`fx.uiCutoff`, `fx.uiReso`, `fx.uiGain`). -/
inductive FloatCell
  | uiCutoff
  | uiReso
  | uiGain
deriving Repr, DecidableEq

/-- Fields of `CtrlFloat`. -/
structure CtrlFloat extends Ctrl where
  vPointer : FloatCell
deriving Repr, DecidableEq

/-- Fields of `CtrlDX`. Modelled from the spec: the declaration of the member
`steps` (PluginParam.h is absent); the normalized value is the quotient
nativeValue / stepCount in [0, 1), so `steps` is a `float` member holding the
step count and `dxValue / steps` is a single-precision division. -/
structure CtrlDX extends Ctrl where
  dxValue : ℤ
  steps : ℚ
  dxOffset : ℤ
  displayValue : ℤ
deriving Repr, DecidableEq

/-- An entry of the registry `ctrl`. -/
inductive Control
  | float (c : CtrlFloat)
  | dx (c : CtrlDX)
deriving Repr, DecidableEq

/-- Modelled from the spec: the TRACE macro (declared outside PluginParam.cpp)
records a diagnostic; one constructor per call site. -/
inductive Diag
  | settingValue (offset v : ℤ)
  | valueTooBig (label : String) (v : ℤ)
  | settingDx (offset v : ℤ)
  | settingProgram (index : ℤ)
  | skippingSave
deriving Repr, DecidableEq

/-- Modelled from the spec: the calls a descriptor makes on the host side of
the processor (declared outside PluginParam.cpp): gesture begin, parameter
changed, gesture end. -/
inductive HostEvent
  | beginGesture (idx : ℤ)
  | parameterChanged (idx : ℤ) (value : ℚ)
  | endGesture (idx : ℤ)
deriving Repr, DecidableEq

/-- One synthesis voice, as far as `setCurrentProgram` touches it. -/
structure Voice where
  keydown : Bool
  live : Bool
deriving Repr, DecidableEq

/-- The members of `DexedAudioProcessor` used by PluginParam.cpp. Modelled from
the spec: their declarations (PluginProcessor.h is absent). `data` is the
voice buffer, a sequence of unsigned bytes; `midiOut` is the queue of outbound
messages, `addEvent` putting a message at its end; `lfo` holds the parameter
bytes the LFO was last reset from, `asyncUpdates` the number of calls of
`triggerAsyncUpdate`, `log` the TRACE diagnostics, `hostLog` the calls made
on the host, `editorMessage` the parameter message shown by the active editor
(`none` when `getActiveEditor()` is NULL). -/
structure DexedAudioProcessor where
  data : List ℤ
  refreshVoice : Bool
  sendSysexChange : Bool
  midiOut : List (List ℤ)
  forceRefreshUI : Bool
  currentProgram : ℤ
  lastStateSave : ℤ
  voices : List Voice
  lfo : List ℤ
  asyncUpdates : ℕ
  uiCutoff : ℚ
  uiReso : ℚ
  uiGain : ℚ
  log : List Diag
  ctrl : List Control
  hostLog : List HostEvent
  editorMessage : Option String
deriving Repr, DecidableEq

/-- C++ conversion of an `int` to `uint8`: the value modulo 256. -/
def toUint8 (v : ℤ) : ℤ := v % 256

/-! ## Ctrl -/

/-- `Ctrl::Ctrl(String name)`: the three widget pointers start NULL. The
constructor leaves `idx` and `parent` unassigned; they start at 0 and
not wired here, and `initCtrl` assigns both. -/
def Ctrl.new (name : String) : Ctrl :=
  { label := name, slider := none, button := none, comboBox := none, idx := 0, parent := false }

/-- `Ctrl::unbind()`: each bound widget loses its listener and its pointer is cleared. -/
def Ctrl.unbind (c : Ctrl) : Ctrl :=
  let c1 := if c.slider.isSome then { c with slider := none } else c
  let c2 := if c1.button.isSome then { c1 with button := none } else c1
  if c2.comboBox.isSome then { c2 with comboBox := none } else c2

/-! ## DexedAudioProcessor::setDxValue -/

/-- `DexedAudioProcessor::setDxValue(int offset, int v)`. -/
def DexedAudioProcessor.setDxValue (p : DexedAudioProcessor) (offset v : ℤ) :
    DexedAudioProcessor :=
  let p1 := { p with log := p.log ++ [Diag.settingDx offset v], refreshVoice := true }
  let p2 := if 0 ≤ offset then { p1 with data := p1.data.set offset.toNat (toUint8 v) } else p1
  if !p2.sendSysexChange then p2
  else
    { p2 with midiOut := p2.midiOut ++
        [[0xF0, 0x43, 0x10, if offset > 127 then 1 else 0, Int.land offset 0x7F,
          toUint8 v, 0xF7]] }

/-! ## CtrlDX -/

/-- `CtrlDX::CtrlDX(String name, int steps, int offset, int displayValue)`;
the assignment to the `float` member converts the step count. -/
def CtrlDX.new (name : String) (steps : ℤ) (offset : ℤ) (displayValue : ℤ) : CtrlDX :=
  { Ctrl.new name with
    dxValue := 0, steps := intToFloat steps, dxOffset := offset, displayValue := displayValue }

/-- `CtrlDX::getValueHost()`: `dxValue / steps`, the integer being converted to
`float` for the single-precision division. -/
def CtrlDX.getValueHost (c : CtrlDX) : ℚ := fdiv (intToFloat c.dxValue) c.steps

/-- `CtrlDX::setValue(int v)`; the comparison `v >= steps` converts `v` to
`float`, and `steps - 1` is a single-precision difference converted back to `int`. -/
def CtrlDX.setValue (c : CtrlDX) (p : DexedAudioProcessor) (v : ℤ) :
    CtrlDX × DexedAudioProcessor :=
  let p1 := { p with log := p.log ++ [Diag.settingValue c.dxOffset v] }
  let p2 := if c.steps ≤ intToFloat v then
    { p1 with log := p1.log ++ [Diag.valueTooBig c.label v] } else p1
  let v1 := if c.steps ≤ intToFloat v then floatToInt (fsub c.steps (intToFloat 1)) else v
  let c1 := { c with dxValue := v1 }
  if 0 ≤ c1.dxOffset then
    if c1.parent then (c1, p2.setDxValue c1.dxOffset c1.dxValue) else (c1, p2)
  else (c1, p2)

/-- `CtrlDX::setValueHost(float f)`: the single-precision product `f * steps`
is converted to `int` for `setValue`. -/
def CtrlDX.setValueHost (c : CtrlDX) (p : DexedAudioProcessor) (f : ℚ) :
    CtrlDX × DexedAudioProcessor :=
  c.setValue p (floatToInt (fmul f c.steps))

/-- `CtrlDX::getValue()`: a buffer-backed descriptor re-reads its byte into
`dxValue`. -/
def CtrlDX.getValue (c : CtrlDX) (p : DexedAudioProcessor) : CtrlDX × ℤ :=
  let c1 := if 0 ≤ c.dxOffset then { c with dxValue := p.data.getD c.dxOffset.toNat 0 } else c
  (c1, c1.dxValue)

/-- `CtrlDX::getOffset()`. -/
def CtrlDX.getOffset (c : CtrlDX) : ℤ := c.dxOffset

/-! ## Program switch -/

/-- `DexedAudioProcessor::getCurrentProgram()`. -/
def DexedAudioProcessor.getCurrentProgram (p : DexedAudioProcessor) : ℤ := p.currentProgram

/-- `DexedAudioProcessor::setCurrentProgram(int index)`. `now` is the value of
`time(NULL)`. Modelled from the spec: `unpackProgram` (defined outside
PluginParam.cpp) replaces the voice buffer by the stored bytes of the selected
program, given here as `unpack`; `lfo.reset(data + 137)` restarts the LFO from
the six bytes at offset 137. -/
def DexedAudioProcessor.setCurrentProgram (unpack : ℤ → List ℤ) (now : ℤ)
    (p : DexedAudioProcessor) (index : ℤ) : DexedAudioProcessor :=
  let p1 := { p with log := p.log ++ [Diag.settingProgram index] }
  if p1.lastStateSave + 2 > now then
    { p1 with log := p1.log ++ [Diag.skippingSave] }
  else
    let p2 := { p1 with voices := p1.voices.map fun (v : Voice) =>
      if v.keydown == false && v.live == true then { v with live := false } else v }
    let index1 := if index > 31 then 31 else index
    let p3 := { p2 with data := unpack index1 }
    let p4 := { p3 with lfo := (p3.data.drop 137).take 6 }
    let p5 := { p4 with currentProgram := index1 }
    { p5 with asyncUpdates := p5.asyncUpdates + 1 }

/-! ## CtrlFloat -/

/-- `CtrlFloat::CtrlFloat(String name, float *storageValue)`. -/
def CtrlFloat.new (name : String) (storageValue : FloatCell) : CtrlFloat :=
  { Ctrl.new name with vPointer := storageValue }

/-- The cell a `CtrlFloat` points to, read. -/
def DexedAudioProcessor.readCell (p : DexedAudioProcessor) : FloatCell → ℚ
  | .uiCutoff => p.uiCutoff
  | .uiReso => p.uiReso
  | .uiGain => p.uiGain

/-- The cell a `CtrlFloat` points to, written. -/
def DexedAudioProcessor.writeCell (p : DexedAudioProcessor) (v : ℚ) :
    FloatCell → DexedAudioProcessor
  | .uiCutoff => { p with uiCutoff := v }
  | .uiReso => { p with uiReso := v }
  | .uiGain => { p with uiGain := v }

/-- `CtrlFloat::getValueHost()`. -/
def CtrlFloat.getValueHost (c : CtrlFloat) (p : DexedAudioProcessor) : ℚ := p.readCell c.vPointer

/-- `CtrlFloat::setValueHost(float v)`. -/
def CtrlFloat.setValueHost (c : CtrlFloat) (p : DexedAudioProcessor) (v : ℚ) :
    CtrlFloat × DexedAudioProcessor :=
  (c, p.writeCell v c.vPointer)

/-- `CtrlFloat::updateComponent()`: a bound slider shows the cell. -/
def CtrlFloat.updateComponent (c : CtrlFloat) (p : DexedAudioProcessor) : CtrlFloat :=
  match c.slider with
  | some s => { c with slider := some { s with value := p.readCell c.vPointer } }
  | none => c

/-! ## Widget refresh and binding -/

/-- First block of `CtrlDX::updateComponent()`: a bound slider is set to
`getValue() + displayValue`. The parent pointer is dereferenced by
`getValue()` without a check; the model reads the processor it is given. -/
def CtrlDX.refreshSlider (c : CtrlDX) (p : DexedAudioProcessor) : CtrlDX :=
  match c.slider with
  | some s =>
    { (c.getValue p).1 with
      slider := some { s with
        value := (((c.getValue p).2 + (c.getValue p).1.displayValue : ℤ) : ℚ) } }
  | none => c

/-- Second block of `CtrlDX::updateComponent()`: a bound button is toggled
off when `getValue()` is 0 and on otherwise. -/
def CtrlDX.refreshButton (c : CtrlDX) (p : DexedAudioProcessor) : CtrlDX :=
  match c.button with
  | some b =>
    if (c.getValue p).2 = 0 then
      { (c.getValue p).1 with button := some { b with toggleState := false } }
    else { (c.getValue p).1 with button := some { b with toggleState := true } }
  | none => c

/-- Third block of `CtrlDX::updateComponent()`: a bound combo box selects
`getValue() + 1`, or its number of items when that is not above it. -/
def CtrlDX.refreshComboBox (c : CtrlDX) (p : DexedAudioProcessor) : CtrlDX :=
  match c.comboBox with
  | some cb =>
    { (c.getValue p).1 with
      comboBox := some { cb with
        selectedId :=
          if cb.numItems ≤ (c.getValue p).2 + 1 then cb.numItems else (c.getValue p).2 + 1 } }
  | none => c

/-- `CtrlDX::updateComponent()`: the three blocks in order; `getValue()`
re-reads the buffer byte each time it is called. -/
def CtrlDX.updateComponent (c : CtrlDX) (p : DexedAudioProcessor) : CtrlDX :=
  ((c.refreshSlider p).refreshButton p).refreshComboBox p

/-- `updateComponent()` dispatched on the kind of descriptor. -/
def Control.updateComponent (p : DexedAudioProcessor) : Control → Control
  | .float c => .float (c.updateComponent p)
  | .dx c => .dx (c.updateComponent p)

/-- The base-class part of a registry entry. -/
def Control.toCtrl : Control → Ctrl
  | .float c => c.toCtrl
  | .dx c => c.toCtrl

/-- A registry entry with its base-class part replaced. -/
def Control.withCtrl (b : Ctrl) : Control → Control
  | .float c => .float { c with toCtrl := b }
  | .dx c => .dx { c with toCtrl := b }

/-- `Ctrl::bind(Slider *s)`: the pointer is stored, the widget refreshed, the
listener attached. -/
def Control.bindSlider (c : Control) (p : DexedAudioProcessor) (s : Slider) : Control :=
  let c1 := (c.withCtrl { c.toCtrl with slider := some s }).updateComponent p
  c1.withCtrl { c1.toCtrl with
    slider := c1.toCtrl.slider.map fun (w : Slider) => { w with listener := true } }

/-- `Ctrl::bind(Button *b)`. -/
def Control.bindButton (c : Control) (p : DexedAudioProcessor) (b : Button) : Control :=
  let c1 := (c.withCtrl { c.toCtrl with button := some b }).updateComponent p
  c1.withCtrl { c1.toCtrl with
    button := c1.toCtrl.button.map fun (w : Button) => { w with listener := true } }

/-- `Ctrl::bind(ComboBox *c)`. -/
def Control.bindComboBox (c : Control) (p : DexedAudioProcessor) (cb : ComboBox) : Control :=
  let c1 := (c.withCtrl { c.toCtrl with comboBox := some cb }).updateComponent p
  c1.withCtrl { c1.toCtrl with
    comboBox := c1.toCtrl.comboBox.map fun (w : ComboBox) => { w with listener := true } }

/-- `Ctrl::unbind()` on a registry entry. -/
def Control.unbind (c : Control) : Control := c.withCtrl c.toCtrl.unbind

/-- `setValueHost` dispatched on the kind of descriptor. -/
def Control.setValueHost (p : DexedAudioProcessor) (f : ℚ) :
    Control → Control × DexedAudioProcessor
  | .float c => (.float (c.setValueHost p f).1, (c.setValueHost p f).2)
  | .dx c => (.dx (c.setValueHost p f).1, (c.setValueHost p f).2)

/-- `getValueHost` dispatched on the kind of descriptor. -/
def Control.getValueHost (p : DexedAudioProcessor) : Control → ℚ
  | .float c => c.getValueHost p
  | .dx c => c.getValueHost

/-! ## The registry -/

/-- The descriptors added by one pass of the operator loop of `initCtrl`
(`i` is the loop variable, 0 to 5), in the order they are added. -/
def opControls (i : ℕ) : List Control :=
  let opTarget : ℤ := (5 - (i : ℤ)) * 21
  let opName : String := "OP" ++ toString (i + 1)
  (List.range 4).map (fun (j : ℕ) =>
      Control.dx (CtrlDX.new (opName ++ " EG RATE " ++ toString (j + 1)) 100 (opTarget + j) 0))
    ++ (List.range 4).map (fun (j : ℕ) =>
      Control.dx (CtrlDX.new (opName ++ " EG LEVEL " ++ toString (j + 1)) 100
        (opTarget + j + 4) 0))
    ++ [Control.dx (CtrlDX.new (opName ++ " OUTPUT LEVEL") 100 (opTarget + 16) 0),
        Control.dx (CtrlDX.new (opName ++ " MODE") 2 (opTarget + 17) 0),
        Control.dx (CtrlDX.new (opName ++ " F COARSE") 32 (opTarget + 18) 0),
        Control.dx (CtrlDX.new (opName ++ " F FINE") 100 (opTarget + 19) 0),
        Control.dx (CtrlDX.new (opName ++ " OSC DETUNE") 15 (opTarget + 20) (-7)),
        Control.dx (CtrlDX.new (opName ++ " BREAK POINT") 100 (opTarget + 8) 0),
        Control.dx (CtrlDX.new (opName ++ " L SCALE DEPTH") 100 (opTarget + 9) 0),
        Control.dx (CtrlDX.new (opName ++ " R SCALE DEPTH") 100 (opTarget + 10) 0),
        Control.dx (CtrlDX.new (opName ++ " L KEY SCALE") 4 (opTarget + 11) 0),
        Control.dx (CtrlDX.new (opName ++ " R KEY SCALE") 4 (opTarget + 12) 0),
        Control.dx (CtrlDX.new (opName ++ " RATE SCALING") 8 (opTarget + 13) 0),
        Control.dx (CtrlDX.new (opName ++ " A MOD SENS.") 4 (opTarget + 14) 0),
        Control.dx (CtrlDX.new (opName ++ " KEY VELOCITY") 8 (opTarget + 15) 0)]

/-- The descriptors `initCtrl` adds to `ctrl`, in the order of the calls of
`ctrl.add`. A call of the constructor with three arguments takes the default
`displayValue`; modelled from the spec: the default (declared in the absent
PluginParam.h) is 0, the display offset being optional. -/
def registryTable : List Control :=
  [Control.float (CtrlFloat.new "Cutoff" FloatCell.uiCutoff),
   Control.float (CtrlFloat.new "Resonance" FloatCell.uiReso),
   Control.float (CtrlFloat.new "Output" FloatCell.uiGain),
   Control.dx (CtrlDX.new "ALGORITHM" 32 134 1),
   Control.dx (CtrlDX.new "FEEDBACK" 8 135 0),
   Control.dx (CtrlDX.new "OSC KEY SYNC" 2 136 0),
   Control.dx (CtrlDX.new "LFO SPEED" 100 137 0),
   Control.dx (CtrlDX.new "LFO DELAY" 100 138 0),
   Control.dx (CtrlDX.new "LFO PM DEPTH" 100 139 0),
   Control.dx (CtrlDX.new "LFO AM DEPTH" 100 140 0),
   Control.dx (CtrlDX.new "LFO KEY SYNC" 2 141 0),
   Control.dx (CtrlDX.new "LFO WAVE" 5 142 0),
   Control.dx (CtrlDX.new "MIDDLE C" 49 144 0),
   Control.dx (CtrlDX.new "P MODE SENS." 8 143 0)]
    ++ (List.range 4).map (fun (i : ℕ) =>
      Control.dx (CtrlDX.new ("PITCH EG RATE " ++ toString (i + 1)) 99 (126 + i) 0))
    ++ (List.range 4).map (fun (i : ℕ) =>
      Control.dx (CtrlDX.new ("PITCH EG LEVEL " ++ toString (i + 1)) 99 (130 + i) 0))
    ++ (opControls 0 ++ opControls 1 ++ opControls 2 ++ opControls 3 ++ opControls 4
      ++ opControls 5)

/-- The body of the wiring loop of `initCtrl` for position `i`:
`ctrl[i]->idx = i; ctrl[i]->parent = this`. -/
def Control.wire (i : ℕ) (c : Control) : Control :=
  c.withCtrl { c.toCtrl with idx := (i : ℤ), parent := true }

/-- The wiring loop of `initCtrl`, from position `i` on. -/
def wireFrom : ℕ → List Control → List Control
  | _, [] => []
  | i, c :: cs => c.wire i :: wireFrom (i + 1) cs

/-- `DexedAudioProcessor::initCtrl()`. Modelled from the spec: `loadBuiltin`
(defined outside PluginParam.cpp) loads the built-in bank; it is given as a
function on the processor state. -/
def DexedAudioProcessor.initCtrl (loadBuiltin : DexedAudioProcessor → DexedAudioProcessor)
    (p : DexedAudioProcessor) : DexedAudioProcessor :=
  let p1 := loadBuiltin p
  let p2 := { p1 with currentProgram := 0 }
  let p3 := { p2 with ctrl := p2.ctrl ++ registryTable }
  { p3 with ctrl := wireFrom 0 p3.ctrl }

/-- `DexedAudioProcessor::unbindUI()`. -/
def DexedAudioProcessor.unbindUI (p : DexedAudioProcessor) : DexedAudioProcessor :=
  { p with ctrl := p.ctrl.map Control.unbind }

/-- `DexedAudioProcessor::getNumParameters()`. -/
def DexedAudioProcessor.getNumParameters (p : DexedAudioProcessor) : ℤ := p.ctrl.length

/-- The entry `ctrl[index]`, if `index` is a position of the registry. -/
def DexedAudioProcessor.ctrlAt (p : DexedAudioProcessor) (index : ℤ) : Option Control :=
  if 0 ≤ index then p.ctrl[index.toNat]? else none

/-- `DexedAudioProcessor::getParameter(int index)`; outside the registry the
C++ dereferences a null pointer, and there is no value. -/
def DexedAudioProcessor.getParameter (p : DexedAudioProcessor) (index : ℤ) : Option ℚ :=
  (p.ctrlAt index).map (Control.getValueHost p)

/-- `DexedAudioProcessor::setParameter(int index, float newValue)`; outside
the registry the C++ dereferences a null pointer, and the state is left as it
is here. -/
def DexedAudioProcessor.setParameter (p : DexedAudioProcessor) (index : ℤ) (newValue : ℚ) :
    DexedAudioProcessor :=
  match p.ctrlAt index with
  | some c =>
    let r := c.setValueHost p newValue
    { r.2 with ctrl := r.2.ctrl.set index.toNat r.1, forceRefreshUI := true }
  | none => p

/-- The operations of PluginParam.cpp that act on an initialised registry;
an operation on one descriptor names its position. -/
inductive Op
  | setParameter (index : ℤ) (newValue : ℚ)
  | setValue (i : ℕ) (v : ℤ)
  | bindSlider (i : ℕ) (s : Slider)
  | bindButton (i : ℕ) (b : Button)
  | bindComboBox (i : ℕ) (cb : ComboBox)
  | unbind (i : ℕ)
  | unbindUI
  | setCurrentProgram (index now : ℤ)

/-- One operation applied to the processor. An operation on a position
outside the registry, or `setValue` on a descriptor that is no `CtrlDX`,
cannot be made and leaves the state as it is. -/
def DexedAudioProcessor.step (unpack : ℤ → List ℤ) (p : DexedAudioProcessor) :
    Op → DexedAudioProcessor
  | .setParameter index newValue => p.setParameter index newValue
  | .setValue i v =>
    match p.ctrl[i]? with
    | some (Control.dx c) =>
      let r := c.setValue p v
      { r.2 with ctrl := r.2.ctrl.set i (Control.dx r.1) }
    | _ => p
  | .bindSlider i s =>
    match p.ctrl[i]? with
    | some c => { p with ctrl := p.ctrl.set i (c.bindSlider p s) }
    | none => p
  | .bindButton i b =>
    match p.ctrl[i]? with
    | some c => { p with ctrl := p.ctrl.set i (c.bindButton p b) }
    | none => p
  | .bindComboBox i cb =>
    match p.ctrl[i]? with
    | some c => { p with ctrl := p.ctrl.set i (c.bindComboBox p cb) }
    | none => p
  | .unbind i =>
    match p.ctrl[i]? with
    | some c => { p with ctrl := p.ctrl.set i c.unbind }
    | none => p
  | .unbindUI => p.unbindUI
  | .setCurrentProgram index now => p.setCurrentProgram unpack now index

/-- A sequence of operations applied in order. -/
def DexedAudioProcessor.run (unpack : ℤ → List ℤ) (p : DexedAudioProcessor) :
    List Op → DexedAudioProcessor
  | [] => p
  | op :: ops => (p.step unpack op).run unpack ops

/-- The index carried by a registry entry. -/
def Control.idx (c : Control) : ℤ := c.toCtrl.idx

/-- Looking a descriptor up by an index: the first entry of the registry
carrying that index. -/
def DexedAudioProcessor.lookup (p : DexedAudioProcessor) (k : ℤ) : Option Control :=
  p.ctrl.find? fun (c : Control) => decide (c.idx = k)

/-- Every entry of a registry carries the index of its position, counted from `k`. -/
def IndexedFrom (k : ℕ) (l : List Control) : Prop :=
  ∀ (i : ℕ) (c : Control), l[i]? = some c → c.idx = ((k + i : ℕ) : ℤ)

/-- Modelled from the spec: `clamp(p, lo, hi)`. -/
def clamp (x lo hi : ℤ) : ℤ := max lo (min x hi)

/-! ## States used in the examples -/

/-- A processor state for the examples: an all-zero 155-byte voice buffer,
outbound messages enabled, nothing queued, last state save at time 0. -/
def sampleProcessor : DexedAudioProcessor :=
  { data := List.replicate 155 0, refreshVoice := false, sendSysexChange := true,
    midiOut := [], forceRefreshUI := false, currentProgram := 0, lastStateSave := 0,
    voices := [], lfo := [], asyncUpdates := 0, uiCutoff := 0, uiReso := 0, uiGain := 0,
    log := [], ctrl := [], hostLog := [], editorMessage := none }

/-- The FEEDBACK descriptor as `initCtrl` leaves it: step count 8, buffer
offset 135, registry position 4, parent wired. -/
def feedbackWired : CtrlDX :=
  { CtrlDX.new "FEEDBACK" 8 135 0 with idx := 4, parent := true }

/-- A program store for the examples: program `i` unpacks to 155 bytes all
equal to `i` modulo 128. -/
def sampleUnpack (i : ℤ) : List ℤ := List.replicate 155 (i % 128)

/-- The example processor with one released voice still sounding and one
held voice, its last state save at time 9. -/
def sampleSaved : DexedAudioProcessor :=
  { sampleProcessor with
    lastStateSave := 9, currentProgram := 3,
    voices := [{ keydown := false, live := true }, { keydown := true, live := true }] }

/-! ## Round trip through the normalized value -/

/-- The descriptor a round trip starts from: `c` after `setValue(v)`. -/
def afterSet (c : CtrlDX) (p : DexedAudioProcessor) (v : ℤ) : CtrlDX × DexedAudioProcessor :=
  c.setValue p v

/-- The round trip of the value codec: `setValue(v)` followed by
`setValueHost(getValueHost())`. -/
def roundTrip (c : CtrlDX) (p : DexedAudioProcessor) (v : ℤ) : CtrlDX × DexedAudioProcessor :=
  (afterSet c p v).1.setValueHost (afterSet c p v).2 (afterSet c p v).1.getValueHost

/-! ## Display text -/

/-- `CtrlDX::getValueDisplay()`: the decimal text of `getValue() + displayValue`. -/
def CtrlDX.getValueDisplay (c : CtrlDX) (p : DexedAudioProcessor) : CtrlDX × String :=
  ((c.getValue p).1, toString ((c.getValue p).2 + (c.getValue p).1.displayValue))

/-- `CtrlFloat::getValueDisplay()`. Modelled from the spec: the text the
toolkit gives a `float` (`String << float`), given as `showFloat`. -/
def CtrlFloat.getValueDisplay (showFloat : ℚ → String) (c : CtrlFloat)
    (p : DexedAudioProcessor) : String :=
  showFloat (p.readCell c.vPointer)

/-- `getValueDisplay()` dispatched on the kind of descriptor. -/
def Control.getValueDisplay (showFloat : ℚ → String) (p : DexedAudioProcessor) :
    Control → Control × String
  | .float c => (.float c, c.getValueDisplay showFloat p)
  | .dx c => (.dx (c.getValueDisplay p).1, (c.getValueDisplay p).2)

/-- `DexedAudioProcessor::getParameterText(int index)`: the text, and the
processor with the descriptor as `getValueDisplay()` leaves it; outside the
registry the C++ dereferences a null pointer, and there is no value. -/
def DexedAudioProcessor.getParameterText (showFloat : ℚ → String) (p : DexedAudioProcessor)
    (index : ℤ) : Option (String × DexedAudioProcessor) :=
  (p.ctrlAt index).map fun (c : Control) =>
    ((c.getValueDisplay showFloat p).2,
      { p with ctrl := p.ctrl.set index.toNat (c.getValueDisplay showFloat p).1 })

/-- `DexedAudioProcessor::getParameterName(int index)`. -/
def DexedAudioProcessor.getParameterName (p : DexedAudioProcessor) (index : ℤ) :
    Option String :=
  (p.ctrlAt index).map fun (c : Control) => c.toCtrl.label

/-! ## Publishing a value from a widget -/

/-- `Ctrl::publishValue(float value)` of the descriptor at position `i`.
Modelled from the spec: `setParameterNotifyingHost` (of the plugin framework)
stores the value through `setParameter` and notifies the host; the change is
bracketed by the begin and the end of a gesture. -/
def DexedAudioProcessor.publishValueBase (p : DexedAudioProcessor) (i : ℕ) (value : ℚ) :
    DexedAudioProcessor :=
  match p.ctrl[i]? with
  | some c =>
    let p1 := { p with hostLog := p.hostLog ++ [HostEvent.beginGesture c.idx] }
    let p2 := p1.setParameter c.idx value
    let p3 := { p2 with hostLog := p2.hostLog ++ [HostEvent.parameterChanged c.idx value] }
    { p3 with hostLog := p3.hostLog ++ [HostEvent.endGesture c.idx] }
  | none => p

/-- `CtrlDX::publishValue(float value)` of the descriptor at position `i`:
`Ctrl::publishValue(value / steps)`, then, when an editor is active, the
message `label = getValueDisplay()` is handed to it. -/
def DexedAudioProcessor.publishValueDX (p : DexedAudioProcessor) (i : ℕ) (value : ℚ) :
    DexedAudioProcessor :=
  match p.ctrl[i]? with
  | some (Control.dx c) =>
    let p1 := p.publishValueBase i (fdiv value c.steps)
    match p1.editorMessage with
    | none => p1
    | some _ =>
      match p1.ctrl[i]? with
      | some (Control.dx c1) =>
        { p1 with
          ctrl := p1.ctrl.set i (Control.dx (c1.getValueDisplay p1).1),
          editorMessage := some (c1.label ++ " = " ++ (c1.getValueDisplay p1).2) }
      | _ => p1
  | _ => p

/-- The virtual call `publishValue(value)` on the descriptor at position `i`. -/
def DexedAudioProcessor.publishValue (p : DexedAudioProcessor) (i : ℕ) (value : ℚ) :
    DexedAudioProcessor :=
  match p.ctrl[i]? with
  | some (Control.dx _) => p.publishValueDX i value
  | some (Control.float _) => p.publishValueBase i value
  | none => p

/-- `sliderValueChanged(Slider* moved)` on the descriptor at position `i`:
`CtrlDX` publishes `(int) moved->getValue() - displayValue`, the base class
publishes `moved->getValue()`. -/
def DexedAudioProcessor.sliderValueChanged (p : DexedAudioProcessor) (i : ℕ) (moved : Slider) :
    DexedAudioProcessor :=
  match p.ctrl[i]? with
  | some (Control.dx c) =>
    p.publishValue i (intToFloat (floatToInt moved.value - c.displayValue))
  | some (Control.float _) => p.publishValue i (roundF32 moved.value)
  | none => p

/-- `Ctrl::buttonClicked(Button* clicked)` on the descriptor at position `i`:
`publishValue(clicked->getToggleStateValue() == 1 ? 1 : 0)`, a toggle that is
on comparing equal to 1. -/
def DexedAudioProcessor.buttonClicked (p : DexedAudioProcessor) (i : ℕ) (clicked : Button) :
    DexedAudioProcessor :=
  p.publishValue i (intToFloat (if clicked.toggleState = true then 1 else 0))

/-- `comboBoxChanged(ComboBox* combo)` on the descriptor at position `i`:
`CtrlDX` publishes `getSelectedId() - 1`, the base class the integer quotient
`(getSelectedId() - 1) / getNumItems()`. -/
def DexedAudioProcessor.comboBoxChanged (p : DexedAudioProcessor) (i : ℕ) (combo : ComboBox) :
    DexedAudioProcessor :=
  match p.ctrl[i]? with
  | some (Control.dx _) => p.publishValue i (intToFloat (combo.selectedId - 1))
  | some (Control.float _) =>
    p.publishValue i (intToFloat (Int.tdiv (combo.selectedId - 1) combo.numItems))
  | none => p

/-! ## Operations on one descriptor -/

/-- The operations a single `CtrlDX` goes through: the two set operations,
`getValue()`, a widget refresh, and a program switch, which replaces the
whole voice buffer by the stored bytes `unpack` yields. -/
inductive DxOp
  | setValueHost (f : ℚ)
  | setValue (v : ℤ)
  | getValue
  | updateComponent
  | programSwitch (unpack : ℤ → List ℤ) (now index : ℤ)

/-- One operation applied to a descriptor and the processor it is wired to. -/
def DxOp.apply (s : CtrlDX × DexedAudioProcessor) : DxOp → CtrlDX × DexedAudioProcessor
  | .setValueHost f => s.1.setValueHost s.2 f
  | .setValue v => s.1.setValue s.2 v
  | .getValue => ((s.1.getValue s.2).1, s.2)
  | .updateComponent => (s.1.updateComponent s.2, s.2)
  | .programSwitch unpack now index => (s.1, s.2.setCurrentProgram unpack now index)

/-- A sequence of operations applied in order. -/
def DxOp.applyAll (s : CtrlDX × DexedAudioProcessor) : List DxOp → CtrlDX × DexedAudioProcessor
  | [] => s
  | op :: ops => DxOp.applyAll (op.apply s) ops

/-- The requests under which the range of the native value is kept: the host
hands over a normalized value in [0, 1], `setValue` is asked for no negative
value, and a program switch leaves a byte below the step count `N` at the
offset `off` of the descriptor. -/
def DxOp.InRange (N : ℕ) (off : ℤ) : DxOp → Prop
  | .setValueHost f => 0 ≤ f ∧ f ≤ 1
  | .setValue v => 0 ≤ v
  | .getValue => True
  | .updateComponent => True
  | .programSwitch unpack _ index =>
    0 ≤ (unpack (if index > 31 then 31 else index)).getD off.toNat 0 ∧
      (unpack (if index > 31 then 31 else index)).getD off.toNat 0 ≤ (N : ℤ) - 1

/-- The byte a buffer-backed descriptor would read lies in [0, N-1]. -/
def ByteInRange (N : ℕ) (off : ℤ) (p : DexedAudioProcessor) : Prop :=
  0 ≤ off → 0 ≤ p.data.getD off.toNat 0 ∧ p.data.getD off.toNat 0 ≤ (N : ℤ) - 1

/-- The range invariant of a descriptor with step count `N` at offset `off`,
together with the processor it reads: the native value lies in [0, N-1], and
so does the byte a buffer-backed descriptor would read. -/
def RangeInv (N : ℕ) (off : ℤ) (s : CtrlDX × DexedAudioProcessor) : Prop :=
  s.1.steps = N ∧ s.1.dxOffset = off ∧ 0 ≤ s.1.dxValue ∧ s.1.dxValue ≤ (N : ℤ) - 1 ∧
    ByteInRange N off s.2

/-- The bind and unbind calls on one descriptor. -/
inductive BindOp
  | slider (s : Slider)
  | button (b : Button)
  | comboBox (cb : ComboBox)
  | unbind

/-- One bind or unbind call applied to a descriptor. -/
def BindOp.apply (p : DexedAudioProcessor) (c : Control) : BindOp → Control
  | .slider s => c.bindSlider p s
  | .button b => c.bindButton p b
  | .comboBox cb => c.bindComboBox p cb
  | .unbind => c.unbind

/-- A sequence of bind and unbind calls applied in order. -/
def BindOp.applyAll (p : DexedAudioProcessor) (c : Control) : List BindOp → Control
  | [] => c
  | op :: ops => BindOp.applyAll p (op.apply p c) ops

/-- The number of widget references of a descriptor that are not NULL. -/
def Ctrl.boundCount (c : Ctrl) : ℕ :=
  (if c.slider.isSome then 1 else 0) + (if c.button.isSome then 1 else 0)
    + (if c.comboBox.isSome then 1 else 0)

/-! ## The layout table as data -/

/-- The arguments of one call `new CtrlDX(name, steps, offset, displayValue)`. -/
structure DxSpec where
  name : String
  steps : ℤ
  offset : ℤ
  displayValue : ℤ
deriving Repr, DecidableEq

/-- The descriptor a call of the constructor builds. -/
def DxSpec.build (s : DxSpec) : Control :=
  Control.dx (CtrlDX.new s.name s.steps s.offset s.displayValue)

/-- The constructor calls of one pass of the operator loop of `initCtrl`. -/
def opSpecs (i : ℕ) : List DxSpec :=
  let opTarget : ℤ := (5 - (i : ℤ)) * 21
  let opName : String := "OP" ++ toString (i + 1)
  (List.range 4).map (fun (j : ℕ) =>
      { name := opName ++ " EG RATE " ++ toString (j + 1), steps := 100,
        offset := opTarget + j, displayValue := 0 })
    ++ (List.range 4).map (fun (j : ℕ) =>
      { name := opName ++ " EG LEVEL " ++ toString (j + 1), steps := 100,
        offset := opTarget + j + 4, displayValue := 0 })
    ++ [{ name := opName ++ " OUTPUT LEVEL", steps := 100, offset := opTarget + 16,
          displayValue := 0 },
        { name := opName ++ " MODE", steps := 2, offset := opTarget + 17, displayValue := 0 },
        { name := opName ++ " F COARSE", steps := 32, offset := opTarget + 18,
          displayValue := 0 },
        { name := opName ++ " F FINE", steps := 100, offset := opTarget + 19,
          displayValue := 0 },
        { name := opName ++ " OSC DETUNE", steps := 15, offset := opTarget + 20,
          displayValue := -7 },
        { name := opName ++ " BREAK POINT", steps := 100, offset := opTarget + 8,
          displayValue := 0 },
        { name := opName ++ " L SCALE DEPTH", steps := 100, offset := opTarget + 9,
          displayValue := 0 },
        { name := opName ++ " R SCALE DEPTH", steps := 100, offset := opTarget + 10,
          displayValue := 0 },
        { name := opName ++ " L KEY SCALE", steps := 4, offset := opTarget + 11,
          displayValue := 0 },
        { name := opName ++ " R KEY SCALE", steps := 4, offset := opTarget + 12,
          displayValue := 0 },
        { name := opName ++ " RATE SCALING", steps := 8, offset := opTarget + 13,
          displayValue := 0 },
        { name := opName ++ " A MOD SENS.", steps := 4, offset := opTarget + 14,
          displayValue := 0 },
        { name := opName ++ " KEY VELOCITY", steps := 8, offset := opTarget + 15,
          displayValue := 0 }]

/-- The constructor calls for the global fields, in the order of `initCtrl`. -/
def globalSpecs : List DxSpec :=
  [{ name := "ALGORITHM", steps := 32, offset := 134, displayValue := 1 },
   { name := "FEEDBACK", steps := 8, offset := 135, displayValue := 0 },
   { name := "OSC KEY SYNC", steps := 2, offset := 136, displayValue := 0 },
   { name := "LFO SPEED", steps := 100, offset := 137, displayValue := 0 },
   { name := "LFO DELAY", steps := 100, offset := 138, displayValue := 0 },
   { name := "LFO PM DEPTH", steps := 100, offset := 139, displayValue := 0 },
   { name := "LFO AM DEPTH", steps := 100, offset := 140, displayValue := 0 },
   { name := "LFO KEY SYNC", steps := 2, offset := 141, displayValue := 0 },
   { name := "LFO WAVE", steps := 5, offset := 142, displayValue := 0 },
   { name := "MIDDLE C", steps := 49, offset := 144, displayValue := 0 },
   { name := "P MODE SENS.", steps := 8, offset := 143, displayValue := 0 }]
    ++ (List.range 4).map (fun (i : ℕ) =>
      { name := "PITCH EG RATE " ++ toString (i + 1), steps := 99, offset := 126 + i,
        displayValue := 0 })
    ++ (List.range 4).map (fun (i : ℕ) =>
      { name := "PITCH EG LEVEL " ++ toString (i + 1), steps := 99, offset := 130 + i,
        displayValue := 0 })

/-- All constructor calls of `CtrlDX` in `initCtrl`, in order. -/
def dxSpecs : List DxSpec :=
  globalSpecs ++ (opSpecs 0 ++ opSpecs 1 ++ opSpecs 2 ++ opSpecs 3 ++ opSpecs 4 ++ opSpecs 5)

/-- The three `CtrlFloat` descriptors `initCtrl` adds first. -/
def floatControls : List Control :=
  [Control.float (CtrlFloat.new "Cutoff" FloatCell.uiCutoff),
   Control.float (CtrlFloat.new "Resonance" FloatCell.uiReso),
   Control.float (CtrlFloat.new "Output" FloatCell.uiGain)]

/-- The buffer offset of a registry entry, for a `CtrlDX`. -/
def Control.dxOffset? : Control → Option ℤ
  | .float _ => none
  | .dx c => some c.dxOffset

/-- The label of a registry entry and, for a `CtrlDX`, its buffer offset. -/
def Control.labelOffset (c : Control) : String × Option ℤ := (c.toCtrl.label, c.dxOffset?)

/-- The labels and offsets of the descriptors of `initCtrl`, in order. -/
def layout : List (String × Option ℤ) :=
  floatControls.map Control.labelOffset
    ++ dxSpecs.map (fun (s : DxSpec) => (s.name, some s.offset))

/-- Whether a label starts with `OP<k>` followed by a blank. -/
def labelledOp (k : ℕ) (label : String) : Bool :=
  List.isPrefixOf ("OP" ++ toString k ++ " ").data label.data

/-- Whether an entry of the layout is labelled for operator `i + 1` and lies in
the block of 21 bytes at `(5 - i) * 21`. -/
def entryInBlock (i : ℕ) (e : String × Option ℤ) : Bool :=
  labelledOp (i + 1) e.1 &&
    (match e.2 with
     | some off => decide ((5 - (i : ℤ)) * 21 ≤ off ∧ off ≤ (5 - (i : ℤ)) * 21 + 20)
     | none => false)

/-- The example processor with outbound messages disabled. -/
def sampleQuiet : DexedAudioProcessor := { sampleProcessor with sendSysexChange := false }

/-- A wired `CtrlDX` that is not buffer-backed: step count 8, offset -1. -/
def unbackedWired : CtrlDX :=
  { CtrlDX.new "UNBACKED" 8 (-1) 0 with idx := 0, parent := true }

/-- The ALGORITHM descriptor as `initCtrl` leaves it: step count 32, buffer
offset 134, display offset 1, registry position 3. -/
def algorithmWired : CtrlDX :=
  { CtrlDX.new "ALGORITHM" 32 134 1 with idx := 3, parent := true }

/-- The OSC DETUNE descriptor of operator 1 as `initCtrl` leaves it: step count
15, buffer offset 125, display offset -7, registry position 34. -/
def detuneWired : CtrlDX :=
  { CtrlDX.new "OP1 OSC DETUNE" 15 125 (-7) with idx := 34, parent := true }

/-- The registry of the example processor after a switch to program 5 at
time 10: every byte of the voice buffer is 5. -/
def sampleSwitched : DexedAudioProcessor :=
  (sampleProcessor.initCtrl id).setCurrentProgram sampleUnpack 10 5

/-- The ALGORITHM descriptor with a slider, a button and a combo box of 32
items attached to it. -/
def boundAlgorithm : CtrlDX :=
  { algorithmWired with
    slider := some { value := 0, listener := true },
    button := some { toggleState := false, listener := true },
    comboBox := some { selectedId := 1, numItems := 32, listener := true } }

/-- The switched example processor with the refreshed ALGORITHM descriptor at
its position 3 of the registry. -/
def sampleBound : DexedAudioProcessor :=
  { sampleSwitched with
    ctrl := sampleSwitched.ctrl.set 3 (Control.dx (boundAlgorithm.updateComponent sampleSwitched)) }

/-- A slider for the examples. -/
def sampleSlider : Slider := { value := 0, listener := false }

/-- A button for the examples. -/
def sampleButton : Button := { toggleState := false, listener := false }

/-- A combo box of 32 items for the examples. -/
def sampleComboBox : ComboBox := { selectedId := 1, numItems := 32, listener := false }

/-! ## Facts on single-precision rounding -/

theorem roundHalfEven_nearest (y : ℚ) (j : ℤ) :
    |(roundHalfEven y : ℚ) - y| ≤ |(j : ℚ) - y| := by
  have h1 : ((⌊y⌋ : ℤ) : ℚ) ≤ y := Int.floor_le y
  have h2 : y < ((⌊y⌋ : ℤ) : ℚ) + 1 := Int.lt_floor_add_one y
  have hj : (j : ℚ) ≤ ((⌊y⌋ : ℤ) : ℚ) ∨ ((⌊y⌋ : ℤ) : ℚ) + 1 ≤ (j : ℚ) := by
    rcases le_or_lt j ⌊y⌋ with h | h
    · left; exact_mod_cast h
    · right; exact_mod_cast h
  unfold roundHalfEven
  split_ifs with c1 c2 c3
  all_goals push_cast
  all_goals
    rcases abs_cases ((j : ℚ) - y) with ⟨e1, _⟩ | ⟨e1, _⟩ <;>
    first
    | (rcases abs_cases (((⌊y⌋ : ℤ) : ℚ) - y) with ⟨e2, _⟩ | ⟨e2, _⟩ <;>
        rw [e1, e2] <;> rcases hj with hj | hj <;> linarith)
    | (rcases abs_cases (((⌊y⌋ : ℤ) : ℚ) + 1 - y) with ⟨e2, _⟩ | ⟨e2, _⟩ <;>
        rw [e1, e2] <;> rcases hj with hj | hj <;> linarith)

theorem roundHalfEven_lower (y : ℚ) : ⌊y⌋ ≤ roundHalfEven y := by
  unfold roundHalfEven
  split_ifs <;> omega

theorem roundHalfEven_upper (y : ℚ) : roundHalfEven y ≤ ⌊y⌋ + 1 := by
  unfold roundHalfEven
  split_ifs <;> omega

theorem two_zpow_pos (k : ℤ) : (0 : ℚ) < 2 ^ k := zpow_pos (by norm_num) k

theorem binadeExp_ge (a : ℚ) : -126 ≤ binadeExp a := le_max_right _ _

theorem lt_two_zpow_binadeExp (a : ℚ) : a < 2 ^ (binadeExp a + 1) := by
  have h := Int.lt_zpow_succ_log_self (b := 2) (by norm_num) a
  have h2 : ((2 : ℕ) : ℚ) ^ (Int.log 2 a + 1) ≤ 2 ^ (binadeExp a + 1) := by
    push_cast
    apply zpow_le_zpow_right₀ (by norm_num)
    have := le_max_left (Int.log 2 a) (-126)
    unfold binadeExp
    omega
  exact lt_of_lt_of_le h h2

theorem roundF32_zero : roundF32 0 = 0 := by
  simp [roundF32, roundHalfEven]

/-- Rounding error against a multiple of the unit in the last place. -/
theorem roundF32_nearest_grid (x : ℚ) (j : ℤ) :
    |roundF32 x - x| ≤ |(j : ℚ) * 2 ^ (binadeExp |x| - 23) - x| := by
  have hu := two_zpow_pos (binadeExp |x| - 23)
  have h := roundHalfEven_nearest (x / 2 ^ (binadeExp |x| - 23)) j
  have e1 : roundF32 x - x
      = ((roundHalfEven (x / 2 ^ (binadeExp |x| - 23)) : ℚ) - x / 2 ^ (binadeExp |x| - 23))
        * 2 ^ (binadeExp |x| - 23) := by
    unfold roundF32
    field_simp
  have e2 : (j : ℚ) * 2 ^ (binadeExp |x| - 23) - x
      = ((j : ℚ) - x / 2 ^ (binadeExp |x| - 23)) * 2 ^ (binadeExp |x| - 23) := by
    field_simp
  rw [e1, e2, abs_mul, abs_mul, abs_of_pos hu]
  exact mul_le_mul_of_nonneg_right h hu.le

/-- Rounding returns a nearest binary32 value: no binary32 value is closer. -/
theorem roundF32_nearest (x r : ℚ) (hr : Rep r) : |roundF32 x - x| ≤ |r - x| := by
  obtain ⟨m, e, hm, he, rfl⟩ := hr
  rcases le_or_lt (binadeExp |x|) e with hle | hlt
  · -- the candidate lies on the grid of the binade of x
    obtain ⟨k, hk⟩ : ∃ k : ℕ, e = binadeExp |x| + k :=
      ⟨(e - binadeExp |x|).toNat, by omega⟩
    have hgrid : (m : ℚ) * 2 ^ (e - 23)
        = ((m * 2 ^ k : ℤ) : ℚ) * 2 ^ (binadeExp |x| - 23) := by
      have : e - 23 = (binadeExp |x| - 23) + (k : ℤ) := by omega
      rw [this, zpow_add₀ (by norm_num : (2 : ℚ) ≠ 0), zpow_natCast]
      push_cast
      ring
    rw [hgrid]
    exact roundF32_nearest_grid x _
  · -- the candidate lies in a lower binade: the binade boundary is nearer
    rcases eq_or_ne x 0 with hx | hx
    · subst hx
      rw [roundF32_zero]
      simp
    have hxpos : 0 < |x| := abs_pos.mpr hx
    have hlog : binadeExp |x| = Int.log 2 |x| := by
      unfold binadeExp at hlt ⊢
      rcases max_cases (Int.log 2 |x|) (-126) with ⟨h, _⟩ | ⟨h, _⟩
      · exact h
      · omega
    have hlow : (2 : ℚ) ^ binadeExp |x| ≤ |x| := by
      have := Int.zpow_log_le_self (b := 2) (by norm_num) hxpos
      rw [hlog]
      exact_mod_cast this
    have hr : |(m : ℚ) * 2 ^ (e - 23)| < 2 ^ binadeExp |x| := by
      rw [abs_mul, abs_of_pos (two_zpow_pos _)]
      have hm' : |(m : ℚ)| < 2 ^ 24 := by exact_mod_cast hm
      have h1 : |(m : ℚ)| * 2 ^ (e - 23) < 2 ^ 24 * 2 ^ (e - 23) :=
        mul_lt_mul_of_pos_right hm' (two_zpow_pos _)
      have h2 : (2 : ℚ) ^ 24 * 2 ^ (e - 23) = 2 ^ (e + 1) := by
        have : e + 1 = ((24 : ℕ) : ℤ) + (e - 23) := by omega
        rw [this, zpow_add₀ (by norm_num : (2 : ℚ) ≠ 0), zpow_natCast]
      have h3 : (2 : ℚ) ^ (e + 1) ≤ 2 ^ binadeExp |x| :=
        zpow_le_zpow_right₀ (by norm_num) (by omega)
      linarith
    have hb : (2 : ℚ) ^ binadeExp |x| = 8388608 * 2 ^ (binadeExp |x| - 23) := by
      have : binadeExp |x| = ((23 : ℕ) : ℤ) + (binadeExp |x| - 23) := by omega
      conv_lhs => rw [this, zpow_add₀ (by norm_num : (2 : ℚ) ≠ 0), zpow_natCast]
      norm_num
    rcases le_or_lt 0 x with hx0 | hx0
    · have g := roundF32_nearest_grid x 8388608
      push_cast at g
      rw [← hb] at g
      have hlow2 : (2 : ℚ) ^ binadeExp |x| ≤ x := le_of_le_of_eq hlow (abs_of_nonneg hx0)
      have := abs_lt.mp hr
      rw [abs_of_nonpos (by linarith : (2 : ℚ) ^ binadeExp |x| - x ≤ 0)] at g
      rw [abs_of_nonpos (by linarith : (m : ℚ) * 2 ^ (e - 23) - x ≤ 0)]
      linarith
    · have g := roundF32_nearest_grid x (-8388608)
      push_cast at g
      rw [neg_mul, ← hb] at g
      have hlow2 : (2 : ℚ) ^ binadeExp |x| ≤ -x := le_of_le_of_eq hlow (abs_of_neg hx0)
      have := abs_lt.mp hr
      rw [abs_of_nonneg (by linarith : 0 ≤ -(2 : ℚ) ^ binadeExp |x| - x)] at g
      rw [abs_of_nonneg (by linarith : 0 ≤ (m : ℚ) * 2 ^ (e - 23) - x)]
      linarith

theorem roundF32_le_of_le {x r : ℚ} (hr : Rep r) (h : x ≤ r) : roundF32 x ≤ r := by
  have hn := roundF32_nearest x r hr
  rw [abs_of_nonneg (by linarith : 0 ≤ r - x)] at hn
  have := le_abs_self (roundF32 x - x)
  linarith

theorem le_roundF32_of_le {x r : ℚ} (hr : Rep r) (h : r ≤ x) : r ≤ roundF32 x := by
  have hn := roundF32_nearest x r hr
  rw [abs_of_nonpos (by linarith : r - x ≤ 0)] at hn
  have := neg_abs_le (roundF32 x - x)
  linarith

theorem roundF32_of_rep {r : ℚ} (hr : Rep r) : roundF32 r = r :=
  le_antisymm (roundF32_le_of_le hr le_rfl) (le_roundF32_of_le hr le_rfl)

/-- Integers of magnitude at most 2^24 are binary32 values. -/
theorem rep_int (n : ℤ) (h : |n| ≤ 2 ^ 24) : Rep (n : ℚ) := by
  rcases lt_or_eq_of_le h with h1 | h1
  · exact ⟨n, 23, h1, by norm_num, by simp⟩
  · rcases abs_cases n with ⟨e1, _⟩ | ⟨e1, _⟩
    · refine ⟨2 ^ 23, 24, by norm_num, by norm_num, ?_⟩
      have : n = 2 ^ 24 := by omega
      subst this
      norm_num
    · refine ⟨-2 ^ 23, 24, by norm_num, by norm_num, ?_⟩
      have : n = -2 ^ 24 := by omega
      subst this
      norm_num

theorem roundF32_int (n : ℤ) (h : |n| ≤ 2 ^ 24) : roundF32 (n : ℚ) = n :=
  roundF32_of_rep (rep_int n h)

theorem intToFloat_exact (n : ℤ) (h : |n| ≤ 2 ^ 24) : intToFloat n = n :=
  roundF32_int n h

/-- The largest binary32 value below one is 1 - 2^-24. -/
theorem rep_lt_one {f : ℚ} (hf : Rep f) (h1 : f < 1) : f ≤ 1 - 1 / 2 ^ 24 := by
  obtain ⟨m, e, hm, he, rfl⟩ := hf
  rcases le_or_lt (-1) e with h | h
  · obtain ⟨k, hk⟩ : ∃ k : ℕ, e = -1 + k := ⟨(e + 1).toNat, by omega⟩
    have hz : (2 : ℚ) ^ (e - 23) = 2 ^ k / 2 ^ 24 := by
      have : e - 23 = (k : ℤ) - ((24 : ℕ) : ℤ) := by omega
      rw [this, zpow_sub₀ (by norm_num : (2 : ℚ) ≠ 0), zpow_natCast, zpow_natCast]
    rw [hz] at h1 ⊢
    have hJ : ((m * 2 ^ k : ℤ) : ℚ) < ((2 ^ 24 : ℤ) : ℚ) := by
      push_cast
      rw [← mul_div_assoc, div_lt_one (by positivity)] at h1
      exact h1
    have hJ2 : m * 2 ^ k ≤ 2 ^ 24 - 1 := Int.le_sub_one_of_lt (by exact_mod_cast hJ)
    have hJ3 : ((m * 2 ^ k : ℤ) : ℚ) ≤ ((2 ^ 24 - 1 : ℤ) : ℚ) := by exact_mod_cast hJ2
    push_cast at hJ3
    rw [← mul_div_assoc, div_le_iff₀ (by positivity)]
    norm_num at hJ3 ⊢
    linarith
  · have hm2 : |(m : ℚ)| < 2 ^ 24 := by exact_mod_cast hm
    have h1 : (m : ℚ) * 2 ^ (e - 23) ≤ |(m : ℚ)| * 2 ^ (e - 23) :=
      mul_le_mul_of_nonneg_right (le_abs_self _) (two_zpow_pos _).le
    have h2 : |(m : ℚ)| * 2 ^ (e - 23) < 2 ^ 24 * 2 ^ (e - 23) :=
      mul_lt_mul_of_pos_right hm2 (two_zpow_pos _)
    have h3 : (2 : ℚ) ^ 24 * 2 ^ (e - 23) = 2 ^ (e + 1) := by
      have : e + 1 = ((24 : ℕ) : ℤ) + (e - 23) := by omega
      rw [this, zpow_add₀ (by norm_num : (2 : ℚ) ≠ 0), zpow_natCast]
    have h4 : (2 : ℚ) ^ (e + 1) ≤ 2 ^ (-1 : ℤ) :=
      zpow_le_zpow_right₀ (by norm_num) (by omega)
    norm_num at h4 ⊢
    linarith

/-- A step count between 2 and 2^24 scaled into the top binade: some shift
puts it in (2^23, 2^24]. -/
theorem exists_shift (N : ℕ) (h2 : 2 ≤ N) (hN : N ≤ 2 ^ 24) :
    ∃ d : ℕ, d ≤ 23 ∧ 2 ^ 23 < N * 2 ^ d ∧ N * 2 ^ d ≤ 2 ^ 24 := by
  have hk1 := Nat.pow_pred_clog_lt_self (b := 2) (by norm_num) (x := N) (by omega)
  have hk2 := Nat.le_pow_clog (b := 2) (by norm_num) N
  have hk3 : Nat.clog 2 N ≤ 24 := (Nat.le_pow_iff_clog_le (by norm_num)).mp hN
  have hk4 : 0 < Nat.clog 2 N := Nat.clog_pos (by norm_num) h2
  refine ⟨24 - Nat.clog 2 N, by omega, ?_, ?_⟩
  · have e : 2 ^ 23 = 2 ^ (Nat.clog 2 N).pred * 2 ^ (24 - Nat.clog 2 N) := by
      rw [← pow_add]
      congr 1
      have := Nat.pred_eq_sub_one (n := Nat.clog 2 N)
      omega
    rw [e]
    exact Nat.mul_lt_mul_of_pos_right hk1 (by positivity)
  · have e : 2 ^ 24 = 2 ^ (Nat.clog 2 N) * 2 ^ (24 - Nat.clog 2 N) := by
      rw [← pow_add]
      congr 1
      omega
    rw [e]
    exact Nat.mul_le_mul_right _ hk2

/-- A value that is at most `N * (1 - 2^-24)` never rounds up to the integer `N`. -/
theorem roundF32_lt_of_le_pred (N : ℕ) (h2 : 2 ≤ N) (hN : N ≤ 2 ^ 24) (x : ℚ)
    (hx : x ≤ (N : ℚ) * (1 - 1 / 2 ^ 24)) : roundF32 x < (N : ℚ) := by
  obtain ⟨d, hd, hM1, hM2⟩ := exists_shift N h2 hN
  have hM1q : (2 : ℚ) ^ 23 < (N : ℚ) * 2 ^ d := by exact_mod_cast hM1
  have hM2q : (N : ℚ) * 2 ^ d ≤ 2 ^ 24 := by exact_mod_cast hM2
  have hdpos : (0 : ℚ) < 2 ^ d := by positivity
  -- the binary32 value just below N
  have hr : Rep ((N : ℚ) - 1 / 2 ^ d) := by
    refine ⟨(N : ℤ) * 2 ^ d - 1, 23 - d, ?_, by omega, ?_⟩
    · have h0 : (1 : ℤ) ≤ (N : ℤ) * 2 ^ d := by
        have : (1 : ℕ) ≤ N * 2 ^ d := Nat.one_le_iff_ne_zero.mpr (by positivity)
        exact_mod_cast this
      have h1 : (N : ℤ) * 2 ^ d ≤ 2 ^ 24 := by exact_mod_cast hM2
      rw [abs_of_nonneg (by linarith)]
      linarith
    · have : (23 - (d : ℤ)) - 23 = -(d : ℤ) := by ring
      rw [this, zpow_neg, zpow_natCast]
      push_cast
      field_simp
  have hkey : (1 / 2 ^ d : ℚ) / 2 < (N : ℚ) / 2 ^ 24 := by
    rw [div_div, div_lt_div_iff₀ (by positivity) (by positivity)]
    norm_num at hM1q ⊢
    linarith
  have hh : (0 : ℚ) < 1 / 2 ^ d := by positivity
  by_contra hcon
  push_neg at hcon
  have hn := roundF32_nearest x _ hr
  rw [abs_of_nonneg (by linarith : (0 : ℚ) ≤ roundF32 x - x)] at hn
  rcases abs_cases ((N : ℚ) - 1 / 2 ^ d - x) with ⟨e1, _⟩ | ⟨e1, _⟩ <;> rw [e1] at hn <;>
    linarith

theorem roundF32_nonneg {x : ℚ} (hx : 0 ≤ x) : 0 ≤ roundF32 x := by
  have h0 : Rep (0 : ℚ) := by simpa using rep_int 0 (by norm_num)
  exact le_roundF32_of_le h0 hx

/-- The result of rounding is a binary32 value. -/
theorem rep_roundF32 (x : ℚ) : Rep (roundF32 x) := by
  have hu := two_zpow_pos (binadeExp |x| - 23)
  have hlt := lt_two_zpow_binadeExp |x|
  have h24 : (2 : ℚ) ^ (binadeExp |x| + 1) = 16777216 * 2 ^ (binadeExp |x| - 23) := by
    have : binadeExp |x| + 1 = ((24 : ℕ) : ℤ) + (binadeExp |x| - 23) := by omega
    rw [this, zpow_add₀ (by norm_num : (2 : ℚ) ≠ 0), zpow_natCast]
    norm_num
  have hnext : (2 : ℚ) ^ (binadeExp |x| + 1 - 23) = 2 * 2 ^ (binadeExp |x| - 23) := by
    have : binadeExp |x| + 1 - 23 = ((1 : ℕ) : ℤ) + (binadeExp |x| - 23) := by omega
    rw [this, zpow_add₀ (by norm_num : (2 : ℚ) ≠ 0), zpow_natCast]
    norm_num
  have hy : |x / 2 ^ (binadeExp |x| - 23)| < 16777216 := by
    rw [abs_div, abs_of_pos hu, div_lt_iff₀ hu]
    linarith
  have hy2 := abs_lt.mp hy
  have hfl1 : (-16777216 : ℤ) ≤ ⌊x / 2 ^ (binadeExp |x| - 23)⌋ := by
    rw [Int.le_floor]
    push_cast
    linarith
  have hfl2 : ⌊x / 2 ^ (binadeExp |x| - 23)⌋ < (16777216 : ℤ) := by
    rw [Int.floor_lt]
    push_cast
    linarith
  have hm1 := roundHalfEven_lower (x / 2 ^ (binadeExp |x| - 23))
  have hm2 := roundHalfEven_upper (x / 2 ^ (binadeExp |x| - 23))
  have hval : roundF32 x
      = (roundHalfEven (x / 2 ^ (binadeExp |x| - 23)) : ℚ) * 2 ^ (binadeExp |x| - 23) := rfl
  have hge := binadeExp_ge |x|
  generalize roundHalfEven (x / 2 ^ (binadeExp |x| - 23)) = m at hm1 hm2 hval
  rw [hval]
  by_cases hA : m = 16777216
  · refine ⟨8388608, binadeExp |x| + 1, by norm_num, by omega, ?_⟩
    rw [hnext, hA]
    push_cast
    ring
  by_cases hB : m = -16777216
  · refine ⟨-8388608, binadeExp |x| + 1, by norm_num, by omega, ?_⟩
    rw [hnext, hB]
    push_cast
    ring
  · refine ⟨m, binadeExp |x|, ?_, hge, rfl⟩
    rw [abs_lt]
    constructor <;> norm_num <;> omega

theorem rep_of_isF32 {f : ℚ} (h : IsF32 f) : Rep f := by
  have := rep_roundF32 f
  rwa [show roundF32 f = f from h] at this

theorem isF32_of_rep {f : ℚ} (h : Rep f) : IsF32 f := roundF32_of_rep h

/-- The binade of a magnitude known between two consecutive powers of two. -/
theorem binadeExp_eq {a : ℚ} {e : ℤ} (he : -126 ≤ e) (h1 : 2 ^ e ≤ a) (h2 : a < 2 ^ (e + 1)) :
    binadeExp a = e := by
  have ha : 0 < a := lt_of_lt_of_le (two_zpow_pos e) h1
  have l1 : e ≤ Int.log 2 a := (Int.zpow_le_iff_le_log (by norm_num) ha).mp (by exact_mod_cast h1)
  have l2 : Int.log 2 a < e + 1 :=
    (Int.lt_zpow_iff_log_lt (by norm_num) ha).mp (by exact_mod_cast h2)
  unfold binadeExp
  rw [max_eq_left (by omega)]
  omega

/-- Rounding of a value whose binade is known, for evaluating concrete inputs. -/
theorem roundF32_eval (q : ℚ) (e m : ℤ) (he : -126 ≤ e) (h1 : 2 ^ e ≤ |q|)
    (h2 : |q| < 2 ^ (e + 1)) (hm : roundHalfEven (q / 2 ^ (e - 23)) = m) :
    roundF32 q = (m : ℚ) * 2 ^ (e - 23) := by
  unfold roundF32
  rw [binadeExp_eq he h1 h2, hm]

/-! ## Facts on `CtrlDX::setValue` -/

theorem floatToInt_of_nonneg {q : ℚ} (h : 0 ≤ q) : floatToInt q = ⌊q⌋ := if_pos h

theorem floatToInt_int (n : ℤ) : floatToInt (n : ℚ) = n := by
  unfold floatToInt
  split_ifs
  · exact Int.floor_intCast n
  · rw [← Int.cast_neg, Int.floor_intCast, neg_neg]

/-- The native value stored by `setValue`. -/
theorem setValue_dxValue (c : CtrlDX) (p : DexedAudioProcessor) (v : ℤ) :
    (c.setValue p v).1.dxValue
      = if c.steps ≤ intToFloat v then floatToInt (fsub c.steps (intToFloat 1)) else v := by
  unfold CtrlDX.setValue
  dsimp only
  split_ifs <;> rfl

theorem setValueHost_dxValue (c : CtrlDX) (p : DexedAudioProcessor) (f : ℚ) :
    (c.setValueHost p f).1.dxValue
      = if c.steps ≤ intToFloat (floatToInt (fmul f c.steps))
        then floatToInt (fsub c.steps (intToFloat 1)) else floatToInt (fmul f c.steps) :=
  setValue_dxValue c p _

/-- Below the step count no clamping takes place. -/
theorem setValue_dxValue_of_lt (c : CtrlDX) (p : DexedAudioProcessor) (N : ℕ) (v : ℤ)
    (hN : N ≤ 2 ^ 24) (hs : c.steps = N) (h0 : 0 ≤ v) (h1 : v < N) :
    (c.setValue p v).1.dxValue = v := by
  have hv : intToFloat v = v := intToFloat_exact v (by rw [abs_of_nonneg h0]; omega)
  have hlt : ¬ (c.steps ≤ intToFloat v) := by
    rw [hs, hv, not_le]
    exact_mod_cast h1
  rw [setValue_dxValue, if_neg hlt]

/-- The single-precision product of a binary32 value below one and a step
count stays below the step count. -/
theorem fmul_lt_steps (N : ℕ) (f : ℚ) (hN2 : 2 ≤ N) (hN : N ≤ 2 ^ 24) (hf : IsF32 f)
    (h1 : f < 1) : fmul f N < N := by
  have hf1 := rep_lt_one (rep_of_isF32 hf) h1
  have hx : f * N ≤ (N : ℚ) * (1 - 1 / 2 ^ 24) := by
    rw [mul_comm]
    exact mul_le_mul_of_nonneg_left hf1 (Nat.cast_nonneg N)
  exact roundF32_lt_of_le_pred N hN2 hN _ hx

theorem sample_steps (name : String) (N : ℕ) (off d : ℤ) (hN : N ≤ 2 ^ 24) :
    (CtrlDX.new name N off d).steps = N := by
  show intToFloat ((N : ℕ) : ℤ) = N
  rw [intToFloat_exact _ (by rw [abs_of_nonneg (by positivity)]; exact_mod_cast hN)]
  simp

theorem isF32_half : IsF32 (1 / 2) :=
  isF32_of_rep ⟨8388608, -1, by norm_num, by norm_num, by norm_num⟩

/-- Rounding the product moves its floor by at most one: the floor of the
single-precision product is the floor of the exact product or one more. -/
theorem floor_fmul_near (N : ℕ) (f : ℚ) (hN : N ≤ 2 ^ 24) (h0 : 0 ≤ f) (h1 : f < 1) :
    ⌊f * N⌋ ≤ ⌊fmul f N⌋ ∧ ⌊fmul f N⌋ ≤ ⌊f * N⌋ + 1 := by
  have hx0 : 0 ≤ f * N := mul_nonneg h0 (Nat.cast_nonneg N)
  have hxN : f * N ≤ N := by
    have := mul_le_mul_of_nonneg_right h1.le (Nat.cast_nonneg (α := ℚ) N)
    linarith
  have hfl0 : 0 ≤ ⌊f * N⌋ := Int.floor_nonneg.mpr hx0
  have hflN : ⌊f * N⌋ ≤ (N : ℤ) := by
    have h2 : ((⌊f * N⌋ : ℤ) : ℚ) ≤ ((N : ℤ) : ℚ) := by
      push_cast
      exact le_trans (Int.floor_le _) hxN
    exact_mod_cast h2
  have hr1 : Rep ((⌊f * N⌋ : ℤ) : ℚ) := rep_int _ (by rw [abs_of_nonneg hfl0]; omega)
  have hfl1 : ⌊f * N⌋ + 1 ≤ 2 ^ 24 := by
    rcases Nat.eq_zero_or_pos N with hz | hp
    · subst hz
      simp
    · have hNpos : (0 : ℚ) < N := by exact_mod_cast hp
      have h3 : f * N < N := by
        have := mul_lt_mul_of_pos_right h1 hNpos
        linarith
      have h4 : ⌊f * N⌋ < (N : ℤ) := by
        rw [Int.floor_lt]
        exact_mod_cast h3
      omega
  have hr2 : Rep ((⌊f * N⌋ + 1 : ℤ) : ℚ) :=
    rep_int _ (by rw [abs_of_nonneg (by omega)]; omega)
  have a1 := le_roundF32_of_le hr1 (x := f * N) (Int.floor_le _)
  have a2 := roundF32_le_of_le hr2 (x := f * N) (by push_cast; exact (Int.lt_floor_add_one _).le)
  unfold fmul
  constructor
  · rw [Int.le_floor]
    exact a1
  · have h4 : ⌊roundF32 (f * N)⌋ ≤ ⌊((⌊f * N⌋ + 1 : ℤ) : ℚ)⌋ := Int.floor_mono a2
    rwa [Int.floor_intCast] at h4

/-! ## Claims -/

/-- C1: for a CtrlDX with step count N (2 ≤ N, N exactly held by the float
member, i.e. N ≤ 2^24) and a float f with 0 ≤ f < 1, `setValueHost(f)` leaves
`dxValue` equal to the floor of `f * N`, the product being the single-precision
product `f * steps` of the code (it is the product of the rationals whenever
that is a binary32 value), and that value lies in [0, N-1]. -/
theorem setValueHost_stores_floor (c : CtrlDX) (p : DexedAudioProcessor) (N : ℕ) (f : ℚ)
    (hN2 : 2 ≤ N) (hN : N ≤ 2 ^ 24) (hs : c.steps = N) (hf : IsF32 f) (h0 : 0 ≤ f)
    (h1 : f < 1) :
    (c.setValueHost p f).1.dxValue = ⌊fmul f N⌋ ∧
      0 ≤ (c.setValueHost p f).1.dxValue ∧ (c.setValueHost p f).1.dxValue ≤ (N : ℤ) - 1 ∧
      (IsF32 (f * N) → (c.setValueHost p f).1.dxValue = ⌊f * N⌋) := by
  have hlt := fmul_lt_steps N f hN2 hN hf h1
  have hge : 0 ≤ fmul f N := roundF32_nonneg (mul_nonneg h0 (Nat.cast_nonneg N))
  have hfl0 : 0 ≤ ⌊fmul f N⌋ := Int.floor_nonneg.mpr hge
  have hfl1 : ⌊fmul f N⌋ < (N : ℤ) := by
    rw [Int.floor_lt]
    exact_mod_cast hlt
  have hst : (c.setValueHost p f).1.dxValue = ⌊fmul f N⌋ := by
    unfold CtrlDX.setValueHost
    rw [hs, floatToInt_of_nonneg hge]
    exact setValue_dxValue_of_lt c p N _ hN hs hfl0 hfl1
  rw [hst]
  refine ⟨rfl, hfl0, by omega, fun hx => ?_⟩
  rw [show fmul f N = f * N from hx]

/-- C1 at the spec's scenario: step count 32 and f = 0.5 store 16. -/
theorem setValueHost_stores_floor_witness :
    ((CtrlDX.new "ALGORITHM" 32 134 1).setValueHost sampleProcessor (1 / 2)).1.dxValue = 16 := by
  have h := setValueHost_stores_floor (CtrlDX.new "ALGORITHM" 32 134 1) sampleProcessor 32
    (1 / 2) (by norm_num) (by norm_num) (sample_steps "ALGORITHM" 32 134 1 (by norm_num))
    isF32_half (by norm_num) (by norm_num)
  rw [h.1]
  have e : fmul (1 / 2) ((32 : ℕ) : ℚ) = ((16 : ℤ) : ℚ) := by
    unfold fmul
    rw [show (1 / 2 : ℚ) * ((32 : ℕ) : ℚ) = ((16 : ℤ) : ℚ) by norm_num]
    exact roundF32_int 16 (by norm_num)
  rw [e, Int.floor_intCast]

theorem setValue_steps (c : CtrlDX) (p : DexedAudioProcessor) (v : ℤ) :
    (c.setValue p v).1.steps = c.steps := by
  unfold CtrlDX.setValue
  dsimp only
  split_ifs <;> rfl

/-- The largest binary32 value below one. -/
theorem rep_pred_one : Rep (1 - 1 / 2 ^ 24) :=
  ⟨16777215, -1, by norm_num, by norm_num, by norm_num⟩

/-- `getValueHost` on a descriptor whose native value is in range. -/
theorem getValueHost_eq (c : CtrlDX) (N : ℕ) (v : ℤ) (hN : N ≤ 2 ^ 24) (hs : c.steps = N)
    (hv : c.dxValue = v) (h0 : 0 ≤ v) (h1 : v ≤ (N : ℤ) - 1) :
    c.getValueHost = roundF32 ((v : ℚ) / N) := by
  unfold CtrlDX.getValueHost fdiv
  rw [hv, hs, intToFloat_exact v (by rw [abs_of_nonneg h0]; omega)]

/-- For LFO WAVE (step count 5) at the native value 1, `getValueHost()` is the
float 13421773 / 2^26, the binary32 value nearest to 1/5. -/
theorem getValueHost_lfoWave :
    ((CtrlDX.new "LFO WAVE" 5 142 0).setValue sampleProcessor 1).1.getValueHost
        = 13421773 / 67108864 := by
  have hs := sample_steps "LFO WAVE" 5 142 0 (by norm_num)
  have hv := setValue_dxValue_of_lt (CtrlDX.new "LFO WAVE" 5 142 0) sampleProcessor 5 1
    (by norm_num) hs (by norm_num) (by norm_num)
  have hst := (setValue_steps (CtrlDX.new "LFO WAVE" 5 142 0) sampleProcessor 1).trans hs
  have hg := getValueHost_eq _ 5 1 (by norm_num) hst hv (by norm_num) (by norm_num)
  have hr : roundF32 (((1 : ℤ) : ℚ) / ((5 : ℕ) : ℚ)) = 13421773 / 67108864 := by
    rw [roundF32_eval _ (-3) 13421773 (by norm_num) (by norm_num [abs_of_pos])
      (by norm_num [abs_of_pos]) (by norm_num [roundHalfEven])]
    norm_num
  rw [hg, hr]

/-- C2: for a CtrlDX with step count N (2 ≤ N ≤ 2^24) and stored native value
v in [0, N-1], `getValueHost()` returns the quotient v / N of the
single-precision division `dxValue / steps`: both operands convert exactly
and the division gives the exact quotient whenever that is a binary32 value,
and otherwise a binary32 value nearest to it; the result lies in [0, 1). -/
theorem getValueHost_quotient (c : CtrlDX) (N : ℕ) (v : ℤ) (hN2 : 2 ≤ N)
    (hN : N ≤ 2 ^ 24) (hs : c.steps = N) (hv : c.dxValue = v) (h0 : 0 ≤ v)
    (h1 : v ≤ (N : ℤ) - 1) :
    c.getValueHost = fdiv v N ∧
      (IsF32 ((v : ℚ) / N) → c.getValueHost = (v : ℚ) / N) ∧
      (∀ r : ℚ, IsF32 r → |c.getValueHost - (v : ℚ) / N| ≤ |r - (v : ℚ) / N|) ∧
      0 ≤ c.getValueHost ∧ c.getValueHost < 1 := by
  have hg := getValueHost_eq c N v hN hs hv h0 h1
  have hNpos : (0 : ℚ) < N := by exact_mod_cast (by omega : 0 < N)
  have hvq : (0 : ℚ) ≤ v := by exact_mod_cast h0
  have hvq1 : (v : ℚ) ≤ (N : ℚ) - 1 := by exact_mod_cast h1
  have hNq : (N : ℚ) ≤ 2 ^ 24 := by exact_mod_cast hN
  have hx0 : (0 : ℚ) ≤ (v : ℚ) / N := div_nonneg hvq hNpos.le
  have hx1 : (v : ℚ) / N ≤ 1 - 1 / 2 ^ 24 := by
    rw [div_le_iff₀ hNpos]
    have : (1 - 1 / 2 ^ 24 : ℚ) * N = N - N / 2 ^ 24 := by ring
    rw [this]
    have : (N : ℚ) / 2 ^ 24 ≤ 1 := by
      rw [div_le_one (by positivity)]
      exact hNq
    linarith
  rw [hg]
  refine ⟨rfl, fun h => h, fun r hr => roundF32_nearest _ r (rep_of_isF32 hr),
    roundF32_nonneg hx0, ?_⟩
  have := roundF32_le_of_le rep_pred_one hx1
  have h2 : (1 - 1 / 2 ^ 24 : ℚ) < 1 := by norm_num
  linarith

/-- C2 at the spec's scenario: step count 32 and native value 16 give 0.5. -/
theorem getValueHost_quotient_witness :
    ({ CtrlDX.new "ALGORITHM" 32 134 1 with dxValue := 16 } : CtrlDX).getValueHost = 1 / 2 := by
  have h := getValueHost_quotient
    ({ CtrlDX.new "ALGORITHM" 32 134 1 with dxValue := 16 } : CtrlDX) 32 16 (by norm_num)
    (by norm_num) (sample_steps "ALGORITHM" 32 134 1 (by norm_num)) rfl (by norm_num)
    (by norm_num)
  have e : ((16 : ℤ) : ℚ) / ((32 : ℕ) : ℚ) = 1 / 2 := by norm_num
  rw [e] at h
  exact h.2.1 isF32_half

theorem setValueHost_dxValue_of_lt (c : CtrlDX) (p : DexedAudioProcessor) (N : ℕ) (f : ℚ)
    (w : ℤ) (hN : N ≤ 2 ^ 24) (hs : c.steps = N) (hw : floatToInt (fmul f N) = w)
    (h0 : 0 ≤ w) (h1 : w < N) : (c.setValueHost p f).1.dxValue = w := by
  unfold CtrlDX.setValueHost
  rw [hs, hw]
  exact setValue_dxValue_of_lt c p N w hN hs h0 h1

/-- Single-precision quotient followed by single-precision product: the result
stays within (v - 1, v + 1/2]. -/
theorem fmul_fdiv_bounds (N : ℕ) (v : ℤ) (hN2 : 2 ≤ N) (hN : N ≤ 2 ^ 23) (h0 : 0 ≤ v)
    (h1 : v ≤ (N : ℤ) - 1) :
    (v : ℚ) - 1 ≤ fmul (roundF32 ((v : ℚ) / N)) N ∧
      fmul (roundF32 ((v : ℚ) / N)) N ≤ (v : ℚ) + 1 / 2 ∧
      0 ≤ fmul (roundF32 ((v : ℚ) / N)) N := by
  have hNpos : (0 : ℚ) < N := by exact_mod_cast (by omega : 0 < N)
  have hvq : (0 : ℚ) ≤ v := by exact_mod_cast h0
  have hvq1 : (v : ℚ) ≤ (N : ℚ) - 1 := by exact_mod_cast h1
  have hNq : (N : ℚ) ≤ 8388608 := by exact_mod_cast hN
  have hxN : (v : ℚ) / N * N = v := div_mul_cancel₀ _ hNpos.ne'
  have hx0 : (0 : ℚ) ≤ (v : ℚ) / N := div_nonneg hvq hNpos.le
  have hz : (2 : ℚ) ^ ((-1 : ℤ) - 23) = 1 / 16777216 := by norm_num
  -- the two neighbours of v / N on the grid of the binade below one
  have hL1 : ((⌊(v : ℚ) / N * 16777216⌋ : ℤ) : ℚ) ≤ (v : ℚ) / N * 16777216 := Int.floor_le _
  have hL2 : (v : ℚ) / N * 16777216 < ((⌊(v : ℚ) / N * 16777216⌋ : ℤ) : ℚ) + 1 :=
    Int.lt_floor_add_one _
  have hL0 : 0 ≤ ⌊(v : ℚ) / N * 16777216⌋ := Int.floor_nonneg.mpr (by positivity)
  have hxu : (v : ℚ) / N * 16777216 ≤ 16777216 - 2 := by
    have h3 : (v : ℚ) / N ≤ 1 - 1 / N := by
      rw [div_le_iff₀ hNpos, sub_mul, one_mul, one_div, inv_mul_cancel₀ hNpos.ne']
      exact hvq1
    have h4 : (1 : ℚ) / 8388608 ≤ 1 / N := one_div_le_one_div_of_le hNpos hNq
    linarith
  have hLu : ⌊(v : ℚ) / N * 16777216⌋ ≤ 16777216 - 2 := by
    have : ((⌊(v : ℚ) / N * 16777216⌋ : ℤ) : ℚ) ≤ ((16777216 - 2 : ℤ) : ℚ) := by
      push_cast
      linarith
    exact_mod_cast this
  generalize ⌊(v : ℚ) / N * 16777216⌋ = L at hL1 hL2 hL0 hLu
  have hlo : Rep ((L : ℚ) * 2 ^ ((-1 : ℤ) - 23)) :=
    ⟨L, -1, by rw [abs_of_nonneg hL0]; omega, by norm_num, rfl⟩
  have hhi : Rep (((L + 1 : ℤ) : ℚ) * 2 ^ ((-1 : ℤ) - 23)) :=
    ⟨L + 1, -1, by rw [abs_of_nonneg (by omega)]; omega, by norm_num, rfl⟩
  have hq1 := le_roundF32_of_le hlo (x := (v : ℚ) / N) (by rw [hz]; linarith)
  have hq2 := roundF32_le_of_le hhi (x := (v : ℚ) / N) (by rw [hz]; push_cast; linarith)
  rw [hz] at hq1 hq2
  push_cast at hq2
  generalize roundF32 ((v : ℚ) / N) = q at hq1 hq2
  have hq0 : 0 ≤ q := by
    have : (0 : ℚ) ≤ (L : ℚ) := by exact_mod_cast hL0
    linarith
  have hp1 : (L : ℚ) * (1 / 16777216) * N ≤ q * N := mul_le_mul_of_nonneg_right hq1 hNpos.le
  have hp2 : q * N ≤ ((L : ℚ) + 1) * (1 / 16777216) * N :=
    mul_le_mul_of_nonneg_right hq2 hNpos.le
  have hp3 : ((v : ℚ) / N * 16777216 - 1) * N ≤ (L : ℚ) * N :=
    mul_le_mul_of_nonneg_right (by linarith) hNpos.le
  have hp4 : (L : ℚ) * N ≤ ((v : ℚ) / N * 16777216) * N :=
    mul_le_mul_of_nonneg_right hL1 hNpos.le
  have hp5 : ((v : ℚ) / N * 16777216) * N = (v : ℚ) * 16777216 := by
    rw [mul_right_comm, hxN]
  have hp6 : ((v : ℚ) / N * 16777216 - 1) * N = (v : ℚ) * 16777216 - N := by
    rw [sub_mul, hp5, one_mul]
  have hlow : (v : ℚ) - 1 / 2 ≤ q * N := by linarith
  have hupp : q * N ≤ (v : ℚ) + 1 / 2 := by linarith
  have hr1 : Rep ((v : ℚ) - 1) := by
    have := rep_int (v - 1) (by rw [abs_le]; constructor <;> omega)
    push_cast at this
    exact this
  have hr2 : Rep ((v : ℚ) + 1 / 2) := by
    refine ⟨2 * v + 1, 22, by rw [abs_of_nonneg (by omega)]; omega, by norm_num, ?_⟩
    push_cast
    norm_num
    ring
  unfold fmul
  exact ⟨le_roundF32_of_le hr1 (by linarith), roundF32_le_of_le hr2 hupp,
    roundF32_nonneg (mul_nonneg hq0 hNpos.le)⟩

/-- The native value left by the round trip, in terms of the arithmetic alone. -/
theorem roundTrip_dxValue (c : CtrlDX) (p : DexedAudioProcessor) (N : ℕ) (v w : ℤ)
    (hN : N ≤ 2 ^ 24) (hs : c.steps = N) (h0 : 0 ≤ v) (h1 : v ≤ (N : ℤ) - 1)
    (hw : floatToInt (fmul (roundF32 ((v : ℚ) / N)) N) = w) (hw0 : 0 ≤ w) (hw1 : w < N) :
    (roundTrip c p v).1.dxValue = w := by
  have hv : (afterSet c p v).1.dxValue = v :=
    setValue_dxValue_of_lt c p N v hN hs h0 (by omega)
  have hst : (afterSet c p v).1.steps = N := (setValue_steps c p v).trans hs
  have hg := getValueHost_eq _ N v hN hst hv h0 h1
  unfold roundTrip
  rw [hg]
  exact setValueHost_dxValue_of_lt _ _ N _ w hN hst hw hw0 hw1

/-- C3, counterexample: on the MIDDLE C descriptor (step count 49) the round
trip from the native value 27 stores 26. -/
theorem roundTrip_middleC_loses_one :
    (roundTrip (CtrlDX.new "MIDDLE C" 49 144 0) sampleProcessor 27).1.dxValue = 26 ∧
      (roundTrip (CtrlDX.new "MIDDLE C" 49 144 0) sampleProcessor 27).1.dxValue ≠ 27 := by
  have hq : roundF32 (((27 : ℤ) : ℚ) / ((49 : ℕ) : ℚ)) = 2311147 / 4194304 := by
    rw [roundF32_eval _ (-1) 9244588 (by norm_num) (by norm_num [abs_of_pos])
      (by norm_num [abs_of_pos]) (by norm_num [roundHalfEven])]
    norm_num
  have hm : fmul (2311147 / 4194304) ((49 : ℕ) : ℚ) = 14155775 / 524288 := by
    unfold fmul
    rw [roundF32_eval _ 4 14155775 (by norm_num) (by norm_num [abs_of_pos])
      (by norm_num [abs_of_pos]) (by norm_num [roundHalfEven])]
    norm_num
  have hw : floatToInt (fmul (roundF32 (((27 : ℤ) : ℚ) / ((49 : ℕ) : ℚ))) ((49 : ℕ) : ℚ))
      = 26 := by
    rw [hq, hm]
    norm_num [floatToInt]
  have h := roundTrip_dxValue (CtrlDX.new "MIDDLE C" 49 144 0) sampleProcessor 49 27 26
    (by norm_num) (sample_steps "MIDDLE C" 49 144 0 (by norm_num)) (by norm_num)
    (by norm_num) hw (by norm_num) (by norm_num)
  rw [h]
  exact ⟨rfl, by norm_num⟩

/-- The quotient of an integer below 2^24 in magnitude by a power of two
(at most 2^23) is a binary32 value. -/
theorem isF32_div_two_pow (v : ℤ) (k : ℕ) (hk : k ≤ 23) (hv : |v| < 2 ^ 24) :
    IsF32 ((v : ℚ) / ((2 ^ k : ℕ) : ℚ)) := by
  refine isF32_of_rep ⟨v, 23 - k, hv, by omega, ?_⟩
  have : (23 - (k : ℤ)) - 23 = -(k : ℤ) := by ring
  rw [this, zpow_neg, zpow_natCast]
  push_cast
  rfl

/-- C3, amended: for a CtrlDX with step count N (2 ≤ N ≤ 2^23) and a native
value v in [0, N-1], after `setValue(v)` the call
`setValueHost(getValueHost())` leaves the stored native value equal to v or to
v - 1; it is v whenever the quotient v / N is a binary32 value, in particular
for every v when N is a power of two. -/
theorem roundTrip_within_one (c : CtrlDX) (p : DexedAudioProcessor) (N : ℕ) (v : ℤ)
    (hN2 : 2 ≤ N) (hN : N ≤ 2 ^ 23) (hs : c.steps = N) (h0 : 0 ≤ v)
    (h1 : v ≤ (N : ℤ) - 1) :
    ((roundTrip c p v).1.dxValue = v ∨ (roundTrip c p v).1.dxValue = v - 1) ∧
      (IsF32 ((v : ℚ) / N) → (roundTrip c p v).1.dxValue = v) ∧
      (∀ k : ℕ, N = 2 ^ k → (roundTrip c p v).1.dxValue = v) := by
  have hN24 : N ≤ 2 ^ 24 := le_trans hN (by norm_num)
  obtain ⟨b1, b2, b3⟩ := fmul_fdiv_bounds N v hN2 hN h0 h1
  have hfl := floatToInt_of_nonneg b3
  have hw0 : 0 ≤ ⌊fmul (roundF32 ((v : ℚ) / N)) N⌋ := Int.floor_nonneg.mpr b3
  have hw1 : v - 1 ≤ ⌊fmul (roundF32 ((v : ℚ) / N)) N⌋ := by
    rw [Int.le_floor]
    push_cast
    exact b1
  have hw2 : ⌊fmul (roundF32 ((v : ℚ) / N)) N⌋ < v + 1 := by
    rw [Int.floor_lt]
    push_cast
    linarith
  have h := roundTrip_dxValue c p N v _ hN24 hs h0 h1 hfl hw0 (by omega)
  have hexact : IsF32 ((v : ℚ) / N) → (roundTrip c p v).1.dxValue = v := by
    intro hx
    have hNpos : (0 : ℚ) < N := by exact_mod_cast (by omega : 0 < N)
    have e : fmul (roundF32 ((v : ℚ) / N)) N = v := by
      unfold fmul
      rw [show roundF32 ((v : ℚ) / N) = (v : ℚ) / N from hx, div_mul_cancel₀ _ hNpos.ne']
      exact roundF32_int v (by rw [abs_of_nonneg h0]; omega)
    rw [h, e, Int.floor_intCast]
  refine ⟨?_, hexact, ?_⟩
  · rw [h]
    omega
  · intro k hk
    apply hexact
    have hk23 : k ≤ 23 := by
      by_contra hcon
      have : 2 ^ 24 ≤ 2 ^ k := Nat.pow_le_pow_right (by norm_num) (by omega)
      omega
    rw [hk]
    exact isF32_div_two_pow v k hk23 (by rw [abs_of_nonneg h0]; omega)

/-- C3, amended, at a concrete input: on the ALGORITHM descriptor (step count
32) the round trip from the native value 16 stores 16 again. -/
theorem roundTrip_within_one_witness :
    (roundTrip (CtrlDX.new "ALGORITHM" 32 134 1) sampleProcessor 16).1.dxValue = 16 := by
  have h := roundTrip_within_one (CtrlDX.new "ALGORITHM" 32 134 1) sampleProcessor 32 16
    (by norm_num) (by norm_num) (sample_steps "ALGORITHM" 32 134 1 (by norm_num))
    (by norm_num) (by norm_num)
  have e : ((16 : ℤ) : ℚ) / ((32 : ℕ) : ℚ) = 1 / 2 := by norm_num
  rw [e] at h
  exact h.2.1 isF32_half

/-! ### Clamping above the step count -/

theorem setDxValue_log (p : DexedAudioProcessor) (offset v : ℤ) :
    (p.setDxValue offset v).log = p.log ++ [Diag.settingDx offset v] := by
  unfold DexedAudioProcessor.setDxValue
  dsimp only
  split_ifs <;> rfl

/-- The processor left by `setValue` on the warning branch. -/
theorem setValue_snd_of_ge (c : CtrlDX) (p : DexedAudioProcessor) (v : ℤ)
    (h : c.steps ≤ intToFloat v) :
    (c.setValue p v).2
      = if 0 ≤ c.dxOffset ∧ c.parent = true then
          ({ p with log := p.log ++ [Diag.settingValue c.dxOffset v]
                      ++ [Diag.valueTooBig c.label v] } : DexedAudioProcessor).setDxValue
            c.dxOffset (floatToInt (fsub c.steps (intToFloat 1)))
        else { p with log := p.log ++ [Diag.settingValue c.dxOffset v]
                      ++ [Diag.valueTooBig c.label v] } := by
  unfold CtrlDX.setValue
  dsimp only
  simp only [h, if_true]
  split_ifs <;> first | rfl | tauto

/-- The comparison `v >= steps` succeeds for every integer at least the step count. -/
theorem steps_le_intToFloat (N : ℕ) (v : ℤ) (hN : N ≤ 2 ^ 24) (hv : (N : ℤ) ≤ v) :
    (N : ℚ) ≤ intToFloat v := by
  have hr : Rep ((N : ℤ) : ℚ) :=
    rep_int N (by rw [abs_of_nonneg (by positivity)]; exact_mod_cast hN)
  have := le_roundF32_of_le hr (x := (v : ℚ)) (by exact_mod_cast hv)
  simpa using this

/-- The value `steps - 1` computed on the warning branch. -/
theorem steps_pred (N : ℕ) (hN : N ≤ 2 ^ 24) :
    floatToInt (fsub (N : ℚ) (intToFloat 1)) = (N : ℤ) - 1 := by
  have h1 : intToFloat 1 = 1 := by
    simpa using intToFloat_exact 1 (by norm_num)
  have h2 : fsub (N : ℚ) 1 = (((N : ℤ) - 1 : ℤ) : ℚ) := by
    unfold fsub
    have := roundF32_int ((N : ℤ) - 1) (by rw [abs_le]; constructor <;> omega)
    push_cast at this ⊢
    exact this
  rw [h1, h2, floatToInt_int]

/-- C4: for a CtrlDX with step count N (held exactly by the float member,
N ≤ 2^24) and every requested native value v ≥ N, `setValue(v)` stores exactly
N - 1, records the warning diagnostic, and has no other effect than the
diagnostics and, for a buffer-backed wired descriptor, the call
`setDxValue(dxOffset, N - 1)` (the buffer write uses N - 1, not v); the same
holds when the value comes from `setValueHost`. -/
theorem setValue_clamps_above (c : CtrlDX) (p : DexedAudioProcessor) (N : ℕ) (v : ℤ)
    (hN : N ≤ 2 ^ 24) (hs : c.steps = N) (hv : (N : ℤ) ≤ v) :
    (c.setValue p v).1.dxValue = (N : ℤ) - 1 ∧
      Diag.valueTooBig c.label v ∈ (c.setValue p v).2.log ∧
      (0 ≤ c.dxOffset ∧ c.parent = true →
        (c.setValue p v).2
          = ({ p with log := p.log ++ [Diag.settingValue c.dxOffset v]
                ++ [Diag.valueTooBig c.label v] } : DexedAudioProcessor).setDxValue
              c.dxOffset ((N : ℤ) - 1)) ∧
      (¬ (0 ≤ c.dxOffset ∧ c.parent = true) →
        (c.setValue p v).2
          = { p with log := p.log ++ [Diag.settingValue c.dxOffset v]
                ++ [Diag.valueTooBig c.label v] }) ∧
      (∀ f : ℚ, floatToInt (fmul f c.steps) = v →
        (c.setValueHost p f).1.dxValue = (N : ℤ) - 1) := by
  have hbig : c.steps ≤ intToFloat v := by
    rw [hs]
    exact steps_le_intToFloat N v hN hv
  have hpred := steps_pred N hN
  have hdx : (c.setValue p v).1.dxValue = (N : ℤ) - 1 := by
    rw [setValue_dxValue, if_pos hbig, hs, hpred]
  have hsnd := setValue_snd_of_ge c p v hbig
  rw [hs, hpred] at hsnd
  refine ⟨hdx, ?_, ?_, ?_, ?_⟩
  · rw [hsnd]
    split_ifs
    · rw [setDxValue_log]
      simp
    · simp
  · intro hb
    rw [hsnd, if_pos hb]
  · intro hb
    rw [hsnd, if_neg hb]
  · intro f hf
    unfold CtrlDX.setValueHost
    rw [hf]
    exact hdx

/-- C4 at a concrete input: on the FEEDBACK descriptor (step count 8) the
request 8, reached from `setValueHost(1)`, stores 7. -/
theorem setValue_clamps_above_witness :
    ((CtrlDX.new "FEEDBACK" 8 135 0).setValue sampleProcessor 8).1.dxValue = 7 ∧
      ((CtrlDX.new "FEEDBACK" 8 135 0).setValueHost sampleProcessor 1).1.dxValue = 7 := by
  have h := setValue_clamps_above (CtrlDX.new "FEEDBACK" 8 135 0) sampleProcessor 8 8
    (by norm_num) (sample_steps "FEEDBACK" 8 135 0 (by norm_num)) (by norm_num)
  refine ⟨h.1, h.2.2.2.2 1 ?_⟩
  have hs8 : (CtrlDX.new "FEEDBACK" 8 135 0).steps = ((8 : ℕ) : ℚ) :=
    sample_steps "FEEDBACK" 8 135 0 (by norm_num)
  rw [hs8]
  have e : fmul 1 ((8 : ℕ) : ℚ) = ((8 : ℤ) : ℚ) := by
    unfold fmul
    rw [show (1 : ℚ) * ((8 : ℕ) : ℚ) = ((8 : ℤ) : ℚ) by norm_num]
    exact roundF32_int 8 (by norm_num)
  rw [e, floatToInt_int]

/-! ### Buffer write and outbound message -/

theorem setDxValue_data (q : DexedAudioProcessor) (offset w : ℤ) (h : 0 ≤ offset) :
    (q.setDxValue offset w).data = q.data.set offset.toNat (toUint8 w) := by
  unfold DexedAudioProcessor.setDxValue
  dsimp only
  rw [if_pos h]
  split_ifs <;> rfl

theorem setDxValue_midiOut_on (q : DexedAudioProcessor) (offset w : ℤ)
    (h : q.sendSysexChange = true) :
    (q.setDxValue offset w).midiOut
      = q.midiOut ++ [[0xF0, 0x43, 0x10, if offset > 127 then 1 else 0,
          Int.land offset 0x7F, toUint8 w, 0xF7]] := by
  unfold DexedAudioProcessor.setDxValue
  dsimp only
  split_ifs <;> simp_all

/-- On a buffer-backed wired descriptor `setValue` ends in `setDxValue` with
the stored native value, on a processor that differs from the given one by
diagnostics only. -/
theorem setValue_backed (c : CtrlDX) (p : DexedAudioProcessor) (v : ℤ) (hoff : 0 ≤ c.dxOffset)
    (hpar : c.parent = true) :
    ∃ q : DexedAudioProcessor, q.data = p.data ∧ q.midiOut = p.midiOut ∧
      q.sendSysexChange = p.sendSysexChange ∧
      (c.setValue p v).2 = q.setDxValue c.dxOffset (c.setValue p v).1.dxValue := by
  unfold CtrlDX.setValue
  dsimp only
  rw [if_pos hoff, if_pos hpar]
  split_ifs
  · exact ⟨{ p with log := p.log ++ [Diag.settingValue c.dxOffset v]
      ++ [Diag.valueTooBig c.label v] }, rfl, rfl, rfl, rfl⟩
  · exact ⟨{ p with log := p.log ++ [Diag.settingValue c.dxOffset v] }, rfl, rfl, rfl, rfl⟩

theorem toUint8_of_byte {s : ℤ} (h0 : 0 ≤ s) (h1 : s < 256) : toUint8 s = s :=
  Int.emod_eq_of_lt h0 h1

/-- Buffer and queue after a set operation on a buffer-backed wired descriptor. -/
theorem setValue_buffer_message (c : CtrlDX) (p : DexedAudioProcessor) (v : ℤ)
    (hoff : 0 ≤ c.dxOffset) (hlen : c.dxOffset.toNat < p.data.length) (hpar : c.parent = true)
    (hb0 : 0 ≤ (c.setValue p v).1.dxValue) (hb1 : (c.setValue p v).1.dxValue < 256) :
    (c.setValue p v).2.data.getD c.dxOffset.toNat 0 = (c.setValue p v).1.dxValue ∧
      (p.sendSysexChange = true →
        (c.setValue p v).2.midiOut
          = p.midiOut ++ [[0xF0, 0x43, 0x10, if c.dxOffset > 127 then 1 else 0,
              Int.land c.dxOffset 0x7F, (c.setValue p v).1.dxValue, 0xF7]]) := by
  obtain ⟨q, hq1, hq2, hq3, hq⟩ := setValue_backed c p v hoff hpar
  rw [hq]
  constructor
  · rw [setDxValue_data q _ _ hoff, List.getD_eq_getElem?_getD,
      List.getElem?_set_self (by rw [hq1]; exact hlen), toUint8_of_byte hb0 hb1]
    rfl
  · intro hs
    rw [setDxValue_midiOut_on q _ _ (by rw [hq3]; exact hs), hq2, toUint8_of_byte hb0 hb1]

theorem feedbackWired_steps : feedbackWired.steps = ((8 : ℕ) : ℚ) :=
  sample_steps "FEEDBACK" 8 135 0 (by norm_num)

set_option maxRecDepth 8000 in
theorem feedbackWired_in_registry :
    (wireFrom 0 registryTable)[4]? = some (Control.dx feedbackWired) := rfl

theorem feedbackWired_setValue_five :
    (feedbackWired.setValue sampleProcessor 5).1.dxValue = 5 :=
  setValue_dxValue_of_lt feedbackWired sampleProcessor 8 5 (by norm_num) feedbackWired_steps
    (by norm_num) (by norm_num)

/-- The message queued by a set operation on a buffer-backed wired descriptor. -/
theorem setValue_message (c : CtrlDX) (p : DexedAudioProcessor) (v : ℤ)
    (hoff : 0 ≤ c.dxOffset) (hpar : c.parent = true) (hs : p.sendSysexChange = true) :
    (c.setValue p v).2.midiOut
      = p.midiOut ++ [[0xF0, 0x43, 0x10, if c.dxOffset > 127 then 1 else 0,
          Int.land c.dxOffset 0x7F, toUint8 (c.setValue p v).1.dxValue, 0xF7]] := by
  obtain ⟨q, _, hq2, hq3, hq⟩ := setValue_backed c p v hoff hpar
  rw [hq, setDxValue_midiOut_on q _ _ (by rw [hq3]; exact hs), hq2]

theorem feedbackWired_setValueHost_five :
    (feedbackWired.setValueHost sampleProcessor (5 / 8)).1.dxValue = 5 := by
  have e : fmul (5 / 8) ((8 : ℕ) : ℚ) = ((5 : ℤ) : ℚ) := by
    unfold fmul
    rw [show (5 / 8 : ℚ) * ((8 : ℕ) : ℚ) = ((5 : ℤ) : ℚ) by norm_num]
    exact roundF32_int 5 (by norm_num)
  exact setValueHost_dxValue_of_lt feedbackWired sampleProcessor 8 (5 / 8) 5 (by norm_num)
    feedbackWired_steps (by rw [e, floatToInt_int]) (by norm_num) (by norm_num)

/-- C6, counterexample: on the FEEDBACK descriptor (step count 8, offset 135),
outbound messages enabled, `setValueHost(0.625)` reaches the native value 5
and the message queued is [0xF0, 0x43, 0x10, 1, 7, 5, 0xF7], not
[0xF0, 0x43, 0x10, 0, 135, 5, 0xF7]. -/
theorem feedback_message_not_as_claimed :
    (feedbackWired.setValueHost sampleProcessor (5 / 8)).1.dxValue = 5 ∧
      (feedbackWired.setValueHost sampleProcessor (5 / 8)).2.midiOut
        = [[0xF0, 0x43, 0x10, 1, 7, 5, 0xF7]] ∧
      (feedbackWired.setValueHost sampleProcessor (5 / 8)).2.midiOut
        ≠ [[0xF0, 0x43, 0x10, 0, 135, 5, 0xF7]] := by
  have h5 := feedbackWired_setValueHost_five
  have hm : (feedbackWired.setValueHost sampleProcessor (5 / 8)).2.midiOut
      = [[0xF0, 0x43, 0x10, 1, 7, 5, 0xF7]] := by
    have h := setValue_message feedbackWired sampleProcessor
      (floatToInt (fmul (5 / 8) feedbackWired.steps)) (by show (0 : ℤ) ≤ 135; norm_num) rfl rfl
    have h5a : (feedbackWired.setValue sampleProcessor
        (floatToInt (fmul (5 / 8) feedbackWired.steps))).1.dxValue = 5 := h5
    rw [h5a] at h
    exact h
  refine ⟨h5, hm, ?_⟩
  rw [hm]
  decide

/-- C6, amended: on a wired descriptor at buffer offset 135 (FEEDBACK, step
count 8), with outbound emission enabled, a `setValueHost` call that reaches
the native value 5 queues the message [0xF0, 0x43, 0x10, 1, 7, 5, 0xF7]:
the high bit is 1 because 135 > 127 and the low seven bits of 135 are 7. -/
theorem feedback_message (c : CtrlDX) (p : DexedAudioProcessor) (f : ℚ)
    (hoff : c.dxOffset = 135) (hpar : c.parent = true) (hs : p.sendSysexChange = true)
    (h5 : (c.setValueHost p f).1.dxValue = 5) :
    (c.setValueHost p f).2.midiOut = p.midiOut ++ [[0xF0, 0x43, 0x10, 1, 7, 5, 0xF7]] := by
  have h := setValue_message c p (floatToInt (fmul f c.steps)) (by rw [hoff]; norm_num) hpar hs
  have h5a : (c.setValue p (floatToInt (fmul f c.steps))).1.dxValue = 5 := h5
  rw [h5a, hoff] at h
  exact h

/-- C6, amended, at a concrete input: `setValueHost(0.625)` on FEEDBACK. -/
theorem feedback_message_witness :
    (feedbackWired.setValueHost sampleProcessor (5 / 8)).2.midiOut
      = sampleProcessor.midiOut ++ [[0xF0, 0x43, 0x10, 1, 7, 5, 0xF7]] :=
  feedback_message feedbackWired sampleProcessor (5 / 8) rfl rfl rfl
    feedbackWired_setValueHost_five

/-! ### Program switch -/

/-- A call of `setCurrentProgram` that the guard drops changes the
diagnostics only. -/
theorem setCurrentProgram_dropped (unpack : ℤ → List ℤ) (now : ℤ) (p : DexedAudioProcessor)
    (index : ℤ) (h : p.lastStateSave + 2 > now) :
    p.setCurrentProgram unpack now index
      = { p with log := p.log ++ [Diag.settingProgram index] ++ [Diag.skippingSave] } := by
  unfold DexedAudioProcessor.setCurrentProgram
  dsimp only
  rw [if_pos h]

/-- The program recorded by a call of `setCurrentProgram` that the guard lets through. -/
theorem setCurrentProgram_accepted (unpack : ℤ → List ℤ) (now : ℤ) (p : DexedAudioProcessor)
    (index : ℤ) (h : ¬ (p.lastStateSave + 2 > now)) :
    (p.setCurrentProgram unpack now index).currentProgram = (if index > 31 then 31 else index) ∧
      (p.setCurrentProgram unpack now index).lastStateSave = p.lastStateSave ∧
      (p.setCurrentProgram unpack now index).asyncUpdates = p.asyncUpdates + 1 ∧
      (p.setCurrentProgram unpack now index).data = unpack (if index > 31 then 31 else index) := by
  unfold DexedAudioProcessor.setCurrentProgram
  dsimp only
  rw [if_neg h]
  exact ⟨rfl, rfl, rfl, rfl⟩

/-- C7, counterexample: the request -1, let through by the guard (last state
save at time 0, call at time 10), leaves `getCurrentProgram()` at -1, whereas
clamp(-1, 0, 31) is 0. -/
theorem setCurrentProgram_negative_not_clamped :
    ¬ (sampleProcessor.lastStateSave + 2 > 10) ∧
      (sampleProcessor.setCurrentProgram sampleUnpack 10 (-1)).getCurrentProgram = -1 ∧
      clamp (-1) 0 31 = 0 := by
  have h0 : ¬ (sampleProcessor.lastStateSave + 2 > 10) := by
    show ¬ ((0 : ℤ) + 2 > 10)
    norm_num
  refine ⟨h0, ?_, by decide⟩
  have h := (setCurrentProgram_accepted sampleUnpack 10 sampleProcessor (-1) h0).1
  unfold DexedAudioProcessor.getCurrentProgram
  rw [h]
  norm_num

/-- C7, amended: for every integer program index p, when `setCurrentProgram(p)`
is not dropped by the guard, `getCurrentProgram()` afterwards returns
min(p, 31): an index above 31 gives 31 and any other index, a negative one
included, is recorded as it is; for p ≥ 0 this is clamp(p, 0, 31). -/
theorem setCurrentProgram_clamps_above (unpack : ℤ → List ℤ) (now : ℤ)
    (p : DexedAudioProcessor) (index : ℤ) (h : ¬ (p.lastStateSave + 2 > now)) :
    (p.setCurrentProgram unpack now index).getCurrentProgram = min index 31 ∧
      (0 ≤ index →
        (p.setCurrentProgram unpack now index).getCurrentProgram = clamp index 0 31) := by
  have h1 := (setCurrentProgram_accepted unpack now p index h).1
  unfold DexedAudioProcessor.getCurrentProgram clamp
  rw [h1]
  constructor
  · split_ifs <;> omega
  · intro h0
    split_ifs <;> omega

/-- C7, amended, at the spec's scenario: `setCurrentProgram(40)` gives 31. -/
theorem setCurrentProgram_clamps_above_witness :
    (sampleProcessor.setCurrentProgram sampleUnpack 10 40).getCurrentProgram = 31 := by
  have h := (setCurrentProgram_clamps_above sampleUnpack 10 sampleProcessor 40
    (by show ¬ ((0 : ℤ) + 2 > 10); norm_num)).1
  rw [h]
  norm_num

/-- C8, counterexample: with the last state save at time 0, a call for
program 3 at time 10 is accepted, and a second call for program 7 at time 11
is accepted as well: `getCurrentProgram()` then returns 7, not 3. -/
theorem second_switch_not_dropped :
    (sampleProcessor.setCurrentProgram sampleUnpack 10 3).getCurrentProgram = 3 ∧
      (sampleProcessor.setCurrentProgram sampleUnpack 10 3).asyncUpdates
        = sampleProcessor.asyncUpdates + 1 ∧
      ((sampleProcessor.setCurrentProgram sampleUnpack 10 3).setCurrentProgram
        sampleUnpack 11 7).getCurrentProgram = 7 := by
  have h0 : ¬ (sampleProcessor.lastStateSave + 2 > 10) := by
    show ¬ ((0 : ℤ) + 2 > 10)
    norm_num
  obtain ⟨a1, a2, a3, _⟩ := setCurrentProgram_accepted sampleUnpack 10 sampleProcessor 3 h0
  have h1 : ¬ ((sampleProcessor.setCurrentProgram sampleUnpack 10 3).lastStateSave + 2 > 11) := by
    rw [a2]
    show ¬ ((0 : ℤ) + 2 > 11)
    norm_num
  have b1 := (setCurrentProgram_accepted sampleUnpack 11 _ 7 h1).1
  unfold DexedAudioProcessor.getCurrentProgram
  rw [a1, b1]
  exact ⟨by norm_num, a3, by norm_num⟩

/-- C8, amended: the guard of `setCurrentProgram` compares the current time
with `lastStateSave`, which a program switch does not change: a call made
while `lastStateSave + 2 > now` is dropped and leaves `getCurrentProgram()` as
it was; and when a call is let through at time t, a second call at time t + 1
is let through as well, `getCurrentProgram()` then returning the index of the
second call, 31 at most. -/
theorem second_switch_accepted (unpack : ℤ → List ℤ) (t : ℤ) (p : DexedAudioProcessor)
    (i j : ℤ) (h : ¬ (p.lastStateSave + 2 > t)) :
    (p.setCurrentProgram unpack t i).lastStateSave = p.lastStateSave ∧
      ((p.setCurrentProgram unpack t i).setCurrentProgram unpack (t + 1) j).getCurrentProgram
        = min j 31 ∧
      (∀ (q : DexedAudioProcessor) (now k : ℤ), q.lastStateSave + 2 > now →
        (q.setCurrentProgram unpack now k).getCurrentProgram = q.getCurrentProgram) := by
  obtain ⟨_, a2, _, _⟩ := setCurrentProgram_accepted unpack t p i h
  have h1 : ¬ ((p.setCurrentProgram unpack t i).lastStateSave + 2 > t + 1) := by
    rw [a2]
    omega
  have b1 := (setCurrentProgram_accepted unpack (t + 1) _ j h1).1
  refine ⟨a2, ?_, ?_⟩
  · unfold DexedAudioProcessor.getCurrentProgram
    rw [b1]
    split_ifs <;> omega
  · intro q now k hq
    rw [setCurrentProgram_dropped unpack now q k hq]
    rfl

/-- C8, amended, at a concrete input: calls for programs 3 and 7 at times 10
and 11, the last state save being at time 0. -/
theorem second_switch_accepted_witness :
    ((sampleProcessor.setCurrentProgram sampleUnpack 10 3).setCurrentProgram
      sampleUnpack (10 + 1) 7).getCurrentProgram = 7 := by
  have h := (second_switch_accepted sampleUnpack 10 sampleProcessor 3 7
    (by show ¬ ((0 : ℤ) + 2 > 10); norm_num)).2.1
  rw [h]
  norm_num

/-- C9: whenever the guard fires (`lastStateSave + 2 >` current time),
`setCurrentProgram(p)` leaves `currentProgram`, every voice-buffer byte, every
voice's live and keydown flags and the LFO state unchanged and schedules no
asynchronous update; only diagnostics are recorded. -/
theorem setCurrentProgram_dropped_frame (unpack : ℤ → List ℤ) (now : ℤ)
    (p : DexedAudioProcessor) (index : ℤ) (h : p.lastStateSave + 2 > now) :
    (p.setCurrentProgram unpack now index).currentProgram = p.currentProgram ∧
      (p.setCurrentProgram unpack now index).data = p.data ∧
      (p.setCurrentProgram unpack now index).voices = p.voices ∧
      (p.setCurrentProgram unpack now index).lfo = p.lfo ∧
      (p.setCurrentProgram unpack now index).asyncUpdates = p.asyncUpdates ∧
      p.setCurrentProgram unpack now index
        = { p with log := p.log ++ [Diag.settingProgram index] ++ [Diag.skippingSave] } := by
  rw [setCurrentProgram_dropped unpack now p index h]
  exact ⟨rfl, rfl, rfl, rfl, rfl, rfl⟩

/-- C9 at a concrete input: last state save at time 9, a request for program
12 at time 10; program, buffer, voices, LFO and pending updates stay. -/
theorem setCurrentProgram_dropped_frame_witness :
    (sampleSaved.setCurrentProgram sampleUnpack 10 12).currentProgram = 3 ∧
      (sampleSaved.setCurrentProgram sampleUnpack 10 12).data = sampleSaved.data ∧
      (sampleSaved.setCurrentProgram sampleUnpack 10 12).voices = sampleSaved.voices ∧
      (sampleSaved.setCurrentProgram sampleUnpack 10 12).asyncUpdates = 0 := by
  have h := setCurrentProgram_dropped_frame sampleUnpack 10 sampleSaved 12
    (by show (9 : ℤ) + 2 > 10; norm_num)
  exact ⟨h.1, h.2.1, h.2.2.1, h.2.2.2.2.1⟩

/-! ### Registry indices -/

theorem withCtrl_idx (c : Control) (b : Ctrl) : (c.withCtrl b).idx = b.idx := by
  cases c <;> rfl

theorem wire_idx (i : ℕ) (c : Control) : (c.wire i).idx = (i : ℤ) := by
  unfold Control.wire
  rw [withCtrl_idx]

theorem wireFrom_length (k : ℕ) (l : List Control) : (wireFrom k l).length = l.length := by
  induction l generalizing k with
  | nil => rfl
  | cons c cs ih => simp [wireFrom, ih]

/-- The wiring loop gives each entry the index of its position. -/
theorem wireFrom_indexed (k : ℕ) (l : List Control) : IndexedFrom k (wireFrom k l) := by
  induction l generalizing k with
  | nil =>
    intro i c h
    simp [wireFrom] at h
  | cons a as ih =>
    intro i c h
    cases i with
    | zero =>
      simp only [wireFrom, List.getElem?_cons_zero, Option.some.injEq] at h
      rw [← h, wire_idx]
      simp
    | succ j =>
      simp only [wireFrom, List.getElem?_cons_succ] at h
      have := ih (k + 1) j c h
      rw [this]
      congr 1
      omega

theorem unbind_idx (c : Control) : c.unbind.idx = c.idx := by
  have h : ∀ b : Ctrl, b.unbind.idx = b.idx := by
    intro b
    unfold Ctrl.unbind
    dsimp only
    split_ifs <;> rfl
  unfold Control.unbind
  rw [withCtrl_idx, h]
  rfl

theorem getValue_idx (c : CtrlDX) (p : DexedAudioProcessor) : (c.getValue p).1.idx = c.idx := by
  unfold CtrlDX.getValue
  dsimp only
  split_ifs <;> rfl

theorem refreshSlider_idx (c : CtrlDX) (p : DexedAudioProcessor) :
    (c.refreshSlider p).idx = c.idx := by
  unfold CtrlDX.refreshSlider
  split
  · exact getValue_idx c p
  · rfl

theorem refreshButton_idx (c : CtrlDX) (p : DexedAudioProcessor) :
    (c.refreshButton p).idx = c.idx := by
  unfold CtrlDX.refreshButton
  split
  · split_ifs <;> exact getValue_idx c p
  · rfl

theorem refreshComboBox_idx (c : CtrlDX) (p : DexedAudioProcessor) :
    (c.refreshComboBox p).idx = c.idx := by
  unfold CtrlDX.refreshComboBox
  split
  · exact getValue_idx c p
  · rfl

theorem updateComponent_idx (p : DexedAudioProcessor) (c : Control) :
    (c.updateComponent p).idx = c.idx := by
  cases c with
  | float c =>
    show (c.updateComponent p).idx = c.idx
    unfold CtrlFloat.updateComponent
    split <;> rfl
  | dx c =>
    show (c.updateComponent p).idx = c.idx
    unfold CtrlDX.updateComponent
    rw [refreshComboBox_idx, refreshButton_idx, refreshSlider_idx]

theorem bindSlider_idx (c : Control) (p : DexedAudioProcessor) (s : Slider) :
    (c.bindSlider p s).idx = c.idx := by
  unfold Control.bindSlider
  dsimp only
  rw [withCtrl_idx]
  show ((c.withCtrl { c.toCtrl with slider := some s }).updateComponent p).idx = c.idx
  rw [updateComponent_idx, withCtrl_idx]
  rfl

theorem bindButton_idx (c : Control) (p : DexedAudioProcessor) (b : Button) :
    (c.bindButton p b).idx = c.idx := by
  unfold Control.bindButton
  dsimp only
  rw [withCtrl_idx]
  show ((c.withCtrl { c.toCtrl with button := some b }).updateComponent p).idx = c.idx
  rw [updateComponent_idx, withCtrl_idx]
  rfl

theorem bindComboBox_idx (c : Control) (p : DexedAudioProcessor) (cb : ComboBox) :
    (c.bindComboBox p cb).idx = c.idx := by
  unfold Control.bindComboBox
  dsimp only
  rw [withCtrl_idx]
  show ((c.withCtrl { c.toCtrl with comboBox := some cb }).updateComponent p).idx = c.idx
  rw [updateComponent_idx, withCtrl_idx]
  rfl

theorem setDxValue_ctrl (p : DexedAudioProcessor) (offset v : ℤ) :
    (p.setDxValue offset v).ctrl = p.ctrl := by
  unfold DexedAudioProcessor.setDxValue
  dsimp only
  split_ifs <;> rfl

theorem setValue_idx_ctrl (c : CtrlDX) (p : DexedAudioProcessor) (v : ℤ) :
    (c.setValue p v).1.idx = c.idx ∧ (c.setValue p v).2.ctrl = p.ctrl := by
  unfold CtrlDX.setValue
  dsimp only
  split_ifs <;> first | exact ⟨rfl, rfl⟩ | exact ⟨rfl, setDxValue_ctrl _ _ _⟩

theorem setValueHost_idx_ctrl (p : DexedAudioProcessor) (f : ℚ) (c : Control) :
    (c.setValueHost p f).1.idx = c.idx ∧ (c.setValueHost p f).2.ctrl = p.ctrl := by
  cases c with
  | float c =>
    refine ⟨rfl, ?_⟩
    show (p.writeCell f c.vPointer).ctrl = p.ctrl
    cases c.vPointer <;> rfl
  | dx c => exact setValue_idx_ctrl c p _

/-- Replacing an entry by one carrying the same index keeps the indexing. -/
theorem indexed_set (k : ℕ) (l : List Control) (i : ℕ) (c d : Control) (h : IndexedFrom k l)
    (hc : l[i]? = some c) (hd : d.idx = c.idx) : IndexedFrom k (l.set i d) := by
  intro j e he
  rw [List.getElem?_set] at he
  split_ifs at he with h1 h2
  · subst h1
    simp only [Option.some.injEq] at he
    rw [← he, hd]
    exact h i c hc
  · exact h j e he

theorem indexed_map_unbind (k : ℕ) (l : List Control) (h : IndexedFrom k l) :
    IndexedFrom k (l.map Control.unbind) := by
  intro j e he
  rw [List.getElem?_map] at he
  cases hj : l[j]? with
  | none => simp [hj] at he
  | some c =>
    simp only [hj, Option.map_some', Option.some.injEq] at he
    rw [← he, unbind_idx]
    exact h j c hj

theorem setCurrentProgram_ctrl (unpack : ℤ → List ℤ) (now : ℤ) (p : DexedAudioProcessor)
    (index : ℤ) : (p.setCurrentProgram unpack now index).ctrl = p.ctrl := by
  unfold DexedAudioProcessor.setCurrentProgram
  dsimp only
  split_ifs <;> rfl

/-- No operation changes the length of the registry or the index of an entry. -/
theorem step_indexed (unpack : ℤ → List ℤ) (p : DexedAudioProcessor) (op : Op)
    (h : IndexedFrom 0 p.ctrl) :
    IndexedFrom 0 (p.step unpack op).ctrl ∧ (p.step unpack op).ctrl.length = p.ctrl.length := by
  cases op with
  | setParameter index newValue =>
    show IndexedFrom 0 (p.setParameter index newValue).ctrl ∧
      (p.setParameter index newValue).ctrl.length = p.ctrl.length
    unfold DexedAudioProcessor.setParameter
    cases hc : p.ctrlAt index with
    | none => exact ⟨h, rfl⟩
    | some c =>
      dsimp only
      obtain ⟨e1, e2⟩ := setValueHost_idx_ctrl p newValue c
      have hc2 : p.ctrl[index.toNat]? = some c := by
        unfold DexedAudioProcessor.ctrlAt at hc
        split_ifs at hc
        exact hc
      rw [e2]
      exact ⟨indexed_set 0 p.ctrl _ c _ h hc2 e1, List.length_set _ _ _⟩
  | setValue i v =>
    cases hc : p.ctrl[i]? with
    | none =>
      simp only [DexedAudioProcessor.step, hc]
      exact ⟨h, trivial⟩
    | some c =>
      cases c with
      | float c =>
        simp only [DexedAudioProcessor.step, hc]
        exact ⟨h, trivial⟩
      | dx c =>
        simp only [DexedAudioProcessor.step, hc]
        obtain ⟨e1, e2⟩ := setValue_idx_ctrl c p v
        rw [e2]
        exact ⟨indexed_set 0 p.ctrl i (Control.dx c) _ h hc e1, List.length_set _ _ _⟩
  | bindSlider i s =>
    cases hc : p.ctrl[i]? with
    | none =>
      simp only [DexedAudioProcessor.step, hc]
      exact ⟨h, trivial⟩
    | some c =>
      simp only [DexedAudioProcessor.step, hc]
      exact ⟨indexed_set 0 p.ctrl i c _ h hc (bindSlider_idx c p s), List.length_set _ _ _⟩
  | bindButton i b =>
    cases hc : p.ctrl[i]? with
    | none =>
      simp only [DexedAudioProcessor.step, hc]
      exact ⟨h, trivial⟩
    | some c =>
      simp only [DexedAudioProcessor.step, hc]
      exact ⟨indexed_set 0 p.ctrl i c _ h hc (bindButton_idx c p b), List.length_set _ _ _⟩
  | bindComboBox i cb =>
    cases hc : p.ctrl[i]? with
    | none =>
      simp only [DexedAudioProcessor.step, hc]
      exact ⟨h, trivial⟩
    | some c =>
      simp only [DexedAudioProcessor.step, hc]
      exact ⟨indexed_set 0 p.ctrl i c _ h hc (bindComboBox_idx c p cb),
        List.length_set _ _ _⟩
  | unbind i =>
    cases hc : p.ctrl[i]? with
    | none =>
      simp only [DexedAudioProcessor.step, hc]
      exact ⟨h, trivial⟩
    | some c =>
      simp only [DexedAudioProcessor.step, hc]
      exact ⟨indexed_set 0 p.ctrl i c _ h hc (unbind_idx c), List.length_set _ _ _⟩
  | unbindUI =>
    exact ⟨indexed_map_unbind 0 p.ctrl h, List.length_map _ _⟩
  | setCurrentProgram index now =>
    show IndexedFrom 0 (p.setCurrentProgram unpack now index).ctrl ∧
      (p.setCurrentProgram unpack now index).ctrl.length = p.ctrl.length
    rw [setCurrentProgram_ctrl]
    exact ⟨h, rfl⟩

theorem run_indexed (unpack : ℤ → List ℤ) (ops : List Op) (p : DexedAudioProcessor)
    (h : IndexedFrom 0 p.ctrl) :
    IndexedFrom 0 (p.run unpack ops).ctrl ∧ (p.run unpack ops).ctrl.length = p.ctrl.length := by
  induction ops generalizing p with
  | nil => exact ⟨h, rfl⟩
  | cons op ops ih =>
    obtain ⟨h1, h2⟩ := step_indexed unpack p op h
    obtain ⟨h3, h4⟩ := ih (p.step unpack op) h1
    exact ⟨h3, h4.trans h2⟩

/-- In an indexed registry, looking up the index of a position finds the
entry at that position. -/
theorem find_indexed (k : ℕ) (l : List Control) (h : IndexedFrom k l) (i : ℕ) (c : Control)
    (hc : l[i]? = some c) :
    l.find? (fun (d : Control) => decide (d.idx = ((k + i : ℕ) : ℤ))) = some c := by
  induction l generalizing k i with
  | nil => simp at hc
  | cons a as ih =>
    have ha : a.idx = ((k + 0 : ℕ) : ℤ) := h 0 a (by simp)
    cases i with
    | zero =>
      simp only [List.getElem?_cons_zero, Option.some.injEq] at hc
      subst hc
      simp [List.find?, ha]
    | succ j =>
      simp only [List.getElem?_cons_succ] at hc
      have hne : ¬ (a.idx = ((k + (j + 1) : ℕ) : ℤ)) := by
        rw [ha]
        push_cast
        omega
      have htail : IndexedFrom (k + 1) as := by
        intro m e he
        have := h (m + 1) e (by simpa using he)
        rw [this]
        congr 1
        omega
      have := ih (k + 1) htail j hc
      rw [show k + (j + 1) = k + 1 + j by omega]
      simp only [List.find?, show decide (a.idx = ((k + 1 + j : ℕ) : ℤ)) = false from by
        rw [show k + 1 + j = k + (j + 1) by omega]; exact decide_eq_false hne]
      exact this

theorem initCtrl_indexed (loadBuiltin : DexedAudioProcessor → DexedAudioProcessor)
    (p : DexedAudioProcessor) : IndexedFrom 0 (p.initCtrl loadBuiltin).ctrl :=
  wireFrom_indexed 0 _

/-- C10: after `initCtrl` and after any further sequence of the operations of
this file (`setParameter`, `setValue`, the three `bind`, `unbind`, `unbindUI`,
`setCurrentProgram`), for every i in [0, getNumParameters()-1] the descriptor
at position i has idx == i and looking a descriptor up by its own index
returns that same descriptor; no two descriptors share an idx; and the number
of parameters is the one `initCtrl` left. -/
theorem registry_indices_dense (loadBuiltin : DexedAudioProcessor → DexedAudioProcessor)
    (unpack : ℤ → List ℤ) (p : DexedAudioProcessor) (ops : List Op) :
    (∀ i : ℕ, (i : ℤ) < ((p.initCtrl loadBuiltin).run unpack ops).getNumParameters →
      ∃ c : Control, ((p.initCtrl loadBuiltin).run unpack ops).ctrl[i]? = some c ∧
        c.idx = (i : ℤ) ∧
        ((p.initCtrl loadBuiltin).run unpack ops).lookup c.idx = some c) ∧
      (∀ (i j : ℕ) (c d : Control),
        ((p.initCtrl loadBuiltin).run unpack ops).ctrl[i]? = some c →
        ((p.initCtrl loadBuiltin).run unpack ops).ctrl[j]? = some d →
        c.idx = d.idx → i = j) ∧
      ((p.initCtrl loadBuiltin).run unpack ops).getNumParameters
        = (p.initCtrl loadBuiltin).getNumParameters := by
  obtain ⟨hI, hL⟩ := run_indexed unpack ops _ (initCtrl_indexed loadBuiltin p)
  refine ⟨?_, ?_, ?_⟩
  · intro i hi
    have hlt : i < ((p.initCtrl loadBuiltin).run unpack ops).ctrl.length := by
      unfold DexedAudioProcessor.getNumParameters at hi
      exact_mod_cast hi
    refine ⟨_, List.getElem?_eq_getElem hlt, ?_, ?_⟩
    · have := hI i _ (List.getElem?_eq_getElem hlt)
      simpa using this
    · have h1 := hI i _ (List.getElem?_eq_getElem hlt)
      have h2 := find_indexed 0 _ hI i _ (List.getElem?_eq_getElem hlt)
      unfold DexedAudioProcessor.lookup
      rw [h1]
      exact h2
  · intro i j c d hc hd hcd
    have h1 := hI i c hc
    have h2 := hI j d hd
    rw [h1, h2] at hcd
    have : (0 + i : ℕ) = 0 + j := by exact_mod_cast hcd
    omega
  · unfold DexedAudioProcessor.getNumParameters
    rw [hL]

set_option maxRecDepth 8000 in
/-- C10 at a concrete input: after `initCtrl` on the example processor,
a host write to parameter 4, `unbindUI` and a program switch, the registry
still has 148 parameters and the descriptor at position 4 has idx 4. -/
theorem registry_indices_dense_witness :
    ((sampleProcessor.initCtrl id).run sampleUnpack
        [Op.setParameter 4 (5 / 8), Op.unbindUI, Op.setCurrentProgram 3 10]).getNumParameters
        = 148 ∧
      ∃ c : Control, ((sampleProcessor.initCtrl id).run sampleUnpack
        [Op.setParameter 4 (5 / 8), Op.unbindUI, Op.setCurrentProgram 3 10]).ctrl[4]?
          = some c ∧ c.idx = 4 := by
  have h := registry_indices_dense id sampleUnpack sampleProcessor
    [Op.setParameter 4 (5 / 8), Op.unbindUI, Op.setCurrentProgram 3 10]
  have hn : (sampleProcessor.initCtrl id).getNumParameters = 148 := by
    show (((wireFrom 0 ([] ++ registryTable)).length : ℕ) : ℤ) = 148
    rw [wireFrom_length]
    rfl
  obtain ⟨h1, _, h3⟩ := h
  rw [hn] at h3
  refine ⟨h3, ?_⟩
  obtain ⟨c, hc1, hc2, _⟩ := h1 4 (by rw [h3]; norm_num)
  exact ⟨c, hc1, by simpa using hc2⟩

/-! ### The layout table -/

set_option maxRecDepth 8000 in
/-- The table of `initCtrl` is the three `CtrlFloat` followed by the
constructor calls of `dxSpecs`. -/
theorem registryTable_eq : registryTable = floatControls ++ dxSpecs.map DxSpec.build := rfl

theorem wireFrom_getElem? (k : ℕ) (l : List Control) (i : ℕ) :
    (wireFrom k l)[i]? = (l[i]?).map (Control.wire (k + i)) := by
  induction l generalizing k i with
  | nil => simp [wireFrom]
  | cons a as ih =>
    cases i with
    | zero => simp [wireFrom]
    | succ j =>
      simp only [wireFrom, List.getElem?_cons_succ]
      rw [ih (k + 1) j, show k + 1 + j = k + (j + 1) by omega]

theorem wire_labelOffset (j : ℕ) (c : Control) : (c.wire j).labelOffset = c.labelOffset := by
  cases c <;> rfl

theorem wireFrom_map_labelOffset (k : ℕ) (l : List Control) :
    (wireFrom k l).map Control.labelOffset = l.map Control.labelOffset := by
  induction l generalizing k with
  | nil => rfl
  | cons a as ih => simp [wireFrom, wire_labelOffset, ih]

/-- The registry `initCtrl` builds when `ctrl` starts empty. -/
theorem initCtrl_ctrl (loadBuiltin : DexedAudioProcessor → DexedAudioProcessor)
    (p : DexedAudioProcessor) (h : (loadBuiltin p).ctrl = []) :
    (p.initCtrl loadBuiltin).ctrl = wireFrom 0 registryTable := by
  show wireFrom 0 ((loadBuiltin p).ctrl ++ registryTable) = wireFrom 0 registryTable
  rw [h, List.nil_append]

theorem initCtrl_layout (loadBuiltin : DexedAudioProcessor → DexedAudioProcessor)
    (p : DexedAudioProcessor) (h : (loadBuiltin p).ctrl = []) :
    (p.initCtrl loadBuiltin).ctrl.map Control.labelOffset = layout := by
  rw [initCtrl_ctrl loadBuiltin p h, wireFrom_map_labelOffset, registryTable_eq]
  simp only [layout, List.map_append, List.map_map]
  rfl

/-- An entry of the layout with an offset comes from a `CtrlDX` of the registry
at the same position. -/
theorem entry_of_layout (l : List Control) (n : ℕ) (lbl : String) (off : ℤ)
    (h : (l.map Control.labelOffset)[n]? = some (lbl, some off)) :
    ∃ c : CtrlDX, l[n]? = some (Control.dx c) ∧ c.label = lbl ∧ c.dxOffset = off := by
  rw [List.getElem?_map] at h
  cases hc : l[n]? with
  | none => simp [hc] at h
  | some c =>
    simp only [hc, Option.map_some', Option.some.injEq] at h
    cases c with
    | float c =>
      simp [Control.labelOffset, Control.dxOffset?] at h
    | dx c =>
      simp only [Control.labelOffset, Control.dxOffset?, Control.toCtrl, Prod.mk.injEq,
        Option.some.injEq] at h
      exact ⟨c, rfl, h.1, h.2⟩

/-- The layout entry of a `CtrlDX` of the registry. -/
theorem layout_of_entry (l : List Control) (n : ℕ) (c : CtrlDX)
    (h : l[n]? = some (Control.dx c)) :
    (l.map Control.labelOffset)[n]? = some (c.label, some c.dxOffset) := by
  rw [List.getElem?_map, h]
  rfl

set_option maxRecDepth 100000 in
theorem layout_operator_blocks :
    (∀ i : ℕ, i < 6 → ∀ pos : ℕ, pos < 21 →
        (layout[22 + 21 * i + pos]?).any (entryInBlock i) = true) ∧
      (∀ i : ℕ, i < 6 → ∀ pos : ℕ, pos < 21 → ∃ j : ℕ, j < 21 ∧
        (layout[22 + 21 * i + j]?).map (fun (e : String × Option ℤ) => e.2)
          = some (some ((5 - (i : ℤ)) * 21 + (pos : ℤ)))) ∧
      (∀ i : ℕ, i < 6 → ∀ n : ℕ, n < 148 →
        (layout[n]?).any (fun (e : String × Option ℤ) => labelledOp (i + 1) e.1) = true →
          22 + 21 * i ≤ n ∧ n < 22 + 21 * (i + 1)) := by
  decide

theorem initCtrl_length (loadBuiltin : DexedAudioProcessor → DexedAudioProcessor)
    (p : DexedAudioProcessor) (h : (loadBuiltin p).ctrl = []) :
    (p.initCtrl loadBuiltin).ctrl.length = 148 := by
  rw [initCtrl_ctrl loadBuiltin p h, wireFrom_length]
  rfl

/-- C17: operator layout inversion. For every logical operator `k` in 1..6,
the 21 descriptors `initCtrl` (on an empty registry) adds at the registry
positions `22 + 21 * (k - 1) + j` are `CtrlDX` labelled `OP<k> ...`, carry that
position as `idx`, and have their offsets in the block `(6 - k) * 21 + p`,
`p` in 0..20; every offset `(6 - k) * 21 + p` of the block belongs to one of
them; and a descriptor labelled `OP<k> ...` stands nowhere else, so the
operators are added in ascending order OP1..OP6 while operator 6 holds offsets
0..20 and operator 1 holds 105..125. -/
theorem operator_layout_inverted
    (loadBuiltin : DexedAudioProcessor → DexedAudioProcessor) (p : DexedAudioProcessor)
    (h : (loadBuiltin p).ctrl = []) (k : ℕ) (hk1 : 1 ≤ k) (hk6 : k ≤ 6) :
    (∀ j : ℕ, j < 21 → ∃ c : CtrlDX,
        (p.initCtrl loadBuiltin).ctrl[22 + 21 * (k - 1) + j]? = some (Control.dx c) ∧
          c.idx = ((22 + 21 * (k - 1) + j : ℕ) : ℤ) ∧ labelledOp k c.label = true ∧
          (6 - (k : ℤ)) * 21 ≤ c.dxOffset ∧ c.dxOffset ≤ (6 - (k : ℤ)) * 21 + 20) ∧
      (∀ pos : ℕ, pos < 21 → ∃ j : ℕ, j < 21 ∧ ∃ c : CtrlDX,
        (p.initCtrl loadBuiltin).ctrl[22 + 21 * (k - 1) + j]? = some (Control.dx c) ∧
          c.dxOffset = (6 - (k : ℤ)) * 21 + (pos : ℤ)) ∧
      (∀ (n : ℕ) (c : Control), (p.initCtrl loadBuiltin).ctrl[n]? = some c →
        labelledOp k c.toCtrl.label = true → 22 + 21 * (k - 1) ≤ n ∧ n < 22 + 21 * k) := by
  obtain ⟨i, rfl⟩ : ∃ i : ℕ, k = i + 1 := ⟨k - 1, by omega⟩
  have hi : i < 6 := by omega
  have hoff : (6 - ((i + 1 : ℕ) : ℤ)) = 5 - (i : ℤ) := by push_cast; ring
  rw [hoff, Nat.add_sub_cancel]
  have hl := initCtrl_layout loadBuiltin p h
  obtain ⟨f1, f2, f3⟩ := layout_operator_blocks
  refine ⟨?_, ?_, ?_⟩
  · intro j hj
    have ha := f1 i hi j hj
    cases he : layout[22 + 21 * i + j]? with
    | none => simp [he] at ha
    | some e =>
      obtain ⟨lbl, o⟩ := e
      simp only [he, Option.any_some, entryInBlock, Bool.and_eq_true] at ha
      cases o with
      | none => simp at ha
      | some off =>
        simp only [decide_eq_true_eq] at ha
        obtain ⟨c, hc, hlab, hoffc⟩ := entry_of_layout _ _ lbl off (by rw [hl]; exact he)
        refine ⟨c, hc, ?_, by rw [hlab]; exact ha.1, by rw [hoffc]; exact ha.2.1,
          by rw [hoffc]; exact ha.2.2⟩
        have := initCtrl_indexed loadBuiltin p _ _ hc
        simpa using this
  · intro pos hpos
    obtain ⟨j, hj, hjp⟩ := f2 i hi pos hpos
    cases he : layout[22 + 21 * i + j]? with
    | none => simp [he] at hjp
    | some e =>
      obtain ⟨lbl, o⟩ := e
      simp only [he, Option.map_some', Option.some.injEq] at hjp
      subst hjp
      obtain ⟨c, hc, _, hoffc⟩ := entry_of_layout _ _ lbl _ (by rw [hl]; exact he)
      exact ⟨j, hj, c, hc, hoffc⟩
  · intro n c hc hlab
    have hn : n < 148 := by
      have := (List.getElem?_eq_some.mp hc).1
      rwa [initCtrl_length loadBuiltin p h] at this
    have hlay : layout[n]? = some c.labelOffset := by
      rw [← hl, List.getElem?_map, hc]
      rfl
    have := f3 i hi n hn (by rw [hlay]; exact hlab)
    omega

/-- C17 at a concrete input: in the registry of the example processor every
offset 105..125 belongs to a descriptor of the first operator block (positions
22..42), and every offset 0..20 to one of the last block (positions 127..147). -/
theorem operator_layout_inverted_witness :
    (id sampleProcessor).ctrl = [] ∧
      (∀ pos : ℕ, pos < 21 → ∃ j : ℕ, j < 21 ∧ ∃ c : CtrlDX,
        (sampleProcessor.initCtrl id).ctrl[22 + 21 * (1 - 1) + j]? = some (Control.dx c) ∧
          c.dxOffset = (6 - ((1 : ℕ) : ℤ)) * 21 + (pos : ℤ)) ∧
      (∀ pos : ℕ, pos < 21 → ∃ j : ℕ, j < 21 ∧ ∃ c : CtrlDX,
        (sampleProcessor.initCtrl id).ctrl[22 + 21 * (6 - 1) + j]? = some (Control.dx c) ∧
          c.dxOffset = (6 - ((6 : ℕ) : ℤ)) * 21 + (pos : ℤ)) :=
  ⟨rfl, (operator_layout_inverted id sampleProcessor rfl 1 (by decide) (by decide)).2.1,
    (operator_layout_inverted id sampleProcessor rfl 6 (by decide) (by decide)).2.1⟩

theorem kind_float (l : List Control) (n : ℕ)
    (h : ((l.map Control.labelOffset)[n]?).map (fun (e : String × Option ℤ) => e.2) = some none) :
    ∃ c : CtrlFloat, l[n]? = some (Control.float c) := by
  rw [List.getElem?_map] at h
  cases hc : l[n]? with
  | none => simp [hc] at h
  | some c =>
    cases c with
    | float c => exact ⟨c, rfl⟩
    | dx c => simp [hc, Control.labelOffset, Control.dxOffset?] at h

theorem kind_dx (l : List Control) (n : ℕ)
    (h : (((l.map Control.labelOffset)[n]?).bind (fun (e : String × Option ℤ) => e.2)).isSome
      = true) :
    ∃ c : CtrlDX, l[n]? = some (Control.dx c) := by
  rw [List.getElem?_map] at h
  cases hc : l[n]? with
  | none => simp [hc] at h
  | some c =>
    cases c with
    | float c => simp [hc, Control.labelOffset, Control.dxOffset?] at h
    | dx c => exact ⟨c, rfl⟩

theorem filterMap_dxOffset (l : List Control) :
    l.filterMap Control.dxOffset?
      = (l.map Control.labelOffset).filterMap (fun (e : String × Option ℤ) => e.2) := by
  rw [List.filterMap_map]
  rfl

set_option maxRecDepth 100000 in
theorem layout_kinds :
    layout.length = 148 ∧
      (∀ i < 3, (layout[i]?).map (fun (e : String × Option ℤ) => e.2) = some none) ∧
      (∀ i < 148, 3 ≤ i →
        ((layout[i]?).bind (fun (e : String × Option ℤ) => e.2)).isSome = true) := by
  decide

set_option maxRecDepth 100000 in
theorem layout_offsets :
    (layout.filterMap (fun (e : String × Option ℤ) => e.2)).length = 145 ∧
      (layout.filterMap (fun (e : String × Option ℤ) => e.2)).Nodup ∧
      (∀ o ∈ layout.filterMap (fun (e : String × Option ℤ) => e.2), 0 ≤ o ∧ o ≤ 144) ∧
      (∀ n < 145, ((n : ℕ) : ℤ) ∈ layout.filterMap (fun (e : String × Option ℤ) => e.2)) := by
  decide

/-- C18: the layout table built by `initCtrl` (on an empty registry) is a
bijection onto the parameter area of the voice buffer: the registry holds 148
descriptors, the first 3 being `CtrlFloat` and the other 145 `CtrlDX`; the 145
offsets are pairwise distinct and their set is exactly {0, ..., 144}, so each
is an index into the 155-byte buffer. -/
theorem registry_offsets_bijection
    (loadBuiltin : DexedAudioProcessor → DexedAudioProcessor) (p : DexedAudioProcessor)
    (h : (loadBuiltin p).ctrl = []) :
    (p.initCtrl loadBuiltin).ctrl.length = 148 ∧
      (∀ i < 3, ∃ c : CtrlFloat, (p.initCtrl loadBuiltin).ctrl[i]? = some (Control.float c)) ∧
      (∀ i < 148, 3 ≤ i →
        ∃ c : CtrlDX, (p.initCtrl loadBuiltin).ctrl[i]? = some (Control.dx c)) ∧
      ((p.initCtrl loadBuiltin).ctrl.filterMap Control.dxOffset?).length = 145 ∧
      ((p.initCtrl loadBuiltin).ctrl.filterMap Control.dxOffset?).Nodup ∧
      (∀ o : ℤ, o ∈ (p.initCtrl loadBuiltin).ctrl.filterMap Control.dxOffset?
        ↔ 0 ≤ o ∧ o ≤ 144) ∧
      (∀ o ∈ (p.initCtrl loadBuiltin).ctrl.filterMap Control.dxOffset?,
        0 ≤ o ∧ o.toNat < 155) := by
  have hl := initCtrl_layout loadBuiltin p h
  obtain ⟨k1, k2, k3⟩ := layout_kinds
  obtain ⟨o1, o2, o3, o4⟩ := layout_offsets
  have hmem : ∀ o : ℤ, o ∈ (p.initCtrl loadBuiltin).ctrl.filterMap Control.dxOffset?
      ↔ 0 ≤ o ∧ o ≤ 144 := by
    intro o
    rw [filterMap_dxOffset, hl]
    constructor
    · exact o3 o
    · rintro ⟨a, b⟩
      have := o4 o.toNat (by omega)
      rwa [Int.toNat_of_nonneg a] at this
  refine ⟨?_, ?_, ?_, ?_, ?_, hmem, ?_⟩
  · have := congrArg List.length hl
    rw [List.length_map] at this
    rw [this, k1]
  · intro i hi
    exact kind_float _ i (by rw [hl]; exact k2 i hi)
  · intro i hi h3
    exact kind_dx _ i (by rw [hl]; exact k3 i hi h3)
  · rw [filterMap_dxOffset, hl]
    exact o1
  · rw [filterMap_dxOffset, hl]
    exact o2
  · intro o ho
    obtain ⟨a, b⟩ := (hmem o).mp ho
    exact ⟨a, by omega⟩

/-- C18 at a concrete input: `initCtrl` on the example processor, with a
`loadBuiltin` that leaves the registry alone. -/
theorem registry_offsets_bijection_witness :
    (id sampleProcessor).ctrl = [] ∧ (sampleProcessor.initCtrl id).ctrl.length = 148 ∧
      ((sampleProcessor.initCtrl id).ctrl.filterMap Control.dxOffset?).Nodup ∧
      ((144 : ℤ) ∈ (sampleProcessor.initCtrl id).ctrl.filterMap Control.dxOffset?) :=
  ⟨rfl, (registry_offsets_bijection id sampleProcessor rfl).1,
    (registry_offsets_bijection id sampleProcessor rfl).2.2.2.2.1,
    ((registry_offsets_bijection id sampleProcessor rfl).2.2.2.2.2.1 144).mpr
      ⟨by norm_num, by norm_num⟩⟩

set_option maxRecDepth 100000 in
theorem dxSpecs_bounds :
    ∀ s ∈ dxSpecs, 2 ≤ s.steps ∧ s.steps ≤ 100 ∧ 0 ≤ s.offset ∧ s.offset ≤ 144 ∧
      0 ≤ Int.land s.offset 0x7F ∧ Int.land s.offset 0x7F ≤ 0x7F ∧
      (if s.offset > 127 then 1 else 0) * 128 + Int.land s.offset 0x7F = s.offset := by
  decide

theorem mem_wireFrom (k : ℕ) (l : List Control) (x : Control) (h : x ∈ wireFrom k l) :
    ∃ (j : ℕ) (y : Control), y ∈ l ∧ x = y.wire j := by
  induction l generalizing k with
  | nil => simp [wireFrom] at h
  | cons a as ih =>
    simp only [wireFrom, List.mem_cons] at h
    rcases h with h | h
    · exact ⟨k, a, List.mem_cons_self _ _, h⟩
    · obtain ⟨j, y, hy, hx⟩ := ih (k + 1) h
      exact ⟨j, y, List.mem_cons_of_mem _ hy, hx⟩

/-- A `CtrlDX` of the registry of `initCtrl` is a constructor call of the table, wired. -/
theorem initCtrl_dx_spec (loadBuiltin : DexedAudioProcessor → DexedAudioProcessor)
    (p : DexedAudioProcessor) (h : (loadBuiltin p).ctrl = []) (c : CtrlDX)
    (hc : Control.dx c ∈ (p.initCtrl loadBuiltin).ctrl) :
    ∃ s ∈ dxSpecs, c.steps = intToFloat s.steps ∧ c.dxOffset = s.offset ∧
      c.displayValue = s.displayValue ∧ c.label = s.name ∧ c.parent = true := by
  rw [initCtrl_ctrl loadBuiltin p h, registryTable_eq] at hc
  obtain ⟨j, y, hy, hx⟩ := mem_wireFrom _ _ _ hc
  rw [List.mem_append] at hy
  rcases hy with hy | hy
  · simp only [floatControls, List.mem_cons, List.mem_singleton, List.not_mem_nil, or_false] at hy
    rcases hy with rfl | rfl | rfl <;> simp [Control.wire, Control.withCtrl] at hx
  · rw [List.mem_map] at hy
    obtain ⟨s, hs, rfl⟩ := hy
    refine ⟨s, hs, ?_⟩
    simp only [DxSpec.build, Control.wire, Control.withCtrl, Control.dx.injEq] at hx
    subst hx
    exact ⟨rfl, rfl, rfl, rfl, rfl⟩

/-- C19: every outbound message of a descriptor of the registry is a
7-bit-clean frame. For every `CtrlDX` created by `initCtrl` (step count
`N <= 100`, offset in 0..144), every processor with outbound messages enabled
and a 155-byte voice buffer, and every single-precision `f` with `0 <= f < 1`,
`setValueHost(f)` appends exactly one message `F0 43 10 b3 b4 b5 F7` where `b3`
is 0 or 1, `b4` and `b5` lie in 0..0x7F, `b5 < N`, `b3 * 128 + b4` is the
offset, `b5` is the stored native value, which the `(uint8)` cast leaves as it
is, and the byte stored in the voice buffer is that value too. -/
theorem outbound_message_seven_bit
    (loadBuiltin : DexedAudioProcessor → DexedAudioProcessor) (p0 : DexedAudioProcessor)
    (h : (loadBuiltin p0).ctrl = []) (c : CtrlDX)
    (hc : Control.dx c ∈ (p0.initCtrl loadBuiltin).ctrl)
    (p : DexedAudioProcessor) (hs : p.sendSysexChange = true) (hlen : p.data.length = 155)
    (f : ℚ) (hf : IsF32 f) (h0 : 0 ≤ f) (h1 : f < 1) :
    ∃ (N : ℕ) (b3 b4 b5 : ℤ), c.steps = N ∧ N ≤ 100 ∧ 0 ≤ c.dxOffset ∧ c.dxOffset ≤ 144 ∧
      (c.setValueHost p f).2.midiOut = p.midiOut ++ [[0xF0, 0x43, 0x10, b3, b4, b5, 0xF7]] ∧
      (b3 = 0 ∨ b3 = 1) ∧ 0 ≤ b4 ∧ b4 ≤ 0x7F ∧ 0 ≤ b5 ∧ b5 ≤ 0x7F ∧ b5 < N ∧
      b3 * 128 + b4 = c.dxOffset ∧
      b5 = (c.setValueHost p f).1.dxValue ∧
      toUint8 (c.setValueHost p f).1.dxValue = (c.setValueHost p f).1.dxValue ∧
      (c.setValueHost p f).2.data.getD c.dxOffset.toNat 0 = (c.setValueHost p f).1.dxValue := by
  obtain ⟨s, hsm, hsteps, hoff, _, _, hpar⟩ := initCtrl_dx_spec loadBuiltin p0 h c hc
  obtain ⟨s2, s100, o0, o144, l0, l127, hrec⟩ := dxSpecs_bounds s hsm
  obtain ⟨N, hN⟩ : ∃ N : ℕ, s.steps = (N : ℤ) := ⟨s.steps.toNat, by omega⟩
  have hN2 : 2 ≤ N := by omega
  have hN100 : N ≤ 100 := by omega
  have hN24 : N ≤ 2 ^ 24 := by omega
  have hcs : c.steps = (N : ℚ) := by
    rw [hsteps, hN, intToFloat_exact _ (by rw [abs_of_nonneg (by omega)]; exact_mod_cast hN24)]
    norm_cast
  have hlt : fmul f N < N := fmul_lt_steps N f hN2 hN24 hf h1
  have hge : 0 ≤ fmul f (N : ℚ) := roundF32_nonneg (mul_nonneg h0 (by positivity))
  have hw : floatToInt (fmul f N) = ⌊fmul f (N : ℚ)⌋ := floatToInt_of_nonneg hge
  have hw0 : 0 ≤ ⌊fmul f (N : ℚ)⌋ := Int.floor_nonneg.mpr hge
  have hw1 : ⌊fmul f (N : ℚ)⌋ < (N : ℤ) := by
    rw [Int.floor_lt]
    exact_mod_cast hlt
  have hdx : (c.setValueHost p f).1.dxValue = ⌊fmul f (N : ℚ)⌋ :=
    setValueHost_dxValue_of_lt c p N f _ hN24 hcs hw hw0 (by exact_mod_cast hw1)
  have hoff0 : 0 ≤ c.dxOffset := by rw [hoff]; exact o0
  have hu : toUint8 (c.setValueHost p f).1.dxValue = (c.setValueHost p f).1.dxValue :=
    toUint8_of_byte (by rw [hdx]; exact hw0) (by rw [hdx]; omega)
  have hm := setValue_message c p (floatToInt (fmul f c.steps)) hoff0 hpar hs
  have hb := (setValue_buffer_message c p (floatToInt (fmul f c.steps)) hoff0
    (by rw [hlen, hoff]; omega) hpar (by
      show 0 ≤ (c.setValueHost p f).1.dxValue
      rw [hdx]; exact hw0) (by
      show (c.setValueHost p f).1.dxValue < 256
      rw [hdx]; omega)).1
  refine ⟨N, if c.dxOffset > 127 then 1 else 0, Int.land c.dxOffset 0x7F,
    (c.setValueHost p f).1.dxValue, hcs, hN100, hoff0, by rw [hoff]; exact o144, ?_, ?_,
    by rw [hoff]; exact l0, by rw [hoff]; exact l127, by rw [hdx]; exact hw0,
    by rw [hdx]; omega, by rw [hdx]; exact hw1, by rw [hoff]; exact hrec, rfl, hu, hb⟩
  · have : (c.setValueHost p f) = c.setValue p (floatToInt (fmul f c.steps)) := rfl
    rw [this, hm]
    rw [this] at hu
    rw [hu]
  · split_ifs
    · exact Or.inr rfl
    · exact Or.inl rfl

/-- C19 at a concrete input: FEEDBACK of the registry of the example processor,
set from the host to 1/2. -/
theorem outbound_message_seven_bit_witness :
    Control.dx feedbackWired ∈ (sampleProcessor.initCtrl id).ctrl ∧
      ∃ (N : ℕ) (b3 b4 b5 : ℤ), feedbackWired.steps = N ∧ N ≤ 100 ∧
        0 ≤ feedbackWired.dxOffset ∧ feedbackWired.dxOffset ≤ 144 ∧
        (feedbackWired.setValueHost sampleProcessor (1 / 2)).2.midiOut
          = sampleProcessor.midiOut ++ [[0xF0, 0x43, 0x10, b3, b4, b5, 0xF7]] ∧
        (b3 = 0 ∨ b3 = 1) ∧ 0 ≤ b4 ∧ b4 ≤ 0x7F ∧ 0 ≤ b5 ∧ b5 ≤ 0x7F ∧ b5 < N ∧
        b3 * 128 + b4 = feedbackWired.dxOffset ∧
        b5 = (feedbackWired.setValueHost sampleProcessor (1 / 2)).1.dxValue ∧
        toUint8 (feedbackWired.setValueHost sampleProcessor (1 / 2)).1.dxValue
          = (feedbackWired.setValueHost sampleProcessor (1 / 2)).1.dxValue ∧
        (feedbackWired.setValueHost sampleProcessor (1 / 2)).2.data.getD
          feedbackWired.dxOffset.toNat 0
            = (feedbackWired.setValueHost sampleProcessor (1 / 2)).1.dxValue := by
  have hmem : Control.dx feedbackWired ∈ (sampleProcessor.initCtrl id).ctrl := by
    rw [initCtrl_ctrl id sampleProcessor rfl]
    exact (List.mem_iff_getElem?.mpr ⟨4, feedbackWired_in_registry⟩)
  exact ⟨hmem, outbound_message_seven_bit id sampleProcessor rfl feedbackWired hmem
    sampleProcessor rfl (by show (List.replicate 155 (0 : ℤ)).length = 155; simp) (1 / 2)
    isF32_half (by norm_num) (by norm_num)⟩

/-! ### Gating of the outbound emission -/

theorem setDxValue_refreshVoice (p : DexedAudioProcessor) (offset v : ℤ) :
    (p.setDxValue offset v).refreshVoice = true := by
  unfold DexedAudioProcessor.setDxValue
  dsimp only
  split_ifs <;> rfl

theorem setDxValue_midiOut_off (p : DexedAudioProcessor) (offset v : ℤ)
    (h : p.sendSysexChange = false) : (p.setDxValue offset v).midiOut = p.midiOut := by
  unfold DexedAudioProcessor.setDxValue
  dsimp only
  split_ifs <;> simp_all

theorem setDxValue_data_neg (p : DexedAudioProcessor) (offset v : ℤ) (h : offset < 0) :
    (p.setDxValue offset v).data = p.data := by
  have h2 : ¬ (0 ≤ offset) := by omega
  unfold DexedAudioProcessor.setDxValue
  dsimp only
  split_ifs <;> rfl

/-- A set operation on a descriptor that is not buffer-backed reaches the
processor only through the diagnostics. -/
theorem setValue_unbacked (c : CtrlDX) (q : DexedAudioProcessor) (w : ℤ) (h : c.dxOffset < 0) :
    (c.setValue q w).2.data = q.data ∧ (c.setValue q w).2.midiOut = q.midiOut ∧
      (c.setValue q w).2.refreshVoice = q.refreshVoice := by
  have h2 : ¬ (0 ≤ c.dxOffset) := by omega
  unfold CtrlDX.setValue
  dsimp only
  split_ifs <;> exact ⟨rfl, rfl, rfl⟩

/-- C15: the outbound emission is gated. For every offset and value, with
`sendSysexChange` false `setDxValue` leaves the outbound queue as it is and
sets `refreshVoice`, and it still writes the byte: for an offset `>= 0` the
buffer becomes the old one with `(uint8) v` at `offset` (read back there when
the offset lies in the buffer), an offset below 0 having no byte and leaving
the buffer as it is. A `CtrlDX` that is not buffer-backed (`dxOffset < 0`)
changes neither the voice buffer nor the outbound queue nor `refreshVoice` on
`setValue` and on `setValueHost`. -/
theorem emission_gated (p : DexedAudioProcessor) (offset v : ℤ) (c : CtrlDX)
    (q : DexedAudioProcessor) (w : ℤ) (f : ℚ) :
    (p.sendSysexChange = false →
      (p.setDxValue offset v).midiOut = p.midiOut ∧
        (p.setDxValue offset v).refreshVoice = true ∧
        (0 ≤ offset → (p.setDxValue offset v).data = p.data.set offset.toNat (toUint8 v)) ∧
        (0 ≤ offset → offset.toNat < p.data.length →
          (p.setDxValue offset v).data.getD offset.toNat 0 = toUint8 v) ∧
        (offset < 0 → (p.setDxValue offset v).data = p.data)) ∧
      (c.dxOffset < 0 →
        (c.setValue q w).2.data = q.data ∧ (c.setValue q w).2.midiOut = q.midiOut ∧
          (c.setValue q w).2.refreshVoice = q.refreshVoice ∧
          (c.setValueHost q f).2.data = q.data ∧ (c.setValueHost q f).2.midiOut = q.midiOut ∧
          (c.setValueHost q f).2.refreshVoice = q.refreshVoice) := by
  refine ⟨fun hs => ⟨setDxValue_midiOut_off p offset v hs, setDxValue_refreshVoice p offset v,
    fun h => setDxValue_data p offset v h, fun h hl => ?_,
    fun h => setDxValue_data_neg p offset v h⟩, fun h => ?_⟩
  · rw [setDxValue_data p offset v h]
    simp [List.getD_eq_getElem?_getD, List.getElem?_set, hl]
  · obtain ⟨a1, a2, a3⟩ := setValue_unbacked c q w h
    obtain ⟨b1, b2, b3⟩ := setValue_unbacked c q (floatToInt (fmul f c.steps)) h
    exact ⟨a1, a2, a3, b1, b2, b3⟩

set_option maxRecDepth 8000 in
/-- C15 at a concrete input: with outbound messages disabled, `setDxValue(135, 5)`
queues nothing, sets `refreshVoice` and stores 5 at offset 135; a descriptor with
offset -1 leaves buffer and queue alone on `setValue(5)`. -/
theorem emission_gated_witness :
    sampleQuiet.sendSysexChange = false ∧ unbackedWired.dxOffset < 0 ∧
      (sampleQuiet.setDxValue 135 5).midiOut = [] ∧
      (sampleQuiet.setDxValue 135 5).refreshVoice = true ∧
      (sampleQuiet.setDxValue 135 5).data.getD 135 0 = 5 ∧
      (unbackedWired.setValue sampleProcessor 5).2.data = sampleProcessor.data ∧
      (unbackedWired.setValue sampleProcessor 5).2.midiOut = [] := by
  have h := emission_gated sampleQuiet 135 5 unbackedWired sampleProcessor 5 (1 / 2)
  have h1 := h.1 rfl
  have h2 := h.2 (by show (-1 : ℤ) < 0; norm_num)
  refine ⟨rfl, by show (-1 : ℤ) < 0; norm_num, h1.1, h1.2.1, ?_, h2.1, h2.2.1⟩
  have := h1.2.2.2.1 (by norm_num) (by show (135 : ℤ).toNat < (List.replicate 155 (0 : ℤ)).length; simp)
  simpa [toUint8] using this

/-! ### Display text -/

/-- The text of an integer: its decimal digits, after a minus sign when it is negative. -/
theorem toString_int (n : ℤ) :
    toString n = if 0 ≤ n then toString n.toNat else "-" ++ toString (-n).toNat := by
  cases n with
  | ofNat m => simp; rfl
  | negSucc m =>
    have : ¬ (0 ≤ Int.negSucc m) := by simp
    rw [if_neg this]
    rfl

theorem getValue_displayValue (c : CtrlDX) (p : DexedAudioProcessor) :
    (c.getValue p).1.displayValue = c.displayValue := by
  unfold CtrlDX.getValue
  dsimp only
  split_ifs <;> rfl

theorem getValue_snd (c : CtrlDX) (p : DexedAudioProcessor) :
    (c.getValue p).2 = if 0 ≤ c.dxOffset then p.data.getD c.dxOffset.toNat 0 else c.dxValue := by
  unfold CtrlDX.getValue
  dsimp only
  split_ifs <;> rfl

theorem getValueDisplay_snd (c : CtrlDX) (p : DexedAudioProcessor) :
    (c.getValueDisplay p).2 = toString ((c.getValue p).2 + c.displayValue) := by
  unfold CtrlDX.getValueDisplay
  rw [getValue_displayValue]

/-- C16: for every `CtrlDX` with display offset `d` and current native value
`v` (what `getValue()` returns: the buffer byte of a buffer-backed descriptor,
the cached value otherwise), `getValueDisplay()`, and `getParameterText` through
it, returns the decimal text of the signed integer `v + d` with no clamping:
its digits when `v + d >= 0`, a minus sign and the digits of `-(v + d)` when it
is negative. The display offset has no influence on the stored native value,
on the processor a set operation leaves (buffer byte and message), on
`getValueHost()` or on `getValue()`: a descriptor with any other display offset
behaves the same. -/
theorem getValueDisplay_decimal (c : CtrlDX) (p : DexedAudioProcessor) (d w : ℤ) (f : ℚ)
    (showFloat : ℚ → String) (index : ℤ) :
    (c.getValueDisplay p).2 = toString ((c.getValue p).2 + c.displayValue) ∧
      (0 ≤ (c.getValue p).2 + c.displayValue →
        (c.getValueDisplay p).2 = toString ((c.getValue p).2 + c.displayValue).toNat) ∧
      ((c.getValue p).2 + c.displayValue < 0 →
        (c.getValueDisplay p).2
          = "-" ++ toString (-((c.getValue p).2 + c.displayValue)).toNat) ∧
      (p.ctrlAt index = some (Control.dx c) →
        (p.getParameterText showFloat index).map Prod.fst
          = some (toString ((c.getValue p).2 + c.displayValue))) ∧
      (c.getValue p).2
        = (if 0 ≤ c.dxOffset then p.data.getD c.dxOffset.toNat 0 else c.dxValue) ∧
      (({ c with displayValue := d } : CtrlDX).setValue p w).1.dxValue
        = (c.setValue p w).1.dxValue ∧
      (({ c with displayValue := d } : CtrlDX).setValue p w).2 = (c.setValue p w).2 ∧
      (({ c with displayValue := d } : CtrlDX).setValueHost p f).1.dxValue
        = (c.setValueHost p f).1.dxValue ∧
      (({ c with displayValue := d } : CtrlDX).setValueHost p f).2 = (c.setValueHost p f).2 ∧
      ({ c with displayValue := d } : CtrlDX).getValueHost = c.getValueHost ∧
      (({ c with displayValue := d } : CtrlDX).getValue p).2 = (c.getValue p).2 := by
  have hset : ∀ x : ℤ, (({ c with displayValue := d } : CtrlDX).setValue p x).1.dxValue
        = (c.setValue p x).1.dxValue ∧
      (({ c with displayValue := d } : CtrlDX).setValue p x).2 = (c.setValue p x).2 := by
    intro x
    unfold CtrlDX.setValue
    dsimp only
    split_ifs <;> exact ⟨rfl, rfl⟩
  refine ⟨getValueDisplay_snd c p, fun h => ?_, fun h => ?_, fun h => ?_, getValue_snd c p,
    (hset w).1, (hset w).2, (hset _).1, (hset _).2, rfl, ?_⟩
  · rw [getValueDisplay_snd, toString_int, if_pos h]
  · rw [getValueDisplay_snd, toString_int, if_neg (by omega)]
  · unfold DexedAudioProcessor.getParameterText
    rw [h]
    simp only [Option.map_some', Control.getValueDisplay]
    rw [getValueDisplay_snd]
  · rw [getValue_snd, getValue_snd]

set_option maxRecDepth 100000 in
/-- C16 at a concrete input: in the registry of the example processor, whose
voice buffer is all zero, the text of parameter 34 (OP1 OSC DETUNE, d = -7) is
"-7" and the text of parameter 3 (ALGORITHM, d = 1) is "1". -/
theorem getValueDisplay_decimal_witness :
    (sampleProcessor.initCtrl id).ctrlAt 34 = some (Control.dx detuneWired) ∧
      (sampleProcessor.initCtrl id).ctrlAt 3 = some (Control.dx algorithmWired) ∧
      ((sampleProcessor.initCtrl id).getParameterText (fun _ => "") 34).map Prod.fst
        = some "-7" ∧
      ((sampleProcessor.initCtrl id).getParameterText (fun _ => "") 3).map Prod.fst
        = some "1" := by
  have h34 : (sampleProcessor.initCtrl id).ctrlAt 34 = some (Control.dx detuneWired) := by
    show (wireFrom 0 ([] ++ registryTable))[34]? = some (Control.dx detuneWired)
    rfl
  have h3 : (sampleProcessor.initCtrl id).ctrlAt 3 = some (Control.dx algorithmWired) := by
    show (wireFrom 0 ([] ++ registryTable))[3]? = some (Control.dx algorithmWired)
    rfl
  refine ⟨h34, h3, ?_, ?_⟩
  · rw [(getValueDisplay_decimal detuneWired (sampleProcessor.initCtrl id) 0 0 0
      (fun _ => "") 34).2.2.2.1 h34]
    rfl
  · rw [(getValueDisplay_decimal algorithmWired (sampleProcessor.initCtrl id) 0 0 0
      (fun _ => "") 3).2.2.2.1 h3]
    rfl

/-! ### Widget refresh and decode -/

/-- What `getValue()` leaves of the descriptor: only `dxValue` may change. -/
theorem getValue_fst (c : CtrlDX) (p : DexedAudioProcessor) :
    (c.getValue p).1 = { c with dxValue := (c.getValue p).2 } := by
  unfold CtrlDX.getValue
  dsimp only
  split_ifs <;> rfl

/-- A descriptor with the same offset that caches what `getValue()` returned
reads the same value. -/
theorem getValue_stable (c d : CtrlDX) (p : DexedAudioProcessor)
    (ho : d.dxOffset = c.dxOffset) (hv : d.dxValue = (c.getValue p).2) :
    (d.getValue p).2 = (c.getValue p).2 := by
  rw [getValue_snd d, ho]
  split_ifs with h
  · rw [getValue_snd c, if_pos h]
  · exact hv

theorem refreshSlider_spec (c : CtrlDX) (p : DexedAudioProcessor) :
    (c.refreshSlider p).dxOffset = c.dxOffset ∧
      (c.refreshSlider p).displayValue = c.displayValue ∧
      ((c.refreshSlider p).getValue p).2 = (c.getValue p).2 ∧
      (c.refreshSlider p).slider = c.slider.map (fun (s : Slider) =>
        { s with value := (((c.getValue p).2 + c.displayValue : ℤ) : ℚ) }) ∧
      (c.refreshSlider p).button = c.button ∧ (c.refreshSlider p).comboBox = c.comboBox := by
  unfold CtrlDX.refreshSlider
  cases h : c.slider with
  | none => simp [h]
  | some s =>
    simp only [Option.map_some']
    rw [getValue_fst c p]
    exact ⟨rfl, rfl, getValue_stable c _ p rfl rfl, rfl, rfl, rfl⟩

theorem refreshButton_spec (c : CtrlDX) (p : DexedAudioProcessor) :
    (c.refreshButton p).dxOffset = c.dxOffset ∧
      (c.refreshButton p).displayValue = c.displayValue ∧
      ((c.refreshButton p).getValue p).2 = (c.getValue p).2 ∧
      (c.refreshButton p).button = c.button.map (fun (b : Button) =>
        { b with toggleState := !decide ((c.getValue p).2 = 0) }) ∧
      (c.refreshButton p).slider = c.slider ∧ (c.refreshButton p).comboBox = c.comboBox := by
  unfold CtrlDX.refreshButton
  cases h : c.button with
  | none => simp [h]
  | some b =>
    simp only [Option.map_some']
    rw [getValue_fst c p]
    split_ifs with hz
    · exact ⟨rfl, rfl, getValue_stable c _ p rfl rfl, by simp [hz], rfl, rfl⟩
    · exact ⟨rfl, rfl, getValue_stable c _ p rfl rfl, by simp [hz], rfl, rfl⟩

theorem refreshComboBox_spec (c : CtrlDX) (p : DexedAudioProcessor) :
    (c.refreshComboBox p).dxOffset = c.dxOffset ∧
      (c.refreshComboBox p).displayValue = c.displayValue ∧
      ((c.refreshComboBox p).getValue p).2 = (c.getValue p).2 ∧
      (c.refreshComboBox p).comboBox = c.comboBox.map (fun (cb : ComboBox) =>
        { cb with selectedId :=
            if cb.numItems ≤ (c.getValue p).2 + 1 then cb.numItems else (c.getValue p).2 + 1 }) ∧
      (c.refreshComboBox p).slider = c.slider ∧ (c.refreshComboBox p).button = c.button := by
  unfold CtrlDX.refreshComboBox
  cases h : c.comboBox with
  | none => simp [h]
  | some cb =>
    simp only [Option.map_some']
    rw [getValue_fst c p]
    refine ⟨?_, ?_, ?_, ?_, ?_, ?_⟩ <;>
      first | trivial | rfl | exact getValue_stable c _ p rfl rfl

/-- The widgets `updateComponent()` leaves: each bound widget shows the value
`getValue()` returns in the state the refresh starts from. -/
theorem updateComponent_spec (c : CtrlDX) (p : DexedAudioProcessor) :
    (c.updateComponent p).dxOffset = c.dxOffset ∧
      (c.updateComponent p).displayValue = c.displayValue ∧
      ((c.updateComponent p).getValue p).2 = (c.getValue p).2 ∧
      (c.updateComponent p).slider = c.slider.map (fun (s : Slider) =>
        { s with value := (((c.getValue p).2 + c.displayValue : ℤ) : ℚ) }) ∧
      (c.updateComponent p).button = c.button.map (fun (b : Button) =>
        { b with toggleState := !decide ((c.getValue p).2 = 0) }) ∧
      (c.updateComponent p).comboBox = c.comboBox.map (fun (cb : ComboBox) =>
        { cb with selectedId :=
            if cb.numItems ≤ (c.getValue p).2 + 1 then cb.numItems else (c.getValue p).2 + 1 }) := by
  obtain ⟨a1, a2, a3, a4, a5, a6⟩ := refreshSlider_spec c p
  obtain ⟨b1, b2, b3, b4, b5, b6⟩ := refreshButton_spec (c.refreshSlider p) p
  obtain ⟨c1, c2, c3, c4, c5, c6⟩ := refreshComboBox_spec ((c.refreshSlider p).refreshButton p) p
  unfold CtrlDX.updateComponent
  refine ⟨by rw [c1, b1, a1], by rw [c2, b2, a2], by rw [c3, b3, a3], by rw [c5, b5, a4],
    by rw [c6, b4, a5, a3], by rw [c4, b6, a6, b3, a3]⟩

theorem sliderValueChanged_decode (q : DexedAudioProcessor) (i : ℕ) (d : CtrlDX)
    (moved : Slider) (v : ℤ) (hq : q.ctrl[i]? = some (Control.dx d))
    (hm : moved.value = ((v + d.displayValue : ℤ) : ℚ)) :
    q.sliderValueChanged i moved = q.publishValue i (intToFloat v) := by
  unfold DexedAudioProcessor.sliderValueChanged
  rw [hq]
  simp only
  rw [hm, floatToInt_int, add_sub_cancel_right]

theorem comboBoxChanged_decode (q : DexedAudioProcessor) (i : ℕ) (d : CtrlDX)
    (combo : ComboBox) (v : ℤ) (hq : q.ctrl[i]? = some (Control.dx d))
    (hm : combo.selectedId = v + 1) :
    q.comboBoxChanged i combo = q.publishValue i (intToFloat v) := by
  unfold DexedAudioProcessor.comboBoxChanged
  rw [hq]
  simp only
  rw [hm, add_sub_cancel_right]

theorem buttonClicked_decode (q : DexedAudioProcessor) (i : ℕ) (clicked : Button) (v : ℤ)
    (hv : v = 0 ∨ v = 1) (hm : clicked.toggleState = !decide (v = 0)) :
    q.buttonClicked i clicked = q.publishValue i (intToFloat v) := by
  unfold DexedAudioProcessor.buttonClicked
  rw [hm]
  rcases hv with rfl | rfl <;> simp

/-- C20: widget refresh followed by widget decode is the identity on native
values. For a `CtrlDX` with native value `v` (what `getValue()` returns) and
display offset `d`, refreshed by `updateComponent`, and a processor whose
registry holds at position `i` a `CtrlDX` with the same display offset: a bound
slider is set to `v + d`, and `sliderValueChanged` on a slider at that position
is the call `publishValue(v)`; a bound combo box selects `min(v + 1, numItems)`,
and when `v + 1 <= numItems` `comboBoxChanged` on that selection is the call
`publishValue(v)`; a bound button is on iff `v != 0`, and when `v` is 0 or 1
`buttonClicked` on that toggle state is the call `publishValue(v)`. The value
handed over is `v` converted to `float`, which is `v` itself up to 2^24. -/
theorem refresh_decode_identity (c : CtrlDX) (p q : DexedAudioProcessor) (i : ℕ) (d : CtrlDX)
    (hq : q.ctrl[i]? = some (Control.dx d)) (hd : d.displayValue = c.displayValue) :
    (∀ s : Slider, c.slider = some s → ∃ s1 : Slider,
        (c.updateComponent p).slider = some s1 ∧
          s1.value = (((c.getValue p).2 + c.displayValue : ℤ) : ℚ) ∧
          ∀ moved : Slider, moved.value = s1.value →
            q.sliderValueChanged i moved = q.publishValue i (intToFloat (c.getValue p).2)) ∧
      (∀ cb : ComboBox, c.comboBox = some cb → ∃ cb1 : ComboBox,
        (c.updateComponent p).comboBox = some cb1 ∧
          cb1.selectedId = min ((c.getValue p).2 + 1) cb.numItems ∧
          ((c.getValue p).2 + 1 ≤ cb.numItems →
            ∀ combo : ComboBox, combo.selectedId = cb1.selectedId →
              q.comboBoxChanged i combo = q.publishValue i (intToFloat (c.getValue p).2))) ∧
      (∀ b : Button, c.button = some b → ∃ b1 : Button,
        (c.updateComponent p).button = some b1 ∧
          (b1.toggleState = true ↔ (c.getValue p).2 ≠ 0) ∧
          ((c.getValue p).2 = 0 ∨ (c.getValue p).2 = 1 →
            ∀ clicked : Button, clicked.toggleState = b1.toggleState →
              q.buttonClicked i clicked = q.publishValue i (intToFloat (c.getValue p).2))) ∧
      (|(c.getValue p).2| ≤ 2 ^ 24 → intToFloat (c.getValue p).2 = (((c.getValue p).2 : ℤ) : ℚ)) := by
  obtain ⟨_, _, _, us, ub, uc⟩ := updateComponent_spec c p
  refine ⟨fun s hs => ?_, fun cb hcb => ?_, fun b hb => ?_, fun h => intToFloat_exact _ h⟩
  · rw [hs] at us
    refine ⟨_, us, rfl, fun moved hm => ?_⟩
    exact sliderValueChanged_decode q i d moved _ hq (by rw [hm, hd])
  · rw [hcb] at uc
    refine ⟨_, uc, ?_, fun hle combo hm => ?_⟩
    · show (if cb.numItems ≤ (c.getValue p).2 + 1 then cb.numItems else (c.getValue p).2 + 1)
        = min ((c.getValue p).2 + 1) cb.numItems
      split_ifs with hh
      · exact (min_eq_right hh).symm
      · exact (min_eq_left (by omega)).symm
    · refine comboBoxChanged_decode q i d combo _ hq ?_
      rw [hm]
      show (if cb.numItems ≤ (c.getValue p).2 + 1 then cb.numItems else (c.getValue p).2 + 1)
        = (c.getValue p).2 + 1
      split_ifs with hh
      · omega
      · rfl
  · rw [hb] at ub
    refine ⟨_, ub, ?_, fun hv clicked hm => ?_⟩
    · show (!decide ((c.getValue p).2 = 0)) = true ↔ (c.getValue p).2 ≠ 0
      simp
    · exact buttonClicked_decode q i clicked _ hv (by rw [hm])

set_option maxRecDepth 100000 in
/-- C20 at a concrete input: ALGORITHM (display offset 1) after a program
switch that left 5 in its byte. The refreshed slider shows 6 and decodes to the
call `publishValue(5)`; the combo box selects 6 and decodes to the same call. -/
theorem refresh_decode_identity_witness :
    sampleBound.ctrl[3]? = some (Control.dx (boundAlgorithm.updateComponent sampleSwitched)) ∧
      (boundAlgorithm.getValue sampleSwitched).2 = 5 ∧
      (∃ s1 : Slider, (boundAlgorithm.updateComponent sampleSwitched).slider = some s1 ∧
        s1.value = (((boundAlgorithm.getValue sampleSwitched).2
          + boundAlgorithm.displayValue : ℤ) : ℚ) ∧
        ∀ moved : Slider, moved.value = s1.value →
          sampleBound.sliderValueChanged 3 moved
            = sampleBound.publishValue 3 (intToFloat (boundAlgorithm.getValue sampleSwitched).2)) := by
  have hq : sampleBound.ctrl[3]?
      = some (Control.dx (boundAlgorithm.updateComponent sampleSwitched)) := by
    show ((wireFrom 0 ([] ++ registryTable)).set 3
      (Control.dx (boundAlgorithm.updateComponent sampleSwitched)))[3]? = _
    exact List.getElem?_set_self (by rw [wireFrom_length]; decide)
  have h := refresh_decode_identity boundAlgorithm sampleSwitched sampleBound 3
    (boundAlgorithm.updateComponent sampleSwitched) hq
    (updateComponent_spec boundAlgorithm sampleSwitched).2.1
  exact ⟨hq, rfl, h.1 _ rfl⟩

/-! ### Host queries after a program switch -/

theorem feedbackWired_getValueHost : feedbackWired.getValueHost = 0 := by
  show fdiv (intToFloat 0) feedbackWired.steps = 0
  unfold fdiv intToFloat
  rw [Int.cast_zero, roundF32_zero, zero_div, roundF32_zero]

set_option maxRecDepth 100000 in
/-- C12: `getValueHost()` returns the cached `dxValue` divided by the step
count and does not read the voice buffer. After `initCtrl` on the example
processor and a switch to a program whose bytes are all 5, FEEDBACK (offset
135, step count 8) still caches 0: `getParameter(4)` is 0 whatever the buffer
holds, while the byte is 5, the quotient byte / N is 5/8, and the text of the
same parameter, which goes through `getValue()`, is "5". -/
theorem getValueHost_stale_after_switch :
    sampleSwitched.ctrlAt 4 = some (Control.dx feedbackWired) ∧
      0 ≤ feedbackWired.dxOffset ∧
      sampleSwitched.data.getD feedbackWired.dxOffset.toNat 0 = 5 ∧
      feedbackWired.dxValue = 0 ∧
      sampleSwitched.getParameter 4 = some 0 ∧
      (∀ p : DexedAudioProcessor, Control.getValueHost p (Control.dx feedbackWired) = 0) ∧
      fdiv (intToFloat 5) feedbackWired.steps = 5 / 8 ∧
      (sampleSwitched.getParameterText (fun _ => "") 4).map Prod.fst = some "5" := by
  have h4 : sampleSwitched.ctrlAt 4 = some (Control.dx feedbackWired) := by
    show (wireFrom 0 ([] ++ registryTable))[4]? = some (Control.dx feedbackWired)
    rfl
  refine ⟨h4, by show (0 : ℤ) ≤ 135; norm_num, rfl, rfl, ?_, fun p => feedbackWired_getValueHost,
    ?_, ?_⟩
  · unfold DexedAudioProcessor.getParameter
    rw [h4]
    show some feedbackWired.getValueHost = some 0
    rw [feedbackWired_getValueHost]
  · rw [feedbackWired_steps, intToFloat_exact 5 (by norm_num)]
    have := isF32_div_two_pow 5 3 (by norm_num) (by norm_num)
    unfold fdiv
    have e : (((5 : ℤ) : ℚ) / ((8 : ℕ) : ℚ)) = ((5 : ℤ) : ℚ) / ((2 ^ 3 : ℕ) : ℚ) := by norm_num
    rw [e, this]
    norm_num
  · unfold DexedAudioProcessor.getParameterText
    rw [h4]
    rfl

/-! ### Binding and unbinding -/

theorem toCtrl_withCtrl (c : Control) (b : Ctrl) : (c.withCtrl b).toCtrl = b := by
  cases c <;> rfl

/-- `Ctrl::unbind()` leaves the three widget references NULL. -/
theorem ctrl_unbind_widgets (c : Ctrl) :
    c.unbind.slider = none ∧ c.unbind.button = none ∧ c.unbind.comboBox = none := by
  rcases c with ⟨label, slider, button, comboBox, idx, parent⟩
  cases slider <;> cases button <;> cases comboBox <;> exact ⟨rfl, rfl, rfl⟩

theorem unbind_widgets (c : Control) :
    c.unbind.toCtrl.slider = none ∧ c.unbind.toCtrl.button = none ∧
      c.unbind.toCtrl.comboBox = none := by
  unfold Control.unbind
  rw [toCtrl_withCtrl]
  exact ctrl_unbind_widgets _

/-- `Ctrl::unbind()` on a descriptor with no widget bound changes nothing. -/
theorem unbind_of_unbound (c : Control) (h1 : c.toCtrl.slider = none)
    (h2 : c.toCtrl.button = none) (h3 : c.toCtrl.comboBox = none) : c.unbind = c := by
  cases c with
  | float c =>
    rcases c with ⟨⟨label, slider, button, comboBox, idx, parent⟩, v⟩
    simp only [Control.toCtrl] at h1 h2 h3
    subst h1 h2 h3
    rfl
  | dx c =>
    rcases c with ⟨⟨label, slider, button, comboBox, idx, parent⟩, a, b, d, e⟩
    simp only [Control.toCtrl] at h1 h2 h3
    subst h1 h2 h3
    rfl

/-- A widget refresh keeps each widget reference NULL or not NULL as it was. -/
theorem updateComponent_widgets (p : DexedAudioProcessor) (c : Control) :
    (c.updateComponent p).toCtrl.slider.isSome = c.toCtrl.slider.isSome ∧
      (c.updateComponent p).toCtrl.button.isSome = c.toCtrl.button.isSome ∧
      (c.updateComponent p).toCtrl.comboBox.isSome = c.toCtrl.comboBox.isSome := by
  cases c with
  | float c =>
    show (c.updateComponent p).slider.isSome = c.slider.isSome ∧
      (c.updateComponent p).button.isSome = c.button.isSome ∧
      (c.updateComponent p).comboBox.isSome = c.comboBox.isSome
    unfold CtrlFloat.updateComponent
    cases h : c.slider with
    | none => simp [h]
    | some s => simp
  | dx c =>
    obtain ⟨_, _, _, us, ub, uc⟩ := updateComponent_spec c p
    show (c.updateComponent p).slider.isSome = c.slider.isSome ∧
      (c.updateComponent p).button.isSome = c.button.isSome ∧
      (c.updateComponent p).comboBox.isSome = c.comboBox.isSome
    rw [us, ub, uc]
    simp

theorem bindSlider_widgets (c : Control) (p : DexedAudioProcessor) (s : Slider) :
    (c.bindSlider p s).toCtrl.slider.isSome = true ∧
      (c.bindSlider p s).toCtrl.button.isSome = c.toCtrl.button.isSome ∧
      (c.bindSlider p s).toCtrl.comboBox.isSome = c.toCtrl.comboBox.isSome := by
  obtain ⟨h1, h2, h3⟩ := updateComponent_widgets p (c.withCtrl { c.toCtrl with slider := some s })
  rw [toCtrl_withCtrl] at h1 h2 h3
  unfold Control.bindSlider
  dsimp only
  rw [toCtrl_withCtrl]
  exact ⟨by simpa using h1, h2, h3⟩

theorem bindButton_widgets (c : Control) (p : DexedAudioProcessor) (b : Button) :
    (c.bindButton p b).toCtrl.button.isSome = true ∧
      (c.bindButton p b).toCtrl.slider.isSome = c.toCtrl.slider.isSome ∧
      (c.bindButton p b).toCtrl.comboBox.isSome = c.toCtrl.comboBox.isSome := by
  obtain ⟨h1, h2, h3⟩ := updateComponent_widgets p (c.withCtrl { c.toCtrl with button := some b })
  rw [toCtrl_withCtrl] at h1 h2 h3
  unfold Control.bindButton
  dsimp only
  rw [toCtrl_withCtrl]
  exact ⟨by simpa using h2, h1, h3⟩

theorem bindComboBox_widgets (c : Control) (p : DexedAudioProcessor) (cb : ComboBox) :
    (c.bindComboBox p cb).toCtrl.comboBox.isSome = true ∧
      (c.bindComboBox p cb).toCtrl.slider.isSome = c.toCtrl.slider.isSome ∧
      (c.bindComboBox p cb).toCtrl.button.isSome = c.toCtrl.button.isSome := by
  obtain ⟨h1, h2, h3⟩ :=
    updateComponent_widgets p (c.withCtrl { c.toCtrl with comboBox := some cb })
  rw [toCtrl_withCtrl] at h1 h2 h3
  unfold Control.bindComboBox
  dsimp only
  rw [toCtrl_withCtrl]
  exact ⟨by simpa using h3, h1, h2⟩

theorem applyAll_append (p : DexedAudioProcessor) (c : Control) (l m : List BindOp) :
    BindOp.applyAll p c (l ++ m) = BindOp.applyAll p (BindOp.applyAll p c l) m := by
  induction l generalizing c with
  | nil => rfl
  | cons a as ih => exact ih _

/-- One call on a descriptor with no widget bound leaves at most one bound. -/
theorem boundCount_after_one (p : DexedAudioProcessor) (c : Control) (op : BindOp)
    (h1 : c.toCtrl.slider = none) (h2 : c.toCtrl.button = none)
    (h3 : c.toCtrl.comboBox = none) : (op.apply p c).toCtrl.boundCount ≤ 1 := by
  cases op with
  | slider s =>
    obtain ⟨a, b, d⟩ := bindSlider_widgets c p s
    rw [h2] at b
    rw [h3] at d
    simp only [BindOp.apply, Ctrl.boundCount, a, b, d]
    decide
  | button s =>
    obtain ⟨a, b, d⟩ := bindButton_widgets c p s
    rw [h1] at b
    rw [h3] at d
    simp only [BindOp.apply, Ctrl.boundCount, a, b, d]
    decide
  | comboBox s =>
    obtain ⟨a, b, d⟩ := bindComboBox_widgets c p s
    rw [h1] at b
    rw [h2] at d
    simp only [BindOp.apply, Ctrl.boundCount, a, b, d]
    decide
  | unbind =>
    obtain ⟨a, b, d⟩ := unbind_widgets c
    simp only [BindOp.apply, Ctrl.boundCount, a, b, d]
    decide

/-- C13, the claim as stated fails: on the wired FEEDBACK descriptor,
`bind(Slider)` followed by `bind(Button)` leaves both the slider and the button
reference non-null, two references and not at most one. -/
theorem second_bind_keeps_first :
    (BindOp.applyAll sampleProcessor (Control.dx feedbackWired)
        [BindOp.slider sampleSlider, BindOp.button sampleButton]).toCtrl.slider.isSome = true ∧
      (BindOp.applyAll sampleProcessor (Control.dx feedbackWired)
        [BindOp.slider sampleSlider, BindOp.button sampleButton]).toCtrl.button.isSome = true ∧
      ¬ (BindOp.applyAll sampleProcessor (Control.dx feedbackWired)
        [BindOp.slider sampleSlider, BindOp.button sampleButton]).toCtrl.boundCount ≤ 1 := by
  obtain ⟨a1, _, _⟩ := bindSlider_widgets (Control.dx feedbackWired) sampleProcessor sampleSlider
  obtain ⟨b1, b2, _⟩ := bindButton_widgets
    ((Control.dx feedbackWired).bindSlider sampleProcessor sampleSlider) sampleProcessor
    sampleButton
  rw [a1] at b2
  have e : BindOp.applyAll sampleProcessor (Control.dx feedbackWired)
      [BindOp.slider sampleSlider, BindOp.button sampleButton]
      = ((Control.dx feedbackWired).bindSlider sampleProcessor sampleSlider).bindButton
          sampleProcessor sampleButton := rfl
  rw [e]
  refine ⟨b2, b1, ?_⟩
  simp only [Ctrl.boundCount, b1, b2, if_true]
  split_ifs <;> omega

/-- C13, amended: for every descriptor and every sequence of bind and unbind
calls, `unbind()` as the last call leaves all three widget references NULL,
and a second `unbind()` right after it changes nothing; one more call after an
`unbind()` leaves at most one reference non-null; and a bind sets the
reference of its own kind and leaves each of the other two NULL or non-null as
it was, so it clears no widget bound before. -/
theorem binding_after_unbind (p : DexedAudioProcessor) (c : Control) (ops : List BindOp)
    (op : BindOp) (s : Slider) (b : Button) (cb : ComboBox) :
    ((BindOp.applyAll p c (ops ++ [BindOp.unbind])).toCtrl.slider = none ∧
        (BindOp.applyAll p c (ops ++ [BindOp.unbind])).toCtrl.button = none ∧
        (BindOp.applyAll p c (ops ++ [BindOp.unbind])).toCtrl.comboBox = none) ∧
      BindOp.applyAll p c (ops ++ [BindOp.unbind, BindOp.unbind])
        = BindOp.applyAll p c (ops ++ [BindOp.unbind]) ∧
      (BindOp.applyAll p c (ops ++ [BindOp.unbind, op])).toCtrl.boundCount ≤ 1 ∧
      ((c.bindSlider p s).toCtrl.slider.isSome = true ∧
        (c.bindSlider p s).toCtrl.button.isSome = c.toCtrl.button.isSome ∧
        (c.bindSlider p s).toCtrl.comboBox.isSome = c.toCtrl.comboBox.isSome) ∧
      ((c.bindButton p b).toCtrl.button.isSome = true ∧
        (c.bindButton p b).toCtrl.slider.isSome = c.toCtrl.slider.isSome ∧
        (c.bindButton p b).toCtrl.comboBox.isSome = c.toCtrl.comboBox.isSome) ∧
      ((c.bindComboBox p cb).toCtrl.comboBox.isSome = true ∧
        (c.bindComboBox p cb).toCtrl.slider.isSome = c.toCtrl.slider.isSome ∧
        (c.bindComboBox p cb).toCtrl.button.isSome = c.toCtrl.button.isSome) := by
  have hu : BindOp.applyAll p c (ops ++ [BindOp.unbind]) = (BindOp.applyAll p c ops).unbind := by
    rw [applyAll_append]
    rfl
  obtain ⟨u1, u2, u3⟩ := unbind_widgets (BindOp.applyAll p c ops)
  refine ⟨by rw [hu]; exact ⟨u1, u2, u3⟩, ?_, ?_, bindSlider_widgets c p s,
    bindButton_widgets c p b, bindComboBox_widgets c p cb⟩
  · rw [hu, applyAll_append]
    show ((BindOp.applyAll p c ops).unbind).unbind = _
    exact unbind_of_unbound _ u1 u2 u3
  · rw [applyAll_append]
    show (op.apply p (BindOp.applyAll p c ops).unbind).toCtrl.boundCount ≤ 1
    exact boundCount_after_one p _ op u1 u2 u3

/-! ### Bind followed by unbind -/

theorem refreshSlider_value (c : CtrlDX) (p : DexedAudioProcessor) :
    (c.refreshSlider p).steps = c.steps ∧
      (c.refreshSlider p).dxValue = if c.slider.isSome then (c.getValue p).2 else c.dxValue := by
  unfold CtrlDX.refreshSlider
  cases h : c.slider with
  | none => exact ⟨rfl, rfl⟩
  | some s =>
    rw [getValue_fst c p]
    exact ⟨rfl, rfl⟩

theorem refreshButton_value (c : CtrlDX) (p : DexedAudioProcessor) :
    (c.refreshButton p).steps = c.steps ∧
      (c.refreshButton p).dxValue = if c.button.isSome then (c.getValue p).2 else c.dxValue := by
  unfold CtrlDX.refreshButton
  cases h : c.button with
  | none => exact ⟨rfl, rfl⟩
  | some s =>
    rw [getValue_fst c p]
    simp only [Option.isSome_some, if_true]
    split_ifs <;> exact ⟨rfl, rfl⟩

theorem refreshComboBox_value (c : CtrlDX) (p : DexedAudioProcessor) :
    (c.refreshComboBox p).steps = c.steps ∧
      (c.refreshComboBox p).dxValue
        = if c.comboBox.isSome then (c.getValue p).2 else c.dxValue := by
  unfold CtrlDX.refreshComboBox
  cases h : c.comboBox with
  | none => exact ⟨rfl, rfl⟩
  | some s =>
    rw [getValue_fst c p]
    exact ⟨rfl, rfl⟩

/-- The native value `updateComponent()` leaves: what `getValue()` returns as
soon as one widget is bound, the cached value otherwise. -/
theorem updateComponent_value (c : CtrlDX) (p : DexedAudioProcessor) :
    (c.updateComponent p).steps = c.steps ∧
      (c.updateComponent p).dxValue
        = if c.slider.isSome ∨ c.button.isSome ∨ c.comboBox.isSome then (c.getValue p).2
          else c.dxValue := by
  obtain ⟨a1, a2⟩ := refreshSlider_value c p
  obtain ⟨_, _, a3, _, a5, a6⟩ := refreshSlider_spec c p
  obtain ⟨b1, b2⟩ := refreshButton_value (c.refreshSlider p) p
  obtain ⟨_, _, b3, _, _, b6⟩ := refreshButton_spec (c.refreshSlider p) p
  obtain ⟨c1, c2⟩ := refreshComboBox_value ((c.refreshSlider p).refreshButton p) p
  unfold CtrlDX.updateComponent
  refine ⟨by rw [c1, b1, a1], ?_⟩
  rw [c2, b6, a6, b3, a3, b2, a5, a3, a2]
  cases c.slider <;> cases c.button <;> cases c.comboBox <;> simp

/-- What a bind leaves of a `CtrlDX`: the native value is what `getValue()`
returns in the state the bind is made in. -/
theorem bindSlider_dx (c : CtrlDX) (p : DexedAudioProcessor) (s : Slider) :
    ∃ d : CtrlDX, (Control.dx c).bindSlider p s = Control.dx d ∧
      d.dxValue = (c.getValue p).2 ∧ d.steps = c.steps ∧ d.dxOffset = c.dxOffset ∧
      d.displayValue = c.displayValue := by
  obtain ⟨v1, v2⟩ := updateComponent_value
    ({ c with toCtrl := { c.toCtrl with slider := some s } } : CtrlDX) p
  obtain ⟨o1, o2, _⟩ := updateComponent_spec
    ({ c with toCtrl := { c.toCtrl with slider := some s } } : CtrlDX) p
  refine ⟨_, rfl, ?_, v1, o1, o2⟩
  show (({ c with toCtrl := { c.toCtrl with slider := some s } } : CtrlDX).updateComponent
    p).dxValue = _
  rw [v2]
  simp only [Option.isSome_some, true_or, or_true, if_true]
  rw [getValue_snd, getValue_snd]

theorem bindButton_dx (c : CtrlDX) (p : DexedAudioProcessor) (b : Button) :
    ∃ d : CtrlDX, (Control.dx c).bindButton p b = Control.dx d ∧
      d.dxValue = (c.getValue p).2 ∧ d.steps = c.steps ∧ d.dxOffset = c.dxOffset ∧
      d.displayValue = c.displayValue := by
  obtain ⟨v1, v2⟩ := updateComponent_value
    ({ c with toCtrl := { c.toCtrl with button := some b } } : CtrlDX) p
  obtain ⟨o1, o2, _⟩ := updateComponent_spec
    ({ c with toCtrl := { c.toCtrl with button := some b } } : CtrlDX) p
  refine ⟨_, rfl, ?_, v1, o1, o2⟩
  show (({ c with toCtrl := { c.toCtrl with button := some b } } : CtrlDX).updateComponent
    p).dxValue = _
  rw [v2]
  simp only [Option.isSome_some, true_or, or_true, if_true]
  rw [getValue_snd, getValue_snd]

theorem bindComboBox_dx (c : CtrlDX) (p : DexedAudioProcessor) (cb : ComboBox) :
    ∃ d : CtrlDX, (Control.dx c).bindComboBox p cb = Control.dx d ∧
      d.dxValue = (c.getValue p).2 ∧ d.steps = c.steps ∧ d.dxOffset = c.dxOffset ∧
      d.displayValue = c.displayValue := by
  obtain ⟨v1, v2⟩ := updateComponent_value
    ({ c with toCtrl := { c.toCtrl with comboBox := some cb } } : CtrlDX) p
  obtain ⟨o1, o2, _⟩ := updateComponent_spec
    ({ c with toCtrl := { c.toCtrl with comboBox := some cb } } : CtrlDX) p
  refine ⟨_, rfl, ?_, v1, o1, o2⟩
  show (({ c with toCtrl := { c.toCtrl with comboBox := some cb } } : CtrlDX).updateComponent
    p).dxValue = _
  rw [v2]
  simp only [Option.isSome_some, true_or, or_true, if_true]
  rw [getValue_snd, getValue_snd]

/-- A bind at position `i` followed by `unbind()` there touches the registry
entry at `i` and nothing else of the processor. -/
theorem step_then_unbind (unpack : ℤ → List ℤ) (p : DexedAudioProcessor) (i : ℕ)
    (x : Control) (h : i < p.ctrl.length) :
    ({ p with ctrl := p.ctrl.set i x } : DexedAudioProcessor).step unpack (Op.unbind i)
      = { p with ctrl := p.ctrl.set i x.unbind } := by
  have hx : (p.ctrl.set i x)[i]? = some x := List.getElem?_set_self h
  simp only [DexedAudioProcessor.step, hx, List.set_set]

theorem unbind_dx (d : CtrlDX) :
    (Control.dx d).unbind = Control.dx { d with toCtrl := d.toCtrl.unbind } := rfl

/-- C14, amended: for every `CtrlDX` at a position `i` of the registry, in
every state, `bind(widget)` (slider, button or combo box) immediately followed
by `unbind()` changes no voice-buffer byte, appends no outbound message, issues
no host notification and leaves everything of the processor but the registry
entry at `i` as it was; the descriptor keeps step count, offset and display
offset, has no widget bound, and its stored native value is what `getValue()`
returns: the buffer byte at `dxOffset` for a buffer-backed descriptor, so the
cached value is replaced by the byte when the two differ, and the unchanged
`dxValue` when the descriptor is not buffer-backed or the byte equals it. -/
theorem bind_unbind_frame (unpack : ℤ → List ℤ) (p : DexedAudioProcessor) (i : ℕ) (c : CtrlDX)
    (hc : p.ctrl[i]? = some (Control.dx c)) (s : Slider) (b : Button) (cb : ComboBox) (op : Op)
    (hop : op = Op.bindSlider i s ∨ op = Op.bindButton i b ∨ op = Op.bindComboBox i cb) :
    ∃ d : CtrlDX,
      (p.step unpack op).step unpack (Op.unbind i) = { p with ctrl := p.ctrl.set i (Control.dx d) } ∧
      ((p.step unpack op).step unpack (Op.unbind i)).data = p.data ∧
      ((p.step unpack op).step unpack (Op.unbind i)).midiOut = p.midiOut ∧
      ((p.step unpack op).step unpack (Op.unbind i)).hostLog = p.hostLog ∧
      ((p.step unpack op).step unpack (Op.unbind i)).refreshVoice = p.refreshVoice ∧
      d.dxValue = (c.getValue p).2 ∧
      (0 ≤ c.dxOffset → d.dxValue = p.data.getD c.dxOffset.toNat 0) ∧
      (c.dxOffset < 0 → d.dxValue = c.dxValue) ∧
      (p.data.getD c.dxOffset.toNat 0 = c.dxValue → d.dxValue = c.dxValue) ∧
      d.steps = c.steps ∧ d.dxOffset = c.dxOffset ∧ d.displayValue = c.displayValue ∧
      d.slider = none ∧ d.button = none ∧ d.comboBox = none := by
  have hlen : i < p.ctrl.length := (List.getElem?_eq_some.mp hc).1
  have key : ∀ x : Control, (∃ d0 : CtrlDX, x = Control.dx d0 ∧ d0.dxValue = (c.getValue p).2 ∧
      d0.steps = c.steps ∧ d0.dxOffset = c.dxOffset ∧ d0.displayValue = c.displayValue) →
      p.step unpack op = { p with ctrl := p.ctrl.set i x } →
      ∃ d : CtrlDX,
        (p.step unpack op).step unpack (Op.unbind i)
          = { p with ctrl := p.ctrl.set i (Control.dx d) } ∧
        ((p.step unpack op).step unpack (Op.unbind i)).data = p.data ∧
        ((p.step unpack op).step unpack (Op.unbind i)).midiOut = p.midiOut ∧
        ((p.step unpack op).step unpack (Op.unbind i)).hostLog = p.hostLog ∧
        ((p.step unpack op).step unpack (Op.unbind i)).refreshVoice = p.refreshVoice ∧
        d.dxValue = (c.getValue p).2 ∧
        (0 ≤ c.dxOffset → d.dxValue = p.data.getD c.dxOffset.toNat 0) ∧
        (c.dxOffset < 0 → d.dxValue = c.dxValue) ∧
        (p.data.getD c.dxOffset.toNat 0 = c.dxValue → d.dxValue = c.dxValue) ∧
        d.steps = c.steps ∧ d.dxOffset = c.dxOffset ∧ d.displayValue = c.displayValue ∧
        d.slider = none ∧ d.button = none ∧ d.comboBox = none := by
    rintro x ⟨d0, rfl, hv, hs, ho, hd⟩ hstep
    obtain ⟨w1, w2, w3⟩ := ctrl_unbind_widgets d0.toCtrl
    have hq : (p.step unpack op).step unpack (Op.unbind i)
        = { p with ctrl := p.ctrl.set i (Control.dx { d0 with toCtrl := d0.toCtrl.unbind }) } := by
      rw [hstep, step_then_unbind unpack p i _ hlen, unbind_dx]
    have hval : ({ d0 with toCtrl := d0.toCtrl.unbind } : CtrlDX).dxValue = (c.getValue p).2 := hv
    refine ⟨{ d0 with toCtrl := d0.toCtrl.unbind }, hq, by rw [hq], by rw [hq], by rw [hq],
      by rw [hq], hval, fun h => ?_, fun h => ?_, fun h => ?_, hs, ho, hd, w1, w2, w3⟩
    · rw [hval, getValue_snd, if_pos h]
    · rw [hval, getValue_snd, if_neg (by omega)]
    · rw [hval, getValue_snd]
      split_ifs
      · exact h
      · rfl
  rcases hop with rfl | rfl | rfl
  · exact key _ (bindSlider_dx c p s) (by simp only [DexedAudioProcessor.step, hc])
  · exact key _ (bindButton_dx c p b) (by simp only [DexedAudioProcessor.step, hc])
  · exact key _ (bindComboBox_dx c p cb) (by simp only [DexedAudioProcessor.step, hc])

set_option maxRecDepth 100000 in
/-- C14, the claim as stated fails: after the switch to a program whose bytes
are all 5, FEEDBACK at position 4 still caches 0; binding a slider to it and
unbinding at once leaves 5 as its stored native value. -/
theorem bind_unbind_changes_dxValue :
    sampleSwitched.ctrl[4]? = some (Control.dx feedbackWired) ∧ feedbackWired.dxValue = 0 ∧
      ∃ d : CtrlDX,
        ((sampleSwitched.step sampleUnpack (Op.bindSlider 4 sampleSlider)).step sampleUnpack
          (Op.unbind 4)).ctrl[4]? = some (Control.dx d) ∧
        d.dxValue = 5 ∧ d.dxValue ≠ feedbackWired.dxValue := by
  have hc : sampleSwitched.ctrl[4]? = some (Control.dx feedbackWired) := by
    show (wireFrom 0 ([] ++ registryTable))[4]? = some (Control.dx feedbackWired)
    rfl
  have hlen : 4 < sampleSwitched.ctrl.length := (List.getElem?_eq_some.mp hc).1
  obtain ⟨d0, hd0, hv, _⟩ := bindSlider_dx feedbackWired sampleSwitched sampleSlider
  have h5 : (feedbackWired.getValue sampleSwitched).2 = 5 := rfl
  have hstep : sampleSwitched.step sampleUnpack (Op.bindSlider 4 sampleSlider)
      = { sampleSwitched with ctrl := sampleSwitched.ctrl.set 4 (Control.dx d0) } := by
    simp only [DexedAudioProcessor.step, hc, hd0]
  refine ⟨hc, rfl, { d0 with toCtrl := d0.toCtrl.unbind }, ?_, ?_, ?_⟩
  · rw [hstep, step_then_unbind sampleUnpack sampleSwitched 4 _ hlen, unbind_dx]
    exact List.getElem?_set_self hlen
  · exact hv.trans h5
  · show d0.dxValue ≠ 0
    rw [hv, h5]
    norm_num

set_option maxRecDepth 100000 in
/-- C14 amended, at a concrete input: in the registry of the example processor,
whose voice buffer is all zero, binding a slider to FEEDBACK and unbinding at
once leaves buffer, outbound queue and host log as they were and the stored
native value 0. -/
theorem bind_unbind_frame_witness :
    (sampleProcessor.initCtrl id).ctrl[4]? = some (Control.dx feedbackWired) ∧
      ∃ d : CtrlDX,
        (((sampleProcessor.initCtrl id).step sampleUnpack (Op.bindSlider 4 sampleSlider)).step
          sampleUnpack (Op.unbind 4)).ctrl[4]? = some (Control.dx d) ∧
        (((sampleProcessor.initCtrl id).step sampleUnpack (Op.bindSlider 4 sampleSlider)).step
          sampleUnpack (Op.unbind 4)).data = (sampleProcessor.initCtrl id).data ∧
        (((sampleProcessor.initCtrl id).step sampleUnpack (Op.bindSlider 4 sampleSlider)).step
          sampleUnpack (Op.unbind 4)).midiOut = [] ∧
        d.dxValue = feedbackWired.dxValue := by
  have hc : (sampleProcessor.initCtrl id).ctrl[4]? = some (Control.dx feedbackWired) := by
    show (wireFrom 0 ([] ++ registryTable))[4]? = some (Control.dx feedbackWired)
    rfl
  have hlen : 4 < (sampleProcessor.initCtrl id).ctrl.length := (List.getElem?_eq_some.mp hc).1
  obtain ⟨d, h1, h2, h3, _, _, _, _, _, h9, _⟩ :=
    bind_unbind_frame sampleUnpack (sampleProcessor.initCtrl id) 4 feedbackWired hc sampleSlider
      sampleButton sampleComboBox (Op.bindSlider 4 sampleSlider) (Or.inl rfl)
  refine ⟨hc, d, ?_, h2, h3, h9 rfl⟩
  rw [h1]
  exact List.getElem?_set_self hlen

/-! ### The range of the stored native value -/

theorem setValue_dxOffset (c : CtrlDX) (p : DexedAudioProcessor) (v : ℤ) :
    (c.setValue p v).1.dxOffset = c.dxOffset := by
  unfold CtrlDX.setValue
  dsimp only
  split_ifs <;> rfl

/-- The voice buffer a set operation leaves: the old one, with the `(uint8)`
of the stored value at the offset of a wired buffer-backed descriptor. -/
theorem setValue_data (c : CtrlDX) (p : DexedAudioProcessor) (v : ℤ) :
    (c.setValue p v).2.data
      = if 0 ≤ c.dxOffset ∧ c.parent = true then
          p.data.set c.dxOffset.toNat (toUint8 (c.setValue p v).1.dxValue)
        else p.data := by
  by_cases ho : 0 ≤ c.dxOffset
  · by_cases hp : c.parent = true
    · obtain ⟨q, hq1, _, _, hq4⟩ := setValue_backed c p v ho hp
      rw [if_pos ⟨ho, hp⟩, hq4, setDxValue_data q _ _ ho, hq1]
    · rw [if_neg (fun h => hp h.2)]
      unfold CtrlDX.setValue
      dsimp only
      split_ifs <;> rfl
  · rw [if_neg (fun h => ho h.1)]
    unfold CtrlDX.setValue
    dsimp only
    split_ifs <;> rfl

theorem toUint8_bounds (x : ℤ) (N : ℕ) (h0 : 0 ≤ x) (h1 : x ≤ (N : ℤ) - 1) :
    0 ≤ toUint8 x ∧ toUint8 x ≤ (N : ℤ) - 1 := by
  unfold toUint8
  omega

/-- Writing a byte of the range keeps the byte at any position in the range. -/
theorem getD_set_bounds (l : List ℤ) (n m : ℕ) (x : ℤ) (N : ℕ) (hN1 : 1 ≤ N)
    (hx : 0 ≤ x ∧ x ≤ (N : ℤ) - 1)
    (hl : 0 ≤ l.getD m 0 ∧ l.getD m 0 ≤ (N : ℤ) - 1) :
    0 ≤ (l.set n x).getD m 0 ∧ (l.set n x).getD m 0 ≤ (N : ℤ) - 1 := by
  rw [List.getD_eq_getElem?_getD] at hl ⊢
  rw [List.getElem?_set]
  split_ifs with h1 h2
  · simpa using hx
  · simp only [Option.getD_none]
    omega
  · exact hl

/-- A request for a value that is not negative keeps the range. -/
theorem setValue_rangeInv (N : ℕ) (hN1 : 1 ≤ N) (hN : N ≤ 2 ^ 24) (c : CtrlDX)
    (p : DexedAudioProcessor) (v : ℤ) (hs : c.steps = N) (hv : 0 ≤ v)
    (hb : ByteInRange N c.dxOffset p) : RangeInv N c.dxOffset (c.setValue p v) := by
  have hval : 0 ≤ (c.setValue p v).1.dxValue ∧ (c.setValue p v).1.dxValue ≤ (N : ℤ) - 1 := by
    rw [setValue_dxValue, hs]
    split_ifs with h
    · rw [steps_pred N hN]
      omega
    · have : v < (N : ℤ) := by
        by_contra hc
        exact h (steps_le_intToFloat N v hN (by omega))
      omega
  refine ⟨(setValue_steps c p v).trans hs, setValue_dxOffset c p v, hval.1, hval.2, ?_⟩
  intro ho
  rw [setValue_data]
  split_ifs
  · exact getD_set_bounds _ _ _ _ N hN1 (toUint8_bounds _ N hval.1 hval.2) (hb ho)
  · exact hb ho

/-- Each operation made within the range keeps the range invariant. -/
theorem apply_rangeInv (N : ℕ) (hN1 : 1 ≤ N) (hN : N ≤ 2 ^ 24) (off : ℤ)
    (s : CtrlDX × DexedAudioProcessor) (op : DxOp) (hI : RangeInv N off s)
    (hop : DxOp.InRange N off op) : RangeInv N off (op.apply s) := by
  obtain ⟨hs, ho, h0, h1, hb⟩ := hI
  cases op with
  | setValueHost f =>
    have hge : 0 ≤ fmul f s.1.steps := by
      rw [hs]
      exact roundF32_nonneg (mul_nonneg hop.1 (by positivity))
    have hv : 0 ≤ floatToInt (fmul f s.1.steps) := by
      rw [floatToInt_of_nonneg hge]
      exact Int.floor_nonneg.mpr hge
    have := setValue_rangeInv N hN1 hN s.1 s.2 _ hs hv (by rw [ho]; exact hb)
    rw [ho] at this
    exact this
  | setValue v =>
    have := setValue_rangeInv N hN1 hN s.1 s.2 v hs hop (by rw [ho]; exact hb)
    rw [ho] at this
    exact this
  | getValue =>
    show RangeInv N off ((s.1.getValue s.2).1, s.2)
    rw [getValue_fst]
    refine ⟨hs, ho, ?_, ?_, hb⟩
    · show 0 ≤ (s.1.getValue s.2).2
      rw [getValue_snd]
      split_ifs with h
      · rw [ho] at h ⊢
        exact (hb h).1
      · exact h0
    · show (s.1.getValue s.2).2 ≤ (N : ℤ) - 1
      rw [getValue_snd]
      split_ifs with h
      · rw [ho] at h ⊢
        exact (hb h).2
      · exact h1
  | updateComponent =>
    show RangeInv N off (s.1.updateComponent s.2, s.2)
    obtain ⟨u1, u2⟩ := updateComponent_value s.1 s.2
    obtain ⟨o1, _⟩ := updateComponent_spec s.1 s.2
    have hg : 0 ≤ (s.1.getValue s.2).2 ∧ (s.1.getValue s.2).2 ≤ (N : ℤ) - 1 := by
      rw [getValue_snd]
      split_ifs with h
      · rw [ho]
        exact hb (by rw [← ho]; exact h)
      · exact ⟨h0, h1⟩
    refine ⟨u1.trans hs, o1.trans ho, ?_, ?_, hb⟩
    · show 0 ≤ (s.1.updateComponent s.2).dxValue
      rw [u2]
      split_ifs
      · exact hg.1
      · exact h0
    · show (s.1.updateComponent s.2).dxValue ≤ (N : ℤ) - 1
      rw [u2]
      split_ifs
      · exact hg.2
      · exact h1
  | programSwitch unpack now index =>
    show RangeInv N off (s.1, s.2.setCurrentProgram unpack now index)
    refine ⟨hs, ho, h0, h1, ?_⟩
    intro hoff
    by_cases hg : s.2.lastStateSave + 2 > now
    · rw [setCurrentProgram_dropped unpack now s.2 index hg]
      exact hb hoff
    · rw [(setCurrentProgram_accepted unpack now s.2 index hg).2.2.2]
      exact hop

theorem applyAll_rangeInv (N : ℕ) (hN1 : 1 ≤ N) (hN : N ≤ 2 ^ 24) (off : ℤ)
    (ops : List DxOp) (s : CtrlDX × DexedAudioProcessor) (hI : RangeInv N off s)
    (hops : ∀ op ∈ ops, DxOp.InRange N off op) : RangeInv N off (DxOp.applyAll s ops) := by
  induction ops generalizing s with
  | nil => exact hI
  | cons op rest ih =>
    exact ih (op.apply s)
      (apply_rangeInv N hN1 hN off s op hI (hops op (List.mem_cons_self _ _)))
      (fun o ho => hops o (List.mem_cons_of_mem _ ho))

set_option maxRecDepth 100000 in
/-- C11, the claim as stated fails: on the wired FEEDBACK descriptor (step
count 8) `setValue(-1)` stores -1, a following `getValue()` reads back the byte
255 the write left in the buffer, and after a switch to a program whose bytes
are 31 `getValue()` stores 31; none of the three lies in [0, 7]. -/
theorem setValue_negative_escapes_range :
    feedbackWired.steps = ((8 : ℕ) : ℚ) ∧
      (DxOp.applyAll (feedbackWired, sampleProcessor) [DxOp.setValue (-1)]).1.dxValue = -1 ∧
      (DxOp.applyAll (feedbackWired, sampleProcessor)
        [DxOp.setValue (-1), DxOp.getValue]).1.dxValue = 255 ∧
      (DxOp.applyAll (feedbackWired, sampleProcessor)
        [DxOp.programSwitch sampleUnpack 10 31, DxOp.getValue]).1.dxValue = 31 := by
  have hneg : ¬ (feedbackWired.steps ≤ intToFloat (-1)) := by
    rw [feedbackWired_steps, intToFloat_exact (-1) (by norm_num)]
    norm_num
  have h1 : (feedbackWired.setValue sampleProcessor (-1)).1.dxValue = -1 := by
    rw [setValue_dxValue, if_neg hneg]
  refine ⟨feedbackWired_steps, h1, ?_, rfl⟩
  show ((feedbackWired.setValue sampleProcessor (-1)).1.getValue
    (feedbackWired.setValue sampleProcessor (-1)).2).1.dxValue = 255
  show ((feedbackWired.setValue sampleProcessor (-1)).1.getValue
    (feedbackWired.setValue sampleProcessor (-1)).2).2 = 255
  rw [getValue_snd, setValue_dxOffset, setValue_data, h1]
  rfl

/-- C11, amended: for every `CtrlDX` with step count `N` (1 <= N <= 2^24) whose
stored native value lies in [0, N-1] (the constructor stores 0) and whose
buffer byte, if it is buffer-backed, lies in [0, N-1], after every sequence of
`setValueHost(f)` with `0 <= f <= 1`, `setValue(v)` with `v >= 0`, `getValue()`,
widget refreshes and program switches that leave a byte in [0, N-1] at the
offset of the descriptor, the stored native value lies in [0, N-1]; the step
count is unchanged and the byte at the offset stays in [0, N-1]. -/
theorem range_invariant_in_range (N : ℕ) (hN1 : 1 ≤ N) (hN : N ≤ 2 ^ 24) (c : CtrlDX)
    (p : DexedAudioProcessor) (hs : c.steps = N) (h0 : 0 ≤ c.dxValue)
    (h1 : c.dxValue ≤ (N : ℤ) - 1) (hb : ByteInRange N c.dxOffset p) (ops : List DxOp)
    (hops : ∀ op ∈ ops, DxOp.InRange N c.dxOffset op) :
    0 ≤ (DxOp.applyAll (c, p) ops).1.dxValue ∧
      (DxOp.applyAll (c, p) ops).1.dxValue ≤ (N : ℤ) - 1 ∧
      (DxOp.applyAll (c, p) ops).1.steps = N ∧
      ByteInRange N c.dxOffset (DxOp.applyAll (c, p) ops).2 := by
  obtain ⟨a, _, b, d, e⟩ :=
    applyAll_rangeInv N hN1 hN c.dxOffset ops (c, p) ⟨hs, rfl, h0, h1, hb⟩ hops
  exact ⟨b, d, a, e⟩

set_option maxRecDepth 100000 in
/-- C11 amended, at a concrete input: FEEDBACK (step count 8) on the example
processor, after a host write of 1/2, a request for 9 (clamped), a read, a
widget refresh and a switch to program 5, holds a native value in [0, 7]. -/
theorem range_invariant_in_range_witness :
    feedbackWired.steps = ((8 : ℕ) : ℚ) ∧
      0 ≤ (DxOp.applyAll (feedbackWired, sampleProcessor)
        [DxOp.setValueHost (1 / 2), DxOp.setValue 9, DxOp.getValue, DxOp.updateComponent,
          DxOp.programSwitch sampleUnpack 10 5, DxOp.getValue]).1.dxValue ∧
      (DxOp.applyAll (feedbackWired, sampleProcessor)
        [DxOp.setValueHost (1 / 2), DxOp.setValue 9, DxOp.getValue, DxOp.updateComponent,
          DxOp.programSwitch sampleUnpack 10 5, DxOp.getValue]).1.dxValue ≤ ((8 : ℕ) : ℤ) - 1 := by
  have h := range_invariant_in_range 8 (by norm_num) (by norm_num) feedbackWired sampleProcessor
    feedbackWired_steps (by show (0 : ℤ) ≤ 0; norm_num)
    (by show (0 : ℤ) ≤ ((8 : ℕ) : ℤ) - 1; norm_num)
    (fun _ => by decide)
    [DxOp.setValueHost (1 / 2), DxOp.setValue 9, DxOp.getValue, DxOp.updateComponent,
      DxOp.programSwitch sampleUnpack 10 5, DxOp.getValue]
    (by
      intro op hop
      simp only [List.mem_cons, List.mem_singleton, List.not_mem_nil, or_false] at hop
      rcases hop with rfl | rfl | rfl | rfl | rfl | rfl
      · exact ⟨by norm_num, by norm_num⟩
      · show (0 : ℤ) ≤ 9
        norm_num
      · trivial
      · trivial
      · show 0 ≤ (sampleUnpack (if (5 : ℤ) > 31 then 31 else 5)).getD
            feedbackWired.dxOffset.toNat 0 ∧
          (sampleUnpack (if (5 : ℤ) > 31 then 31 else 5)).getD
            feedbackWired.dxOffset.toNat 0 ≤ ((8 : ℕ) : ℤ) - 1
        decide
      · trivial)
  exact ⟨feedbackWired_steps, h.1, h.2.1⟩

/-! ### The byte and the message of a set operation -/

/-- The byte a set operation leaves at the offset of a wired buffer-backed
descriptor: the `(uint8)` of the stored native value. -/
theorem setValue_byte (c : CtrlDX) (p : DexedAudioProcessor) (v : ℤ) (hoff : 0 ≤ c.dxOffset)
    (hlen : c.dxOffset.toNat < p.data.length) (hpar : c.parent = true) :
    (c.setValue p v).2.data.getD c.dxOffset.toNat 0 = toUint8 (c.setValue p v).1.dxValue := by
  rw [setValue_data, if_pos ⟨hoff, hpar⟩, List.getD_eq_getElem?_getD, List.getElem?_set_self hlen]
  rfl

theorem toUint8_eq_iff (x : ℤ) : toUint8 x = x ↔ 0 ≤ x ∧ x < 256 := by
  unfold toUint8
  omega

/-- A request that is not negative stores a value of the range. -/
theorem setValue_dxValue_range (N : ℕ) (hN : N ≤ 2 ^ 24) (c : CtrlDX)
    (p : DexedAudioProcessor) (v : ℤ) (hs : c.steps = N) (hv : 0 ≤ v) (hN1 : 1 ≤ N) :
    0 ≤ (c.setValue p v).1.dxValue ∧ (c.setValue p v).1.dxValue ≤ (N : ℤ) - 1 := by
  rw [setValue_dxValue, hs]
  split_ifs with h
  · rw [steps_pred N hN]
    omega
  · have : v < (N : ℤ) := by
      by_contra hc
      exact h (steps_le_intToFloat N v hN (by omega))
    omega

set_option maxRecDepth 100000 in
/-- C5, the claim as stated fails: on the wired FEEDBACK descriptor (offset
135, step count 8), outbound messages enabled, the set operation `setValue(-1)`
stores the native value -1, while `data[135]` is 255 and the one message
queued is [0xF0, 0x43, 0x10, 1, 7, 255, 0xF7]: neither the byte nor the value
of the message equals the stored native value. -/
theorem setValue_negative_byte_differs :
    0 ≤ feedbackWired.dxOffset ∧ feedbackWired.parent = true ∧
      sampleProcessor.sendSysexChange = true ∧
      (feedbackWired.setValue sampleProcessor (-1)).1.dxValue = -1 ∧
      (feedbackWired.setValue sampleProcessor (-1)).2.data.getD
        feedbackWired.dxOffset.toNat 0 = 255 ∧
      (feedbackWired.setValue sampleProcessor (-1)).2.midiOut
        = [[0xF0, 0x43, 0x10, 1, 7, 255, 0xF7]] ∧
      (feedbackWired.setValue sampleProcessor (-1)).2.data.getD feedbackWired.dxOffset.toNat 0
        ≠ (feedbackWired.setValue sampleProcessor (-1)).1.dxValue := by
  have hoff : 0 ≤ feedbackWired.dxOffset := by show (0 : ℤ) ≤ 135; norm_num
  have hlen : feedbackWired.dxOffset.toNat < sampleProcessor.data.length := by
    show (135 : ℤ).toNat < (List.replicate 155 (0 : ℤ)).length
    simp
  have hneg : ¬ (feedbackWired.steps ≤ intToFloat (-1)) := by
    rw [feedbackWired_steps, intToFloat_exact (-1) (by norm_num)]
    norm_num
  have h1 : (feedbackWired.setValue sampleProcessor (-1)).1.dxValue = -1 := by
    rw [setValue_dxValue, if_neg hneg]
  have hb : (feedbackWired.setValue sampleProcessor (-1)).2.data.getD
      feedbackWired.dxOffset.toNat 0 = 255 := by
    rw [setValue_byte feedbackWired sampleProcessor (-1) hoff hlen rfl, h1]
    rfl
  have hm := setValue_message feedbackWired sampleProcessor (-1) hoff rfl rfl
  rw [h1] at hm
  refine ⟨hoff, rfl, rfl, h1, hb, ?_, ?_⟩
  · rw [hm]
    rfl
  · rw [hb, h1]
    norm_num

/-- C5, amended: for every buffer-backed `CtrlDX` (`dxOffset` a valid index of
the voice buffer, parent wired) and every set operation (`setValue(v)`, which
`setValueHost(f)` reaches with the converted product): afterwards
`data[dxOffset]` is the `(uint8)` of the stored native value, and when
`sendSysexChange` is enabled exactly one message is appended to the outbound
queue, of length 7 and equal to [0xF0, 0x43, 0x10, h, l, value, 0xF7] with
h = 1 if dxOffset > 127 else 0, l = dxOffset & 0x7F and value the `(uint8)` of
the stored native value. The `(uint8)` of the stored native value is that
value exactly when it lies in 0..255; this is so for every request `v >= 0` on
a descriptor with step count `N`, `1 <= N <= 256`, where the byte and the value
of the message equal the stored native value. -/
theorem setValue_writes_buffer_and_message (c : CtrlDX) (p : DexedAudioProcessor) (v : ℤ)
    (hoff : 0 ≤ c.dxOffset) (hlen : c.dxOffset.toNat < p.data.length) (hpar : c.parent = true) :
    (c.setValue p v).2.data.getD c.dxOffset.toNat 0 = toUint8 (c.setValue p v).1.dxValue ∧
      (p.sendSysexChange = true →
        ∃ msg : List ℤ, (c.setValue p v).2.midiOut = p.midiOut ++ [msg] ∧ msg.length = 7 ∧
          msg = [0xF0, 0x43, 0x10, if c.dxOffset > 127 then 1 else 0,
            Int.land c.dxOffset 0x7F, toUint8 (c.setValue p v).1.dxValue, 0xF7]) ∧
      (toUint8 (c.setValue p v).1.dxValue = (c.setValue p v).1.dxValue ↔
        0 ≤ (c.setValue p v).1.dxValue ∧ (c.setValue p v).1.dxValue < 256) ∧
      (∀ N : ℕ, 1 ≤ N → N ≤ 256 → c.steps = N → 0 ≤ v →
        (c.setValue p v).2.data.getD c.dxOffset.toNat 0 = (c.setValue p v).1.dxValue ∧
          (p.sendSysexChange = true →
            (c.setValue p v).2.midiOut
              = p.midiOut ++ [[0xF0, 0x43, 0x10, if c.dxOffset > 127 then 1 else 0,
                  Int.land c.dxOffset 0x7F, (c.setValue p v).1.dxValue, 0xF7]])) ∧
      (∀ f : ℚ, c.setValueHost p f = c.setValue p (floatToInt (fmul f c.steps))) := by
  refine ⟨setValue_byte c p v hoff hlen hpar,
    fun hs => ⟨_, setValue_message c p v hoff hpar hs, rfl, rfl⟩, toUint8_eq_iff _,
    fun N hN1 hN hs hv => ?_, fun _ => rfl⟩
  obtain ⟨r0, r1⟩ := setValue_dxValue_range N (by omega) c p v hs hv hN1
  exact setValue_buffer_message c p v hoff hlen hpar r0 (by omega)

/-- C5 amended, at a concrete input: FEEDBACK (offset 135, step count 8) set to
5 with outbound messages enabled writes 5 at `data[135]` and queues the one
message [0xF0, 0x43, 0x10, 1, 7, 5, 0xF7]. -/
theorem setValue_writes_buffer_and_message_witness :
    (feedbackWired.setValue sampleProcessor 5).2.data.getD 135 0 = 5 ∧
      (feedbackWired.setValue sampleProcessor 5).2.midiOut
        = [[0xF0, 0x43, 0x10, 1, 7, 5, 0xF7]] := by
  have h := setValue_writes_buffer_and_message feedbackWired sampleProcessor 5
    (by show (0 : ℤ) ≤ 135; norm_num)
    (by show (135 : ℤ).toNat < (List.replicate 155 (0 : ℤ)).length; simp) rfl
  obtain ⟨h1, h2⟩ := h.2.2.2.1 8 (by norm_num) (by norm_num) feedbackWired_steps (by norm_num)
  have h3 := h2 rfl
  rw [feedbackWired_setValue_five] at h1 h3
  refine ⟨h1, ?_⟩
  rw [h3]
  rfl

end Dexed
